import Mathlib

/-!
# Verification of the actionista-todoist action-chain core

Shallow embedding of the core components of the `actionista-todoist`
repository:

* the Python value model used by task records (`PyVal`),
* the binary-operator registry (`src/actionista/binary_operators.py`),
* the generic attribute filter evaluator
  (`filter_tasks` in `src/actionista/todoist/action_commands.py`, with the
  comparison-value coercion variant of
  `src/actionista/todoist/action_cli.py` embedded alongside),
* the argument-chain parser
  (`parse_argv` in `src/actionista/action_cli_core/action_cli_argv_parser.py`),
* the action dispatch executor (tail of `action_cli` in
  `src/actionista/todoist/action_cli.py`),
* the sort handler (`sort_tasks` in `action_commands.py`),
* the record field deriver (`add_task_date_fields` and
  `get_input_output_dicts` in `src/actionista/todoist/tasks_utils.py`),
* the special `-is` filter (`special_is_filter` in `action_commands.py`).

Python exceptions are modelled with `Option` (`none` = the call raises).
Python `None` is the value `PyVal.none`.  Machine-external collaborators
(date parsing, timezone conversion) are abstracted as explicit environment
parameters, mirroring the specification's note that natural-language date
parsing and timezone handling are external collaborators.
-/

namespace Actionista

/-- A Python `datetime.datetime` object, reduced to its calendar fields and
an awareness flag.  `tzAware = true` models a timezone-aware datetime
(one with `tzinfo` set); the embedding keeps all aware datetimes in local
wall-clock fields, matching the repository's convention that "all
timestamps and datetime objects are just in local time". -/
structure PyDateTime where
  year : Nat
  month : Nat
  day : Nat
  hour : Nat
  minute : Nat
  second : Nat
  tzAware : Bool
deriving DecidableEq, Repr

/-- The v8 Sync API `due` sub-dictionary of a task, with the fixed schema
`date`, `string`, `is_recurring`, `timezone` that
`add_task_date_fields` reads (`input_dict['due'][...]`). -/
structure DueDict where
  date : String
  string : String
  isRecurring : Bool
  timezone : Option String
deriving DecidableEq, Repr

/-- A dynamically-typed Python value as it occurs in task records:
`None`, `bool`, `int`, `str`, `datetime`, the nested `due` dict, or a
list.  (Floats, sets and general nested dicts do not occur in the record
fields the verified components touch.) -/
inductive PyVal where
  | none : PyVal
  | bool (b : Bool) : PyVal
  | int (n : Int) : PyVal
  | str (s : String) : PyVal
  | dt (d : PyDateTime) : PyVal
  | due (d : DueDict) : PyVal
  | list (xs : List PyVal) : PyVal
deriving Repr

mutual

/-- Structural (Lean-level) equality test for `PyVal`; used only to build
the `DecidableEq` instance, it is not a Python operator. -/
def pyBeq : PyVal → PyVal → Bool
  | .none, .none => true
  | .bool a, .bool b => a == b
  | .int a, .int b => a == b
  | .str a, .str b => a == b
  | .dt a, .dt b => a == b
  | .due a, .due b => a == b
  | .list a, .list b => pyBeqL a b
  | _, _ => false

def pyBeqL : List PyVal → List PyVal → Bool
  | [], [] => true
  | a :: as, b :: bs => pyBeq a b && pyBeqL as bs
  | _, _ => false

end

mutual

theorem pyBeq_iff : ∀ a b : PyVal, pyBeq a b = true ↔ a = b
  | .none, .none => by simp [pyBeq]
  | .bool a, .bool b => by simp [pyBeq]
  | .int a, .int b => by simp [pyBeq]
  | .str a, .str b => by simp [pyBeq]
  | .dt a, .dt b => by simp [pyBeq]
  | .due a, .due b => by simp [pyBeq]
  | .list a, .list b => by
      simp only [pyBeq, pyBeqL_iff a b]
      exact ⟨fun h => by rw [h], fun h => by cases h; rfl⟩
  | .none, .bool _ | .none, .int _ | .none, .str _ | .none, .dt _
  | .none, .due _ | .none, .list _
  | .bool _, .none | .bool _, .int _ | .bool _, .str _ | .bool _, .dt _
  | .bool _, .due _ | .bool _, .list _
  | .int _, .none | .int _, .bool _ | .int _, .str _ | .int _, .dt _
  | .int _, .due _ | .int _, .list _
  | .str _, .none | .str _, .bool _ | .str _, .int _ | .str _, .dt _
  | .str _, .due _ | .str _, .list _
  | .dt _, .none | .dt _, .bool _ | .dt _, .int _ | .dt _, .str _
  | .dt _, .due _ | .dt _, .list _
  | .due _, .none | .due _, .bool _ | .due _, .int _ | .due _, .str _
  | .due _, .dt _ | .due _, .list _
  | .list _, .none | .list _, .bool _ | .list _, .int _ | .list _, .str _
  | .list _, .dt _ | .list _, .due _ => by simp [pyBeq]

theorem pyBeqL_iff : ∀ as bs : List PyVal, pyBeqL as bs = true ↔ as = bs
  | [], [] => by simp [pyBeqL]
  | a :: as, b :: bs => by
      simp only [pyBeqL, Bool.and_eq_true, pyBeq_iff a b, pyBeqL_iff as bs,
        List.cons.injEq]
  | [], _ :: _ => by simp [pyBeqL]
  | _ :: _, [] => by simp [pyBeqL]

end

instance : DecidableEq PyVal := fun a b =>
  decidable_of_iff (pyBeq a b = true) (pyBeq_iff a b)

/-- The runtime type tag of a value: Python's `type(x)`.  Note that
`type(True) = bool` is distinct from `type(1) = int`. -/
inductive PyTy where
  | noneTy | boolTy | intTy | strTy | dtTy | dictTy | listTy
deriving DecidableEq, Repr

def pyType : PyVal → PyTy
  | .none => .noneTy
  | .bool _ => .boolTy
  | .int _ => .intTy
  | .str _ => .strTy
  | .dt _ => .dtTy
  | .due _ => .dictTy
  | .list _ => .listTy

/-- Python `isinstance(x, int)`: `bool` is a subclass of `int`. -/
def isInstInt : PyVal → Bool
  | .bool _ => true
  | .int _ => true
  | _ => false

/-- Python truthiness `bool(x)` for the embedded values. -/
def pyTruthy : PyVal → Bool
  | .none => false
  | .bool b => b
  | .int n => n != 0
  | .str s => s != ""
  | .dt _ => true
  | .due _ => true
  | .list xs => !xs.isEmpty

/-- Record: a task data dict, a finite map from string keys to values,
represented as an association list in insertion order (Python dicts keep
insertion order; `dset` updates in place like Python assignment). -/
abbrev Rec := List (String × PyVal)

/-- `d.get(k)` / `k in d` lookup: first binding of `k`. -/
def dget (d : Rec) (k : String) : Option PyVal :=
  match d with
  | [] => Option.none
  | (ek, ev) :: rest => if ek = k then some ev else dget rest k

/-- `d.get(k, default)`. -/
def dgetD (d : Rec) (k : String) (dflt : PyVal) : PyVal :=
  (dget d k).getD dflt

/-- `d[k] = v`: update the first binding in place, else append. -/
def dset (d : Rec) (k : String) (v : PyVal) : Rec :=
  match d with
  | [] => [(k, v)]
  | (ek, ev) :: rest => if ek = k then (k, v) :: rest else (ek, ev) :: dset rest k v

@[simp] theorem dget_nil (k : String) : dget [] k = Option.none := rfl

/-- Numeric view: Python treats `bool` as a numeric subtype of `int`. -/
def pyNum : PyVal → Option Int
  | .bool b => some (if b then 1 else 0)
  | .int n => some n
  | _ => Option.none

/-- Python `str(x)` for the embedded values.  The textual representation of
container values (`due` dicts and lists) and the timezone-offset suffix of
aware datetimes are not modelled; no verified component applies `str` to
those. -/
def pyStr : PyVal → String
  | .none => "None"
  | .bool b => if b then "True" else "False"
  | .int n => toString n
  | .str s => s
  | .dt d =>
      toString d.year ++ "-" ++ (if d.month < 10 then "0" else "") ++ toString d.month
        ++ "-" ++ (if d.day < 10 then "0" else "") ++ toString d.day
        ++ " " ++ (if d.hour < 10 then "0" else "") ++ toString d.hour
        ++ ":" ++ (if d.minute < 10 then "0" else "") ++ toString d.minute
        ++ ":" ++ (if d.second < 10 then "0" else "") ++ toString d.second
  | .due _ => "<dict>"
  | .list _ => "<list>"

mutual

/-- Python `a == b` (never raises for the embedded types): numeric
cross-type equality between `bool` and `int` (`True == 1`), structural
equality within each other type, `False` across unrelated types. -/
def pyEq : PyVal → PyVal → Bool
  | .none, .none => true
  | .str a, .str b => a == b
  | .dt a, .dt b => a == b
  | .due a, .due b => a == b
  | .list a, .list b => pyEqL a b
  | a, b =>
      match pyNum a, pyNum b with
      | some m, some n => m == n
      | _, _ => false

def pyEqL : List PyVal → List PyVal → Bool
  | [], [] => true
  | a :: as, b :: bs => pyEq a b && pyEqL as bs
  | _, _ => false

end

/-- Strict lexicographic order on character lists (Python `str.__lt__`,
comparing code points). -/
def charsLt : List Char → List Char → Bool
  | _, [] => false
  | [], _ :: _ => true
  | a :: as, b :: bs =>
      if a < b then true else if b < a then false else charsLt as bs

/-- Non-strict lexicographic order on character lists. -/
def charsLe : List Char → List Char → Bool
  | [], _ => true
  | _ :: _, [] => false
  | a :: as, b :: bs =>
      if a < b then true else if b < a then false else charsLe as bs

/-- Datetime fields as a list for lexicographic comparison. -/
def dtFields (d : PyDateTime) : List Nat :=
  [d.year, d.month, d.day, d.hour, d.minute, d.second]

/-- Strict lexicographic order on equal-length `Nat` lists. -/
def natsLt : List Nat → List Nat → Bool
  | a :: as, b :: bs =>
      if a < b then true else if b < a then false else natsLt as bs
  | _, _ => false

/-- Non-strict lexicographic order on equal-length `Nat` lists. -/
def natsLe : List Nat → List Nat → Bool
  | [], [] => true
  | a :: as, b :: bs =>
      if a < b then true else if b < a then false else natsLe as bs
  | _, _ => false

mutual

/-- Python `a < b`; `none` models a raised `TypeError` (mixed scalar
types, mixed naive/aware datetimes, unordered values). -/
def pyLt : PyVal → PyVal → Option Bool
  | .str a, .str b => some (charsLt a.data b.data)
  | .dt a, .dt b =>
      if a.tzAware = b.tzAware then some (natsLt (dtFields a) (dtFields b))
      else Option.none
  | .list a, .list b => pyLtL a b
  | a, b =>
      match pyNum a, pyNum b with
      | some m, some n => some (decide (m < n))
      | _, _ => Option.none

/-- Python list `<`: lexicographic, shorter strict prefix is smaller. -/
def pyLtL : List PyVal → List PyVal → Option Bool
  | _ :: _, [] => some false
  | [], [] => some false
  | [], _ :: _ => some true
  | a :: as, b :: bs =>
      if pyEq a b then pyLtL as bs else pyLt a b

end

mutual

/-- Python `a <= b`. -/
def pyLe : PyVal → PyVal → Option Bool
  | .str a, .str b => some (charsLe a.data b.data)
  | .dt a, .dt b =>
      if a.tzAware = b.tzAware then some (natsLe (dtFields a) (dtFields b))
      else Option.none
  | .list a, .list b => pyLeL a b
  | a, b =>
      match pyNum a, pyNum b with
      | some m, some n => some (decide (m ≤ n))
      | _, _ => Option.none

/-- Python list `<=`: lexicographic. -/
def pyLeL : List PyVal → List PyVal → Option Bool
  | [], _ => some true
  | _ :: _, [] => some false
  | a :: as, b :: bs =>
      if pyEq a b then pyLeL as bs else pyLt a b

end

/-! ## Binary operator registry (`src/actionista/binary_operators.py`)

Each operator takes `(record_value, comparison_value)` and returns
`Option Bool` (`none` = the Python call raises).  The regex (`re`, `ire`)
and glob (`glob`/`fnmatch` family) operators and the seldom-used
`mod`/`countOf`/`indexOf`/`and_`/`or_`/`is_`/`is_not` re-exports are not
embedded; the registry returns `none` for their names. -/

/-- Lower-case an ASCII letter (Python `str.lower`, ASCII fragment; the
record fields the verified components lower-case are ASCII). -/
def lowerChar (c : Char) : Char :=
  if 'A' ≤ c ∧ c ≤ 'Z' then Char.ofNat (c.toNat + 32) else c

/-- `s.lower()` (ASCII). -/
def strLower (s : String) : String := String.mk (s.data.map lowerChar)

/-- `s.strip()` of surrounding whitespace. -/
def charsTrim (cs : List Char) : List Char :=
  ((cs.dropWhile Char.isWhitespace).reverse.dropWhile Char.isWhitespace).reverse

/-- `needle` is a prefix of `hay` (on characters). -/
def charsStartsWith : List Char → List Char → Bool
  | _, [] => true
  | [], _ :: _ => false
  | a :: as, b :: bs => a == b && charsStartsWith as bs

/-- `s.startswith(t)`. -/
def strStartsWith (s t : String) : Bool := charsStartsWith s.data t.data

/-- `s.endswith(t)`. -/
def strEndsWith (s t : String) : Bool :=
  charsStartsWith s.data.reverse t.data.reverse

/-- `s[n:]` for a character count `n`. -/
def strDrop (s : String) (n : Nat) : String := String.mk (s.data.drop n)

/-- `s[:n]` for a character count `n`. -/
def strTake (s : String) (n : Nat) : String := String.mk (s.data.take n)

/-- Split a character list at every occurrence of `sep`. -/
def chSplit (sep : Char) : List Char → List (List Char)
  | [] => [[]]
  | c :: cs =>
      let r := chSplit sep cs
      if c = sep then [] :: r
      else
        match r with
        | [] => [[c]]
        | g :: gs => (c :: g) :: gs

/-- `s.split(sep)` for a one-character separator. -/
def strSplitOnChar (sep : Char) (s : String) : List String :=
  (chSplit sep s.data).map String.mk

/-- `sep.join(parts)` for the one-character separator `=`. -/
def strJoinEq : List String → String
  | [] => ""
  | [p] => p
  | p :: ps => p ++ "=" ++ strJoinEq ps

/-- `needle in hay` for strings: substring test. -/
def charsInfix : List Char → List Char → Bool
  | [], needle => needle.isEmpty
  | h :: rest, needle => charsStartsWith (h :: rest) needle || charsInfix rest needle

namespace BinOp

def eq (a b : PyVal) : Option Bool := some (pyEq a b)

def ne (a b : PyVal) : Option Bool := some (!pyEq a b)

def lt (a b : PyVal) : Option Bool := pyLt a b

def le (a b : PyVal) : Option Bool := pyLe a b

def gt (a b : PyVal) : Option Bool := pyLt b a

def ge (a b : PyVal) : Option Bool := pyLe b a

/-- `operator.contains(a, b)`, i.e. `b in a`: substring test for strings,
elementwise `==` membership for lists. -/
def contains (a b : PyVal) : Option Bool :=
  match a with
  | .str s =>
      match b with
      | .str t => some (charsInfix s.data t.data)
      | _ => Option.none
  | .list xs => some (xs.any (fun x => pyEq x b))
  | _ => Option.none

/-- `in_(a, b)`: `a in b`, `contains` with the arguments reversed. -/
def in_ (a b : PyVal) : Option Bool := contains b a

mutual

/-- `to_lower(obj)`: elementwise lower-casing of lists, else
`str(obj).lower()`.  (Python sets and general dicts do not occur among the
embedded values; the `due` sub-dict is lowered fieldwise, an approximation
recorded here because no verified component lowers a `due` dict.) -/
def to_lower : PyVal → PyVal
  | .list xs => .list (to_lowerL xs)
  | .due d => .due { d with date := strLower d.date, string := strLower d.string,
                            timezone := d.timezone.map strLower }
  | v => .str (strLower (pyStr v))

def to_lowerL : List PyVal → List PyVal
  | [] => []
  | x :: xs => to_lower x :: to_lowerL xs

end

/-- `startswith(a, b)`: `str(a).startswith(str(b))`. -/
def startswith (a b : PyVal) : Option Bool :=
  some (strStartsWith (pyStr a) (pyStr b))

/-- `endswith(a, b)`: `str(a).endswith(str(b))`. -/
def endswith (a b : PyVal) : Option Bool :=
  some (strEndsWith (pyStr a) (pyStr b))

/-- Case-insensitive `startswith`: lowers both operands, then calls
`.startswith`, which raises unless both ended up as strings. -/
def istartswith (a b : PyVal) : Option Bool :=
  match to_lower a, to_lower b with
  | .str x, .str y => some (strStartsWith x y)
  | _, _ => Option.none

def iendswith (a b : PyVal) : Option Bool :=
  match to_lower a, to_lower b with
  | .str x, .str y => some (strEndsWith x y)
  | _, _ => Option.none

def icontains (a b : PyVal) : Option Bool :=
  contains (to_lower a) (to_lower b)

def iin (a b : PyVal) : Option Bool :=
  in_ (to_lower a) (to_lower b)

def ieq (a b : PyVal) : Option Bool :=
  some (pyEq (to_lower a) (to_lower b))

def ine (a b : PyVal) : Option Bool :=
  some (!pyEq (to_lower a) (to_lower b))

def ilt (a b : PyVal) : Option Bool :=
  pyLt (to_lower a) (to_lower b)

def igt (a b : PyVal) : Option Bool :=
  pyLt (to_lower b) (to_lower a)

/-- `ige(a, b)`, transcribed exactly from the source, whose body is
`a, b = to_lower(a), to_lower(b); return a > b` although its docstring
says "Case insensitive greater-than-or-equal-to". -/
def ige (a b : PyVal) : Option Bool :=
  pyLt (to_lower b) (to_lower a)

end BinOp

/-- `getattr(binary_operators, op_name)`: the registry lookup used by
`filter_tasks`; `none` models `AttributeError` for unknown names (the
non-embedded operators are listed in the section comment above). -/
def binop_registry : String → Option (PyVal → PyVal → Option Bool)
  | "eq" => some BinOp.eq
  | "equals" => some BinOp.eq
  | "equal" => some BinOp.eq
  | "ne" => some BinOp.ne
  | "neq" => some BinOp.ne
  | "nequal" => some BinOp.ne
  | "lt" => some BinOp.lt
  | "less" => some BinOp.lt
  | "lessthan" => some BinOp.lt
  | "le" => some BinOp.le
  | "gt" => some BinOp.gt
  | "greater" => some BinOp.gt
  | "greaterthan" => some BinOp.gt
  | "ge" => some BinOp.ge
  | "contains" => some BinOp.contains
  | "in" => some BinOp.in_
  | "in_" => some BinOp.in_
  | "startswith" => some BinOp.startswith
  | "endswith" => some BinOp.endswith
  | "istartswith" => some BinOp.istartswith
  | "iendswith" => some BinOp.iendswith
  | "icontains" => some BinOp.icontains
  | "iin" => some BinOp.iin
  | "ieq" => some BinOp.ieq
  | "ine" => some BinOp.ine
  | "ilt" => some BinOp.ilt
  | "igt" => some BinOp.igt
  | "ige" => some BinOp.ige
  | _ => Option.none

/-! ## Attribute filter evaluator
(`filter_tasks` in `src/actionista/todoist/action_commands.py`)

Records are plain data dicts (`Rec`); the `Item`/`data_attr` indirection
(`getattr(task, data_attr, task.data) if isinstance(task, Item) else task`)
is the identity on dict tasks and is not modelled separately.  The
`value_transform` escape hatch (name lookup in `builtins`/`locals`/
`globals`, else `eval`) is dynamic code execution and is outside the
embedding; all verified call sites pass `value_transform=None`.
`verbose` printing is ignored. -/

/-- Digits of a decimal literal, `none` if empty or non-digit. -/
def digitsToNat : List Char → Option Nat
  | [] => Option.none
  | cs => cs.foldl (fun acc c =>
      match acc with
      | Option.none => Option.none
      | some n => if c.isDigit then some (n * 10 + (c.toNat - 48)) else Option.none)
      (some 0)

/-- Python `int(s)` on a string: optional surrounding whitespace, optional
sign, decimal digits; raises (`none`) otherwise.  (Digit-group underscores
are not modelled.) -/
def pyIntOfStr (s : String) : Option Int :=
  match charsTrim s.data with
  | '+' :: rest => (digitsToNat rest).map Int.ofNat
  | '-' :: rest => (digitsToNat rest).map (fun n => -(n : Int))
  | ds => (digitsToNat ds).map Int.ofNat

/-- Python `int(x)`: ints unchanged, bools to 0/1, strings parsed;
raises (`none`) for other types. -/
def py_int_of : PyVal → Option Int
  | .int n => some n
  | .bool b => some (if b then 1 else 0)
  | .str s => pyIntOfStr s
  | _ => Option.none

/-- The attribute lookup inside `filter_tasks.get_value`
(action_commands.py lines 267-275): if the task has a `due` key and the
requested key is `due_date`/`due_date_utc`, look inside the `due` sub-dict
(whose items carry no `due_` prefix: `taskkey.replace('due_', '')`), using
an empty dict when `due` is falsy; otherwise `task.get(taskkey, default)`.
The outer `none` models a raised exception (attribute access on a truthy
non-dict `due` value). -/
def resolve_taskkey (taskkey : String) (t : Rec) (dflt : PyVal) : Option PyVal :=
  if (dget t "due").isSome ∧ (taskkey = "due_date" ∨ taskkey = "due_date_utc") then
    match dget t "due" with
    | some (.due d) =>
        -- "due_date".replace("due_","") = "date" is in the due dict;
        -- "due_date_utc" maps to "date_utc", which is not, so `.get` gives None.
        if taskkey = "due_date" then some (.str d.date) else some PyVal.none
    | some v => if pyTruthy v then Option.none else some PyVal.none
    | Option.none => Option.none
  else
    some (dgetD t taskkey dflt)

/-- The comparison-value coercion of `filter_tasks.get_value` in
`action_commands.py` (line 278): coerce `value` to `type(task_value)` only
when `task_value` is not None, the types differ AND
`isinstance(task_value, int)` holds (so only for `int`/`bool` record
values).  `none` models a raised conversion error. -/
def coerce_value_commands (task_value v : PyVal) : Option PyVal :=
  if task_value ≠ PyVal.none ∧ pyType task_value ≠ pyType v ∧ isInstInt task_value then
    match task_value with
    | .bool _ => some (.bool (pyTruthy v))
    | _ => (py_int_of v).map PyVal.int
  else
    some v

/-- The comparison-value coercion of the older `filter_tasks.get_value` in
`src/actionista/todoist/action_cli.py` (line 391): coerce `value` to
`type(task_value)` whenever `task_value` is not None and the types differ
(no `isinstance(task_value, int)` guard).  `datetime(value)`,
`NoneType(value)` and `dict(value)` raise for the operand shapes that
occur, hence `none`. -/
def coerce_value_cli (task_value v : PyVal) : Option PyVal :=
  if task_value ≠ PyVal.none ∧ pyType task_value ≠ pyType v then
    match task_value with
    | .bool _ => some (.bool (pyTruthy v))
    | .int _ => (py_int_of v).map PyVal.int
    | .str _ => some (.str (pyStr v))
    | .list _ =>
        match v with
        | .str s => some (.list (s.data.map (fun c => .str (String.mk [c]))))
        | .list xs => some (.list xs)
        | _ => Option.none
    | _ => Option.none
  else
    some v

/-- `get_value(task)` of `action_commands.filter_tasks`: resolves the
attribute and updates the (nonlocal) comparison value.  Returns
`(task_value, updated comparison value)`. -/
def get_value_commands (taskkey : String) (dflt : PyVal) (t : Rec) (v : PyVal) :
    Option (PyVal × PyVal) := do
  let tv ← resolve_taskkey taskkey t dflt
  let v' ← coerce_value_commands tv v
  pure (tv, v')

/-- `get_value(task)` of the older `action_cli.filter_tasks` (the
attribute lookup is the same; only the coercion guard differs). -/
def get_value_cli (taskkey : String) (dflt : PyVal) (t : Rec) (v : PyVal) :
    Option (PyVal × PyVal) := do
  let tv ← resolve_taskkey taskkey t dflt
  let v' ← coerce_value_cli tv v
  pure (tv, v')

/-- The four missing-value policies of `filter_tasks`. -/
inductive MissingPolicy where
  | raisePolicy | includePolicy | excludePolicy | defaultPolicy
deriving DecidableEq, Repr

def parseMissing : String → Option MissingPolicy
  | "raise" => some .raisePolicy
  | "include" => some .includePolicy
  | "exclude" => some .excludePolicy
  | "default" => some .defaultPolicy
  | _ => Option.none

/-- One `filter_eval(task)` call (action_commands.py lines 285-321):
returns whether the record passes and the comparison value left in effect
for the next record.  `none` models a raise (missing attribute under the
`raise` policy, coercion failure, or an operator `TypeError`). -/
def filter_eval_one (op : PyVal → PyVal → Option Bool) (taskkey : String)
    (missing : MissingPolicy) (dflt : PyVal) (negate : Bool)
    (t : Rec) (v : PyVal) : Option (Bool × PyVal) :=
  match missing with
  | .raisePolicy => do
      let (tv, v') ← get_value_commands taskkey PyVal.none t v
      if tv = PyVal.none then Option.none
      else do
        let b ← op tv v'
        pure ((b != negate), v')
  | .includePolicy => do
      let (tv, v') ← get_value_commands taskkey PyVal.none t v
      if tv = PyVal.none then pure (true, v')
      else do
        let b ← op tv v'
        pure ((b != negate), v')
  | .excludePolicy => do
      let (tv, v') ← get_value_commands taskkey PyVal.none t v
      if tv = PyVal.none then pure (false, v')
      else do
        let b ← op tv v'
        pure ((b != negate), v')
  | .defaultPolicy => do
      let (tv, v') ← get_value_commands taskkey dflt t v
      let b ← op tv v'
      pure ((b != negate), v')

/-- The filtering comprehension
`tasks = [task for task in tasks if filter_eval(task)]`, threading the
nonlocal comparison value through the evaluations in list order. -/
def filter_tasks_loop (op : PyVal → PyVal → Option Bool) (taskkey : String)
    (missing : MissingPolicy) (dflt : PyVal) (negate : Bool) :
    List Rec → PyVal → Option (List Rec)
  | [], _ => some []
  | t :: ts, v => do
      let (keep, v') ← filter_eval_one op taskkey missing dflt negate t v
      let rest ← filter_tasks_loop op taskkey missing dflt negate ts v'
      pure (if keep then t :: rest else rest)

/-- The comparison value in effect at each record: pairs every record with
its resolved attribute value and with the comparison value used for it
(i.e. after the coercion its own `get_value` call performs). -/
def value_trace (taskkey : String) (dflt : PyVal) :
    List Rec → PyVal → Option (List (Rec × PyVal × PyVal))
  | [], _ => some []
  | t :: ts, v => do
      let (tv, v') ← get_value_commands taskkey dflt t v
      let rest ← value_trace taskkey dflt ts v'
      pure ((t, tv, v') :: rest)

/-- The claim-side `include` pass condition, evaluated on a trace entry
`(record, resolved value, effective comparison value)`: the record passes
iff its resolved attribute value is None OR
`operator(record_value, value) != negate`. -/
def passInclude (op : PyVal → PyVal → Option Bool) (negate : Bool)
    (e : Rec × PyVal × PyVal) : Bool :=
  decide (e.2.1 = PyVal.none) || ((op e.2.1 e.2.2).getD negate != negate)

/-- The claim-side `exclude` pass condition: the record passes iff its
resolved attribute value is not None AND
`operator(record_value, value) != negate`. -/
def passExclude (op : PyVal → PyVal → Option Bool) (negate : Bool)
    (e : Rec × PyVal × PyVal) : Bool :=
  !decide (e.2.1 = PyVal.none) && ((op e.2.1 e.2.2).getD negate != negate)

/-- Full `filter_tasks(tasks, taskkey, op_name, value, missing, default,
None, negate)` of `action_commands.py` (the `value_transform=None` path):
the `le`-with-date warning line (whose `value[-2:]` slice raises for
non-subscriptable values), placeholder normalization of `default`,
normalization of `negate`, the `!value` prefix, registry lookup, and the
policy dispatch followed by the filtering comprehension. -/
def filter_tasks_named (taskkey op_name : String) (value : PyVal)
    (missing : String) (dflt : PyVal) (negate : PyVal)
    (tasks : List Rec) : Option (List Rec) := do
  -- `if op_name == 'le' and 'date' in taskkey and value[-2:] != '59':` -
  -- the slice raises TypeError unless `value` is a str or a list.
  if op_name = "le" ∧ charsInfix taskkey.data "date".data then
    match value with
    | .str _ => pure ()
    | .list _ => pure ()
    | _ => Option.none
  else pure ()
  let dflt := if dflt = .str "_" ∨ dflt = .str "__None__" then PyVal.none else dflt
  let negate :=
    match negate with
    | .str s =>
        if strLower s = "false" ∨ strLower s = "_" ∨ strLower s = "__none__" ∨ strLower s = "0"
        then PyVal.bool false else .str s
    | v => v
  let negateB := pyTruthy negate
  let (negateB, value) :=
    match value with
    | .str s =>
        if s.length > 0 ∧ s.data.headD ' ' = '!'
        then (!negateB, PyVal.str (strDrop s 1)) else (negateB, .str s)
    | v => (negateB, v)
  let op ← binop_registry op_name
  let policy ← parseMissing missing
  filter_tasks_loop op taskkey policy dflt negateB tasks value

/-! ## Argument-chain parser
(`parse_argv` in `src/actionista/action_cli_core/action_cli_argv_parser.py`)

Tokens are already shell-tokenized strings (`shlex.split` is the caller's
job).  The Python loop mutates `current_group_args`/`current_group_kwargs`,
which alias the base pair until the first dash token and the last action
group afterwards; the embedding threads the same state explicitly.
`none` models the `IndexError` that `arg[0]` raises on an empty token. -/

/-- Keyword-argument mapping: a Python dict of strings in insertion
order. -/
abbrev KW := List (String × String)

/-- `d[k] = v` on a string dict. -/
def kwset (d : KW) (k v : String) : KW :=
  match d with
  | [] => [(k, v)]
  | (ek, ev) :: rest => if ek = k then (k, v) :: rest else (ek, ev) :: kwset rest k v

/-- `arg.split("=", 1)`: key before the first `=`, value everything
after. -/
def splitEqOnce (s : String) : String × String :=
  match strSplitOnChar '=' s with
  | [] => (s, "")
  | k :: rest => (k, strJoinEq rest)

/-- An action group `(action_name, action_args, action_kwargs)`. -/
abbrev ActionGroup := String × List String × KW

/-- The parsing loop of `parse_argv`: before the first dash token the
current accumulators are the base pair; afterwards they are the newest
action group, kept at the HEAD of the (reversed) group accumulator so that
the Python mutation of `current_group_args`/`current_group_kwargs` is a
structural update; the finished group list is reversed back on return. -/
def parse_argv_go : List String → (List String × KW) → List ActionGroup →
    Option ((List String × KW) × List ActionGroup)
  | [], base, rgroups => some (base, rgroups.reverse)
  | arg :: rest, base, rgroups =>
      if arg = "" then Option.none
      else if arg.data.headD ' ' = '-' then
        parse_argv_go rest base ((strDrop arg 1, [], []) :: rgroups)
      else if arg.data.contains '=' then
        match rgroups with
        | [] =>
            parse_argv_go rest
              (base.1, kwset base.2 (splitEqOnce arg).1 (splitEqOnce arg).2) []
        | (n, as, kw) :: gs =>
            parse_argv_go rest base
              ((n, as, kwset kw (splitEqOnce arg).1 (splitEqOnce arg).2) :: gs)
      else
        match rgroups with
        | [] => parse_argv_go rest (base.1 ++ [arg], base.2) []
        | (n, as, kw) :: gs => parse_argv_go rest base ((n, as ++ [arg], kw) :: gs)

/-- `parse_argv(argv)` for a token list. -/
def parse_argv (argv : List String) :
    Option ((List String × KW) × List ActionGroup) :=
  parse_argv_go argv ([], []) []

/-- Spec-side model of handling one token, following the claim's words: a
token is appended to the positionals, except a token containing `=`, which
is split at the first `=` into the keyword mapping. -/
def collectStep (acc : List String × KW) (tok : String) : List String × KW :=
  if tok.data.contains '=' then
    (acc.1, kwset acc.2 (splitEqOnce tok).1 (splitEqOnce tok).2)
  else (acc.1 ++ [tok], acc.2)

/-- Fold `collectStep` over a token run, starting from accumulators. -/
def collectInto (acc : List String × KW) (toks : List String) : List String × KW :=
  toks.foldl collectStep acc

/-- Spec-side model of one group body: positionals and keyword mapping
built from empty accumulators. -/
def collectGroupTokens (toks : List String) : List String × KW :=
  collectInto ([], []) toks

/-- Spec-side model: split the token list into the run of leading
non-dash tokens and the dash-delimited segments, each dash token paired
with the run of non-dash tokens that follows it. -/
def dashSegmentsAux : List String → List String × List (String × List String)
  | [] => ([], [])
  | a :: rest =>
      let (pre, segs) := dashSegmentsAux rest
      if strStartsWith a "-" then ([], (a, pre) :: segs) else (a :: pre, segs)

/-- The dash-delimited segments of the token list. -/
def dashSegments (l : List String) : List (String × List String) :=
  (dashSegmentsAux l).2

/-- Spec-side model of `parse_argv`, written from the claim: a base pair
built from the tokens before the first dash token, then one action group
per dash token, named by the token with the leading dash stripped, holding
the tokens up to the next dash token. -/
def parse_argv_spec (argv : List String) :
    (List String × KW) × List ActionGroup :=
  (collectGroupTokens (argv.takeWhile (fun t => !strStartsWith t "-")),
   (dashSegments argv).map (fun seg => (strDrop seg.1 1, collectGroupTokens seg.2)))

/-- Spec-side continuation of the parse from an intermediate state: the
non-dash tokens before the next dash token feed the base pair (when no
group is open yet) or the currently open group (the head of the reversed
accumulator); each later dash token contributes one group per
segment.  `specCont argv ([], []) []` is `parse_argv_spec argv`. -/
def specCont (argv : List String) (base : List String × KW)
    (rgroups : List ActionGroup) : (List String × KW) × List ActionGroup :=
  let pre := argv.takeWhile (fun t => !strStartsWith t "-")
  let segs := (dashSegments argv).map
    (fun seg => ((strDrop seg.1 1, collectGroupTokens seg.2) : ActionGroup))
  match rgroups with
  | [] => (collectInto base pre, segs)
  | (n, as, kw) :: gs => (base, ((n, collectInto (as, kw) pre) :: gs).reverse ++ segs)

/-! ## Action dispatch executor
(tail of `action_cli` in `src/actionista/todoist/action_cli.py`,
lines 1318-1334)

The registry `ACTIONS` is abstract here (the source installs dozens of
handlers, including a `help` entry, before this fragment runs).  The
unrecognized-name validation runs before the execution loop; `Except.error`
carries the printed list of unrecognized action names.  The source's
per-step `assert task_items is not None` cannot fail in the embedding
(handlers return lists). -/

/-- An action handler `(tasks, *args, **kwargs) -> tasks`. -/
abbrev Handler := List Rec → List String → KW → List Rec

/-- Validation and execution of a parsed action chain. -/
def run_action_chain (actions : String → Option Handler)
    (action_groups : List ActionGroup) (task_items : List Rec) :
    Except (List String) (List Rec) :=
  let unrecognized := (action_groups.filter (fun g => (actions g.1).isNone)).map (·.1)
  if unrecognized.isEmpty then
    let groups := if action_groups.isEmpty then [("help", [], [])] else action_groups
    .ok (groups.foldl (fun tasks g =>
      match actions g.1 with
      | some f => f tasks g.2.1 g.2.2
      | Option.none => tasks) task_items)
  else
    .error unrecognized

/-- A one-entry demonstration registry for the executor theorems. -/
def demoActions : String → Option Handler :=
  fun s => if s = "print" then some (fun t _ _ => t) else Option.none

/-! ## Sort handler (`sort_tasks` in `action_commands.py`)

`sorted(tasks, key=operator.itemgetter(*keys), reverse=(order ==
"descending"))`: a stable sort by the tuple of key values.  CPython
documents that `reverse=True` preserves stability; it reverses the input,
sorts ascending (stably) and reverses the output, which is how the
embedding defines the descending order.  Key values are compared with
Python `<`/`==`; the embedding supports the scalar-valued keys that occur
(numbers, strings, datetimes) and treats other key types, mixed-type keys
and mixed naive/aware datetimes as raising `TypeError` (`none`).  The
`config`-based defaulting of `keys`/`order` happens in the caller and is
not modelled. -/

def intCmp (a b : Int) : Ordering :=
  if a < b then .lt else if b < a then .gt else .eq

/-- Lexicographic comparison of `Int` lists (shorter prefix smaller). -/
def intsCmp : List Int → List Int → Ordering
  | [], [] => .eq
  | [], _ :: _ => .lt
  | _ :: _, [] => .gt
  | a :: as, b :: bs =>
      match intCmp a b with
      | .eq => intsCmp as bs
      | o => o

/-- The comparison classes of Python scalar sort keys: numbers (`bool` and
`int` compare numerically), strings, and datetimes split by timezone
awareness (mixed naive/aware comparison raises). -/
inductive KeyKind where
  | num | strk | dtk (aware : Bool)
deriving DecidableEq, Repr

/-- Encode a scalar sort-key value as its comparison class plus a word of
integers ordered exactly as Python orders the values (numeric value;
string code points; datetime calendar fields). -/
def keyCode : PyVal → Option (KeyKind × List Int)
  | .bool b => some (.num, [if b then 1 else 0])
  | .int n => some (.num, [n])
  | .str s => some (.strk, s.data.map (fun c => (c.toNat : Int)))
  | .dt d => some (.dtk d.tzAware, (dtFields d).map (fun n => (n : Int)))
  | _ => Option.none

/-- Python comparison of two scalar sort-key values, as a three-way
ordering; `none` models a `TypeError` (unsupported or mixed-class
operands). -/
def keyCmp (a b : PyVal) : Option Ordering :=
  match keyCode a, keyCode b with
  | some (k1, v1), some (k2, v2) =>
      if k1 = k2 then some (intsCmp v1 v2) else Option.none
  | _, _ => Option.none

/-- Python comparison of two key tuples (lexicographic; the tuples always
have equal length, one entry per sort key). -/
def keyTupCmp : List PyVal → List PyVal → Option Ordering
  | [], [] => some .eq
  | a :: as, b :: bs =>
      match keyCmp a b with
      | some .eq => keyTupCmp as bs
      | some o => some o
      | Option.none => Option.none
  | _, _ => Option.none

/-- `x <= y` on key-tagged tasks (total on comparable tags). -/
def taggedLe (x y : Rec × List PyVal) : Bool :=
  match keyTupCmp x.2 y.2 with
  | some .gt => false
  | some _ => true
  | Option.none => false

/-- Stable insertion: place `x` before the first `y` with `x <= y`, so an
element inserted later lands after equal elements. -/
def pyOrdInsert (le : α → α → Bool) (x : α) : List α → List α
  | [] => [x]
  | y :: ys => if le x y then x :: y :: ys else y :: pyOrdInsert le x ys

/-- Stable sort by a boolean `<=`; the canonical model of Python's stable
`sorted`. -/
def pyInsSort (le : α → α → Bool) : List α → List α
  | [] => []
  | x :: xs => pyOrdInsert le x (pyInsSort le xs)

/-- Option-monadic map, `none` as soon as one element fails. -/
def optMapM (f : α → Option β) : List α → Option (List β)
  | [] => some []
  | x :: xs => do
      let y ← f x
      let ys ← optMapM f xs
      pure (y :: ys)

/-- `operator.itemgetter(*keys)(task)`: the tuple of key values
(`KeyError` -> raise). -/
def task_sort_key (keys : String) (t : Rec) : Option (List PyVal) :=
  optMapM (fun k => dget t k) (strSplitOnChar ',' keys)

/-- `sort_tasks(tasks, keys, order)`: split the comma-separated key
string, fetch each task's key tuple (`KeyError` -> raise), sort stably,
reversed-stably for `"descending"`.  The embedding requires every pair of
key tuples to be comparable, since Python raises `TypeError` once an
incomparable pair is compared. -/
def sort_tasks (keys : String) (order : String) (tasks : List Rec) :
    Option (List Rec) := do
  let tagged ← optMapM
    (fun t => (task_sort_key keys t).map (fun kv => (t, kv))) tasks
  if tagged.all (fun x => tagged.all (fun y => (keyTupCmp x.2 y.2).isSome)) then
    let sortedTagged :=
      if order = "descending" then (pyInsSort taggedLe tagged.reverse).reverse
      else pyInsSort taggedLe tagged
    pure (sortedTagged.map (·.1))
  else Option.none

/-- `DEFAULT_TASK_SORT_ORDER` (`src/actionista/todoist/config.py`). -/
def DEFAULT_TASK_SORT_ORDER : String := "ascending"

/-- Spec-side notion for the amended sort claim: two records are *tied*
under a sort-key string when both key tuples resolve and Python compares
them equal. -/
def sortKeysTied (keys : String) (t1 t2 : Rec) : Bool :=
  match task_sort_key keys t1, task_sort_key keys t2 with
  | some k1, some k2 =>
      match keyTupCmp k1 k2 with
      | some .eq => true
      | _ => false
  | _, _ => false

/-- Two records with equal `priority` but distinct content: a tie under
the `priority` sort key. -/
def tieTaskA : Rec := [("priority", PyVal.int 1), ("content", PyVal.str "a")]

/-- Second record of the tied pair. -/
def tieTaskB : Rec := [("priority", PyVal.int 1), ("content", PyVal.str "b")]

/-- A record with `priority` 2 (no tie against `loneTaskD`). -/
def loneTaskC : Rec := [("priority", PyVal.int 2), ("content", PyVal.str "c")]

/-- A record with `priority` 1 (no tie against `loneTaskC`). -/
def loneTaskD : Rec := [("priority", PyVal.int 1), ("content", PyVal.str "d")]

/-! ## Record field deriver
(`add_task_date_fields`, `get_input_output_dicts` in
`src/actionista/todoist/tasks_utils.py`)

External date machinery is abstracted into `DateEnv`:
`dateutil.parser.parse`, conversion of an aware datetime to the local
timezone, `pytz.timezone(name).localize`, and `parsedatetime`'s
`Calendar().parseDT` (used by the `-is due` filter).  A naive datetime's
`astimezone(tz.tzlocal())` keeps the wall-clock fields and merely attaches
the local zone, which the embedding represents exactly
(`pyAstimezoneLocal`); only aware-to-local conversion is left to the
environment. -/

structure DateEnv where
  /-- `dateutil.parser.parse`; `none` = unparseable string. -/
  parse : String → Option PyDateTime
  /-- `aware.astimezone(tz.tzlocal())` for an already aware datetime. -/
  toLocalZone : PyDateTime → PyDateTime
  /-- `pytz.timezone(name).localize(naive)`. -/
  localize : String → PyDateTime → PyDateTime
  /-- `parsedatetime.Calendar().parseDT(when, version=2)`:
  the datetime and the context's `hasDate` and `hasTime` flags. -/
  parseDT : String → PyDateTime × Bool × Bool

/-- `d.astimezone(tz.tzlocal())`: a naive datetime is interpreted as local
time (fields kept, zone attached); an aware one is converted. -/
def pyAstimezoneLocal (env : DateEnv) (d : PyDateTime) : PyDateTime :=
  if d.tzAware then env.toLocalZone d else { d with tzAware := true }

/-- `NO_DUEDATE_DATETIME = datetime(2099, 12, 31, 23, 59, 59)
.astimezone(LOCAL_TIMEZONE)` (tasks_utils.py line 42): the far-future
sentinel, end of year 2099 local time. -/
def NO_DUEDATE_DATETIME : PyDateTime :=
  { year := 2099, month := 12, day := 31, hour := 23, minute := 59, second := 59,
    tzAware := true }

/-- `END_OF_DAY_TIME = datetime.time(23, 59, 59)`. -/
def END_OF_DAY_TIME : Nat × Nat × Nat := (23, 59, 59)

def NO_DUE_DATE_PRETTY_STR : String := "(No due-date)"

def pad2 (n : Nat) : String := (if n < 10 then "0" else "") ++ toString n

def pad4 (n : Nat) : String :=
  (if n < 10 then "000" else if n < 100 then "00" else if n < 1000 then "0" else "")
    ++ toString n

/-- `"{:%Y-%m-%dT%H:%M:%S}".format(d)` (the `_iso` format). -/
def fmtISO (d : PyDateTime) : String :=
  pad4 d.year ++ "-" ++ pad2 d.month ++ "-" ++ pad2 d.day ++ "T"
    ++ pad2 d.hour ++ ":" ++ pad2 d.minute ++ ":" ++ pad2 d.second

/-- `DATE_TIME_FMT = "%Y-%m-%d %H:%M"`. -/
def fmtDateTimeMin (d : PyDateTime) : String :=
  pad4 d.year ++ "-" ++ pad2 d.month ++ "-" ++ pad2 d.day ++ " "
    ++ pad2 d.hour ++ ":" ++ pad2 d.minute

/-- `DATE_NO_TIME_FMT = "%Y-%m-%d"`. -/
def fmtDateOnly (d : PyDateTime) : String :=
  pad4 d.year ++ "-" ++ pad2 d.month ++ "-" ++ pad2 d.day

/-- The last two characters, `s[-2:]`. -/
def lastTwo (s : String) : String :=
  String.mk (s.data.drop (s.data.length - 2))

/-- The `# Add some "guaranteed", safe fields` block of
`add_task_date_fields` (tasks_utils.py lines 309-312): set
`due_date_safe_dt`, `due_date_safe_iso` and `due_date_safe` from the
current output dict (`none` = the `"{:%Y-%m-%dT%H:%M:%S}".format` call
raising on a non-datetime `due_date_dt`). -/
def addSafeFields (safe_date : PyDateTime) (out : Rec) : Option Rec := do
  let sv := match dget out "due_date_dt" with
    | some v => v
    | Option.none => .dt safe_date
  let out := dset out "due_date_safe_dt" sv
  let sIso ←
    match sv with
    | .dt dd => some (fmtISO dd)
    | _ => Option.none
  let out := dset out "due_date_safe_iso" (.str sIso)
  let out := dset out "due_date_safe"
    (match dget out "due_date" with
     | some v => v
     | Option.none => .str "(No due-date)")
  pure out

/-- One iteration of the `for key in date_keys` loop of
`add_task_date_fields` (tasks_utils.py lines 314-329): parse
`input_dict[key]` into `key_dt`/`key_iso` when present, and always write
the `key_safe_dt`/`key_safe_iso` fields. -/
def dateKeyStep (env : DateEnv) (input_dict : Rec) (safe_date : PyDateTime)
    (out : Rec) (key : String) : Option Rec := do
  let datestr := dgetD input_dict key PyVal.none
  if pyTruthy datestr then
    match datestr with
    | .str s => do
        let dtp ← env.parse s
        let dtLocal := pyAstimezoneLocal env dtp
        let out := dset out (key ++ "_dt") (.dt dtLocal)
        let out := dset out (key ++ "_iso") (.str (fmtISO dtLocal))
        let out := dset out (key ++ "_safe_dt") (.dt dtLocal)
        let out := dset out (key ++ "_safe_iso") (.str (fmtISO dtLocal))
        pure out
    | _ => Option.none
  else do
    let dtLocal := pyAstimezoneLocal env safe_date
    let out := dset out (key ++ "_safe_dt") (.dt dtLocal)
    let out := dset out (key ++ "_safe_iso") (.str (fmtISO dtLocal))
    pure out

/-- The all-day time adjustment of the `due` branch (tasks_utils.py lines
252-257): give an all-day due date the configured end-of-day time of day
and localize it. -/
def alldayAdjust (env : DateEnv) (allday_time : Option (Nat × Nat × Nat))
    (is_allday : Bool) (dt0 : PyDateTime) : PyDateTime :=
  match allday_time with
  | some (h, m, s) =>
      if is_allday then
        pyAstimezoneLocal env { dt0 with hour := h, minute := m, second := s }
      else dt0
  | Option.none => dt0

/-- `pytz.timezone(due['timezone']).localize(dt)` when the due dict names
a timezone (tasks_utils.py lines 259-263). -/
def tzLocalize (env : DateEnv) (timezone : Option String)
    (dt : PyDateTime) : PyDateTime :=
  match timezone with
  | some tzname => if tzname ≠ "" then env.localize tzname dt else dt
  | Option.none => dt

/-- The full `due_date_dt` computation of the `due` branch: all-day
adjustment, then, for a still-naive datetime, optional named-timezone
localization followed by conversion to local time. -/
def resolveDueDt (env : DateEnv) (allday_time : Option (Nat × Nat × Nat))
    (is_allday : Bool) (timezone : Option String) (dt0 : PyDateTime) :
    PyDateTime :=
  let dt1 := alldayAdjust env allday_time is_allday dt0
  if !dt1.tzAware then pyAstimezoneLocal env (tzLocalize env timezone dt1)
  else dt1

/-- The `# Parse the due date` block of `add_task_date_fields`
(tasks_utils.py lines 231-300): the v8 `due`-dict branch, the v7
`due_date_utc` branch, and the no-due-date branch. -/
def parseDueStage (env : DateEnv) (input_dict : Rec)
    (allday_time : Option (Nat × Nat × Nat)) (out : Rec) : Option Rec :=
  if pyTruthy (dgetD input_dict "due" PyVal.none) then
      match dgetD input_dict "due" PyVal.none with
      | .due d => do
          let out := dset out "due_date" (.str d.date)
          let out := dset out "due_string" (.str d.string)
          let out := dset out "due_string_safe" (.str d.string)
          let out := dset out "date_string" (.str d.string)
          let out := dset out "due_is_recurring" (.bool d.isRecurring)
          let out := dset out "is_recurring" (.bool d.isRecurring)
          -- an all-day task has a due date with no time specification:
          let is_allday := decide (d.date.length ≤ "YYYY-MM-DD".length)
          let out := dset out "is_allday" (.bool is_allday)
          let dt0 ← env.parse d.date
          let dt0 := resolveDueDt env allday_time is_allday d.timezone dt0
          let out := dset out "due_date_dt" (.dt dt0)
          let out := dset out "due_date_pretty_safe"
            (.str (if is_allday then fmtDateOnly dt0 else fmtDateTimeMin dt0))
          pure out
      | _ => Option.none
    else if pyTruthy (dgetD input_dict "due_date_utc" PyVal.none) then
      match dgetD input_dict "due_date_utc" PyVal.none with
      | .str utc => do
          let out := dset out "due_date" (.str utc)
          let ds ← dget input_dict "date_string"
          let out := dset out "due_string" ds
          let out := dset out "due_string_safe" ds
          -- xx:xx:59 = due date with no time (v7.0)
          let is_allday := lastTwo utc = "59"
          let out := dset out "is_allday" (.bool is_allday)
          let dtp ← env.parse utc
          let dt0 := pyAstimezoneLocal env dtp
          let out := dset out "due_date_dt" (.dt dt0)
          let out := dset out "due_date_pretty_safe"
            (.str (if is_allday then fmtDateOnly dt0 else fmtDateTimeMin dt0))
          pure out
      | _ => Option.none
    else do
      -- No due date specified:
      let out := dset out "is_allday" (.bool true)
      let out := dset out "due_string_safe" (dgetD input_dict "date_string" PyVal.none)
      let out := dset out "due_date_pretty_safe" (.str NO_DUE_DATE_PRETTY_STR)
      pure out

/-- The late tzinfo-repair step of `add_task_date_fields` (tasks_utils.py
lines 302-307): if the output already holds a naive `due_date_dt`,
convert it to local time. -/
def repairDueDateTz (env : DateEnv) (out : Rec) : Option Rec :=
  if pyTruthy (dgetD out "due_date_dt" PyVal.none) then
    match dgetD out "due_date_dt" PyVal.none with
    | .dt dd =>
        if !dd.tzAware then
          pure (dset out "due_date_dt" (.dt (pyAstimezoneLocal env dd)))
        else pure out
    | _ => Option.none
  else pure out

/-- `add_task_date_fields(input_dict, output_dict, date_keys, allday_time,
safe_date, ...)` (tasks_utils.py lines 209-336), as the composition of its
named stages in source order.  Consecutive writes to `due_date_dt` inside
one branch are consolidated into the final value they leave behind (the
dict outcome is identical); the unused `datestrfmt`/`allday_datestrfmt`
parameters are dropped.  `none` models a raised exception (indexing a
truthy non-dict `due`, a missing `date_string` under the v7 branch, an
unparseable or non-string date, formatting a non-datetime, or arithmetic
on a non-numeric priority). -/
def add_task_date_fields (env : DateEnv) (input_dict : Rec) (output_dict : Rec)
    (date_keys : List String := ["date_added", "date_completed", "completed_date"])
    (allday_time : Option (Nat × Nat × Nat) := some END_OF_DAY_TIME)
    (safe_date : PyDateTime := NO_DUEDATE_DATETIME) : Option Rec := do
  let out := output_dict
  -- Parse due date:
  let out ← parseDueStage env input_dict allday_time out
  -- late tzinfo repair of `due_date_dt`:
  let out ← repairDueDateTz env out
  -- Add some "guaranteed", safe fields which are always present:
  let out ← addSafeFields safe_date out
  -- Parse additional date attributes:
  let out ← date_keys.foldlM (dateKeyStep env input_dict safe_date) out
  let out := dset out "checked_str"
    (.str (if pyTruthy (dgetD input_dict "checked" (.int 0)) then "[x]" else "[ ]"))
  let pn ← pyNum (dgetD input_dict "priority" (.int 1))
  let out := dset out "priority_str" (.str ("p" ++ toString (5 - pn)))
  pure out

/-- A `todoist.models.Item` as the deriver sees it: the primary `data`
dict and the optional `_custom_data` attribute. -/
structure ItemState where
  data : Rec
  customData : Option Rec
deriving DecidableEq, Repr

/-- `get_input_output_dicts(task)` for an `Item` with the default
`output_attr="_custom_data"`, `deepcopy_data=True`: reuse an existing
`_custom_data` dict, else start one as a deep copy of `task.data`.
Returns `(input_data, output_data, task)`. -/
def get_input_output_dicts (t : ItemState) : Rec × Rec × ItemState :=
  match t.customData with
  | some d => (t.data, d, t)
  | Option.none => (t.data, t.data, { t with customData := some t.data })

/-- Spec-side model of the claim that the deriver writes "into a fresh
sub-mapping each call rather than patching the previous one": every call
starts the output dict from a fresh deep copy of the primary `data`,
ignoring any previous `_custom_data`. -/
def get_input_output_dicts_fresh (t : ItemState) : Rec × Rec × ItemState :=
  (t.data, t.data, { t with customData := some t.data })

/-- One iteration of `inject_tasks_date_fields` on one `Item`:
`input_data, output_data = get_input_output_dicts(task);
add_task_date_fields(input_data, output_data)` — the mutated output dict
is the task's `_custom_data`. -/
def derive_item_date_fields (env : DateEnv) (t : ItemState) : Option ItemState := do
  let (inputData, outputData, t') := get_input_output_dicts t
  let out ← add_task_date_fields env inputData outputData
  pure { t' with customData := some out }

/-- A concrete, fully computable date environment for closed witnesses:
parsing always yields one fixed aware datetime, and the local zone maps
are identities. -/
def demoParsedDT : PyDateTime :=
  { year := 2020, month := 5, day := 6, hour := 7, minute := 8, second := 9,
    tzAware := true }

def demoNaiveDT : PyDateTime :=
  { year := 2020, month := 1, day := 1, hour := 0, minute := 0, second := 0,
    tzAware := false }

def demoEnv : DateEnv :=
  { parse := fun _ => some demoParsedDT,
    toLocalZone := fun d => { d with tzAware := true },
    localize := fun _ d => d,
    parseDT := fun _ => (demoNaiveDT, true, true) }

/-- The dict `add_task_date_fields demoEnv [] []` produces: every safe
field is filled from the 2099 sentinel. -/
def demoDerived : Rec :=
  [("is_allday", PyVal.bool true),
   ("due_string_safe", PyVal.none),
   ("due_date_pretty_safe", PyVal.str "(No due-date)"),
   ("due_date_safe_dt", PyVal.dt NO_DUEDATE_DATETIME),
   ("due_date_safe_iso", PyVal.str "2099-12-31T23:59:59"),
   ("due_date_safe", PyVal.str "(No due-date)"),
   ("date_added_safe_dt", PyVal.dt NO_DUEDATE_DATETIME),
   ("date_added_safe_iso", PyVal.str "2099-12-31T23:59:59"),
   ("date_completed_safe_dt", PyVal.dt NO_DUEDATE_DATETIME),
   ("date_completed_safe_iso", PyVal.str "2099-12-31T23:59:59"),
   ("completed_date_safe_dt", PyVal.dt NO_DUEDATE_DATETIME),
   ("completed_date_safe_iso", PyVal.str "2099-12-31T23:59:59"),
   ("checked_str", PyVal.str "[ ]"),
   ("priority_str", PyVal.str "p4")]

/-- A 2019 timezone-aware datetime: a past due date for the C9 witness. -/
def demoPastDT : PyDateTime :=
  { year := 2019, month := 1, day := 1, hour := 0, minute := 0, second := 0,
    tzAware := true }

/-- An open task with a past due date: it survives the `-is due before
tomorrow` filter under `demoEnv`. -/
def demoDueTask : Rec :=
  [("checked", PyVal.int 0), ("due_date_dt", PyVal.dt demoPastDT)]

/-! ## The special `-is` filter
(`special_is_filter` in `action_commands.py`, lines 364-470, with
`is_not_filter` and `due_date_filter`)

The dead pre-2019 path (`timefmt`, `taskkey = 'due_date_utc_iso'`,
`utc_str = local_time_to_utc(...)`) computes values the final filters
never use and is not transcribed. -/

/-- `start_of_day` (`src/actionista/date_utils.py`). -/
def start_of_day (d : PyDateTime) : PyDateTime :=
  { d with hour := 0, minute := 0, second := 0 }

/-- `end_of_day` (`src/actionista/date_utils.py`). -/
def end_of_day (d : PyDateTime) : PyDateTime :=
  { d with hour := 23, minute := 59, second := 59 }

/-- `is_recurring(task)` (tasks_utils.py lines 145-154): the v8 `due`
sub-dict's flag, else `'every' in (date_string or due_string or '')`;
`none` models the uncaught `TypeError` of `in` on a truthy non-string. -/
def is_recurring_task (t : Rec) : Option Bool :=
  match dget t "due" with
  | some (.due d) => some d.isRecurring
  | _ =>
      let dsv := dgetD t "date_string" PyVal.none
      let dsv := if pyTruthy dsv then dsv else dgetD t "due_string" PyVal.none
      let dsv := if pyTruthy dsv then dsv else .str ""
      match dsv with
      | .str s => some (charsInfix s.data "every".data)
      | _ => Option.none

/-- `get_recurring_tasks(tasks, negate)`:
`[task for task in tasks if is_recurring(task) != negate]`. -/
def get_recurring_tasks : List Rec → Bool → Option (List Rec)
  | [], _ => some []
  | t :: ts, negate => do
      let b ← is_recurring_task t
      let rest ← get_recurring_tasks ts negate
      pure (if b != negate then t :: rest else rest)

/-- The tail of `special_is_filter`'s due branch (action_commands.py
lines 423-441): parse the `when` phrase, snap to start/end of day when no
time was given, drop completed tasks (`checked == 0`, missing policy
`include`, never negated), and apply the due-date comparison (missing
policy `exclude`, negated by the invocation's `negate`). -/
def due_filter_core (env : DateEnv) (tasks : List Rec) (negate : Bool)
    (op_name : String) (convert : Option (PyDateTime → PyDateTime))
    (when : String) : Option (List Rec) := do
  let (dt, hasDate, hasTime) := env.parseDT when
  if hasDate then do
    -- Only snap to start/end of day when no time was given:
    let dt :=
      match convert with
      | some f => if !hasTime then f dt else dt
      | Option.none => dt
    -- When we request tasks that are due, we don't want completed
    -- tasks, so remove these first:
    let tasks ← filter_tasks_named "checked" "eq" (.int 0) "include"
      PyVal.none (.bool false) tasks
    let dt := pyAstimezoneLocal env dt
    filter_tasks_named "due_date_dt" op_name (.dt dt) "exclude"
      PyVal.none (.bool negate) tasks
  else Option.none

/-- `special_is_filter(tasks, *args)`.  `none` models the raised
`IndexError`/`ValueError`/`TypeError` paths. -/
def special_is_filter (env : DateEnv) (tasks : List Rec) (args : List String) :
    Option (List Rec) := do
  let (negate, args) ←
    match args with
    | [] => Option.none
    | a0 :: rest => if a0 = "not" then some (true, rest) else some (false, a0 :: rest)
  match args with
  | [] => Option.none
  | a0 :: rest =>
    if a0 = "due" ∨ a0 = "overdue" then do
      -- `args[0:2] == ["due","or","overdue"]` compares a two-token slice
      -- with a three-element list and can never be True; transcribed as
      -- written.
      let args :=
        if (a0 :: rest).take 2 = ["due", "or", "overdue"] ∨
           (a0 :: rest).take 2 = ["overdue", "or", "due"] then
          "due" :: "before" :: "tomorrow" :: (a0 :: rest).drop 2
        else a0 :: rest
      match args with
      | [] => Option.none
      | b0 :: brest => do
        let (op_name, convert, when) ←
          if b0 = "overdue" then
            some ("lt", some start_of_day, "today")
          else if brest ≠ [] then
            match brest with
            | b1 :: brest2 =>
              if b1 = "before" ∨ b1 = "on" ∨ b1 = "after" then
                match brest2 with
                | [] => Option.none
                | b2 :: _ =>
                  if b1 = "before" then some ("lt", some start_of_day, b2)
                  else if b1 = "on" then
                    some ("startswith", (Option.none : Option (PyDateTime → PyDateTime)), b2)
                  else some ("gt", some end_of_day, b2)
              else some ("startswith", Option.none, b1)
            | [] => Option.none
          else
            some ("le", some end_of_day, "today")
        due_filter_core env tasks negate op_name convert when
    else if a0 = "checked" ∨ a0 = "unchecked" ∨ a0 = "complete" ∨ a0 = "incomplete"
        ∨ a0 = "completed" ∨ a0 = "done" then
      let checkedVal : Int := if strTake a0 2 = "in" ∨ strTake a0 2 = "un" then 0 else 1
      filter_tasks_named "checked" "eq" (.int checkedVal) "exclude"
        PyVal.none (.bool negate) tasks
    else if a0 = "in" then
      match rest with
      | [] => Option.none
      | v :: _ =>
          filter_tasks_named "project_name" "eq" (.str v) "exclude"
            PyVal.none (.bool negate) tasks
    else if a0 = "recurring" then
      get_recurring_tasks tasks negate
    else Option.none

/-- `is_not_filter(tasks, *args)`: alias for `-is not`. -/
def is_not_filter (env : DateEnv) (tasks : List Rec) (args : List String) :
    Option (List Rec) :=
  special_is_filter env tasks ("not" :: args)

/-- `due_date_filter(tasks, *when)`: alias for `-is due [when]`. -/
def due_date_filter (env : DateEnv) (tasks : List Rec) (when : List String) :
    Option (List Rec) :=
  special_is_filter env tasks ("due" :: when)

theorem dget_dset (d : Rec) (k k' : String) (v : PyVal) :
    dget (dset d k v) k' = if k = k' then some v else dget d k' := by
  induction d with
  | nil =>
    by_cases h : k = k' <;> simp [dset, dget, h]
  | cons kv rest ih =>
    obtain ⟨ek, ev⟩ := kv
    by_cases h0 : ek = k
    · subst h0
      by_cases h1 : ek = k' <;> simp [dset, dget, h1]
    · by_cases h1 : ek = k'
      · subst h1
        have hkk' : ¬ k = ek := fun h => h0 h.symm
        simp [dset, dget, h0, hkk', ih]
      · simp [dset, dget, h0, h1, ih]

/-! ## Lemmas about the filter evaluator -/

theorem value_trace_map_fst (taskkey : String) (dflt : PyVal)
    (tasks : List Rec) :
    ∀ (v : PyVal) (tr : List (Rec × PyVal × PyVal)),
    value_trace taskkey dflt tasks v = some tr → tr.map (·.1) = tasks := by
  induction tasks with
  | nil =>
      intro v tr h
      simp [value_trace] at h
      simp [← h]
  | cons t ts ih =>
      intro v tr h
      simp only [value_trace] at h
      cases hg : get_value_commands taskkey dflt t v with
      | none => rw [hg] at h; simp at h
      | some p =>
          obtain ⟨tv, v'⟩ := p
          rw [hg] at h
          simp only [Option.bind_eq_bind, Option.some_bind] at h
          cases hrest : value_trace taskkey dflt ts v' with
          | none => rw [hrest] at h; simp at h
          | some rest =>
              rw [hrest] at h
              simp at h
              subst h
              simp [ih v' rest hrest]

theorem filter_include_char (op : PyVal → PyVal → Option Bool)
    (taskkey : String) (negate : Bool) (tasks : List Rec) :
    ∀ (v : PyVal) (tr : List (Rec × PyVal × PyVal)) (out : List Rec),
    value_trace taskkey PyVal.none tasks v = some tr →
    filter_tasks_loop op taskkey .includePolicy PyVal.none negate tasks v = some out →
    out = (tr.filter (passInclude op negate)).map (·.1) := by
  induction tasks with
  | nil =>
      intro v tr out htr hout
      injection htr with htr
      injection hout with hout
      subst htr
      subst hout
      rfl
  | cons t ts ih =>
      intro v tr out htr hout
      simp only [value_trace] at htr
      simp only [filter_tasks_loop, filter_eval_one] at hout
      cases hg : get_value_commands taskkey PyVal.none t v with
      | none => rw [hg] at htr; simp at htr
      | some p =>
          obtain ⟨tv, v'⟩ := p
          rw [hg] at htr hout
          simp only [Option.bind_eq_bind, Option.some_bind] at htr hout
          cases hrest : value_trace taskkey PyVal.none ts v' with
          | none => rw [hrest] at htr; simp at htr
          | some rest =>
              rw [hrest] at htr
              simp at htr
              subst htr
              by_cases htv : tv = PyVal.none
              · subst htv
                simp at hout
                cases hloop : filter_tasks_loop op taskkey .includePolicy PyVal.none
                    negate ts v' with
                | none => rw [hloop] at hout; simp at hout
                | some restOut =>
                    rw [hloop] at hout
                    simp at hout
                    subst hout
                    simp [List.filter, passInclude, ih v' rest restOut hrest hloop]
              · simp [htv] at hout
                cases hop : op tv v' with
                | none => rw [hop] at hout; simp at hout
                | some b =>
                    rw [hop] at hout
                    simp only [Option.some_bind] at hout
                    cases hloop : filter_tasks_loop op taskkey .includePolicy PyVal.none
                        negate ts v' with
                    | none => rw [hloop] at hout; simp at hout
                    | some restOut =>
                        rw [hloop] at hout
                        simp at hout
                        subst hout
                        rw [ih v' rest restOut hrest hloop]
                        by_cases hb : b = negate
                        · subst hb
                          simp [List.filter, passInclude, htv, hop]
                        · have hbne : (b != negate) = true := by simp [hb]
                          simp [List.filter, passInclude, htv, hop, hb, hbne]

theorem filter_exclude_char (op : PyVal → PyVal → Option Bool)
    (taskkey : String) (negate : Bool) (tasks : List Rec) :
    ∀ (v : PyVal) (tr : List (Rec × PyVal × PyVal)) (out : List Rec),
    value_trace taskkey PyVal.none tasks v = some tr →
    filter_tasks_loop op taskkey .excludePolicy PyVal.none negate tasks v = some out →
    out = (tr.filter (passExclude op negate)).map (·.1) := by
  induction tasks with
  | nil =>
      intro v tr out htr hout
      injection htr with htr
      injection hout with hout
      subst htr
      subst hout
      rfl
  | cons t ts ih =>
      intro v tr out htr hout
      simp only [value_trace] at htr
      simp only [filter_tasks_loop, filter_eval_one] at hout
      cases hg : get_value_commands taskkey PyVal.none t v with
      | none => rw [hg] at htr; simp at htr
      | some p =>
          obtain ⟨tv, v'⟩ := p
          rw [hg] at htr hout
          simp only [Option.bind_eq_bind, Option.some_bind] at htr hout
          cases hrest : value_trace taskkey PyVal.none ts v' with
          | none => rw [hrest] at htr; simp at htr
          | some rest =>
              rw [hrest] at htr
              simp at htr
              subst htr
              by_cases htv : tv = PyVal.none
              · subst htv
                simp at hout
                cases hloop : filter_tasks_loop op taskkey .excludePolicy PyVal.none
                    negate ts v' with
                | none => rw [hloop] at hout; simp at hout
                | some restOut =>
                    rw [hloop] at hout
                    simp at hout
                    subst hout
                    simp [List.filter, passExclude, ih v' rest restOut hrest hloop]
              · simp [htv] at hout
                cases hop : op tv v' with
                | none => rw [hop] at hout; simp at hout
                | some b =>
                    rw [hop] at hout
                    simp only [Option.some_bind] at hout
                    cases hloop : filter_tasks_loop op taskkey .excludePolicy PyVal.none
                        negate ts v' with
                    | none => rw [hloop] at hout; simp at hout
                    | some restOut =>
                        rw [hloop] at hout
                        simp at hout
                        subst hout
                        rw [ih v' rest restOut hrest hloop]
                        by_cases hb : b = negate
                        · subst hb
                          simp [List.filter, passExclude, htv, hop]
                        · have hbne : (b != negate) = true := by simp [hb]
                          simp [List.filter, passExclude, htv, hop, hb, hbne]

/-- C1: For every record list and every filter specification with missing
policy `include` or `exclude`: under `include` a record is kept iff its
resolved attribute value is None OR `operator(record_value, value) !=
negate`, under `exclude` iff its resolved attribute value is not None AND
`operator(record_value, value) != negate`, where `value` is the comparison
value in effect when that record is evaluated (`value_trace` pairs each
record with its resolved value and that in-effect comparison value); and
both outputs are the sub-sequence of passing records in their original
relative order (`List.Sublist` of the input). -/
theorem filter_tasks_missing_include_exclude
    (op : PyVal → PyVal → Option Bool) (taskkey : String) (negate : Bool)
    (tasks : List Rec) (v : PyVal) (tr : List (Rec × PyVal × PyVal))
    (outI outE : List Rec)
    (htr : value_trace taskkey PyVal.none tasks v = some tr)
    (hI : filter_tasks_loop op taskkey .includePolicy PyVal.none negate tasks v
      = some outI)
    (hE : filter_tasks_loop op taskkey .excludePolicy PyVal.none negate tasks v
      = some outE) :
    outI = (tr.filter (passInclude op negate)).map (·.1) ∧
    outE = (tr.filter (passExclude op negate)).map (·.1) ∧
    outI.Sublist tasks ∧ outE.Sublist tasks := by
  have hfst := value_trace_map_fst taskkey PyVal.none tasks v tr htr
  refine ⟨filter_include_char op taskkey negate tasks v tr outI htr hI,
          filter_exclude_char op taskkey negate tasks v tr outE htr hE, ?_, ?_⟩
  · rw [filter_include_char op taskkey negate tasks v tr outI htr hI, ← hfst]
    exact (tr.filter_sublist).map (·.1)
  · rw [filter_exclude_char op taskkey negate tasks v tr outE htr hE, ← hfst]
    exact (tr.filter_sublist).map (·.1)

/-- Concrete instantiation of `filter_tasks_missing_include_exclude`:
three records filtered on key `k` with operator `eq` and comparison value
`"2"` (which the first record's int value coerces to `2`). -/
theorem filter_tasks_missing_include_exclude_witness :
    (value_trace "k" PyVal.none
        [[("k", PyVal.int 2)], [("k", PyVal.str "2")], [("x", PyVal.int 5)]]
        (PyVal.str "2") =
      some [([("k", PyVal.int 2)], PyVal.int 2, PyVal.int 2),
            ([("k", PyVal.str "2")], PyVal.str "2", PyVal.int 2),
            ([("x", PyVal.int 5)], PyVal.none, PyVal.int 2)]) ∧
    (filter_tasks_loop BinOp.eq "k" .includePolicy PyVal.none false
        [[("k", PyVal.int 2)], [("k", PyVal.str "2")], [("x", PyVal.int 5)]]
        (PyVal.str "2") =
      some [[("k", PyVal.int 2)], [("x", PyVal.int 5)]]) ∧
    (filter_tasks_loop BinOp.eq "k" .excludePolicy PyVal.none false
        [[("k", PyVal.int 2)], [("k", PyVal.str "2")], [("x", PyVal.int 5)]]
        (PyVal.str "2") =
      some [[("k", PyVal.int 2)]]) ∧
    ([[("k", PyVal.int 2)], [("x", PyVal.int 5)]] =
        (([([("k", PyVal.int 2)], PyVal.int 2, PyVal.int 2),
           ([("k", PyVal.str "2")], PyVal.str "2", PyVal.int 2),
           ([("x", PyVal.int 5)], PyVal.none, PyVal.int 2)].filter
            (passInclude BinOp.eq false)).map (·.1)) ∧
      [[("k", PyVal.int 2)]] =
        (([([("k", PyVal.int 2)], PyVal.int 2, PyVal.int 2),
           ([("k", PyVal.str "2")], PyVal.str "2", PyVal.int 2),
           ([("x", PyVal.int 5)], PyVal.none, PyVal.int 2)].filter
            (passExclude BinOp.eq false)).map (·.1)) ∧
      List.Sublist [[("k", PyVal.int 2)], [("x", PyVal.int 5)]]
        [[("k", PyVal.int 2)], [("k", PyVal.str "2")], [("x", PyVal.int 5)]] ∧
      List.Sublist [[("k", PyVal.int 2)]]
        [[("k", PyVal.int 2)], [("k", PyVal.str "2")], [("x", PyVal.int 5)]]) :=
  ⟨by decide, by decide, by decide,
   filter_tasks_missing_include_exclude BinOp.eq "k" false
     [[("k", PyVal.int 2)], [("k", PyVal.str "2")], [("x", PyVal.int 5)]]
     (PyVal.str "2")
     [([("k", PyVal.int 2)], PyVal.int 2, PyVal.int 2),
      ([("k", PyVal.str "2")], PyVal.str "2", PyVal.int 2),
      ([("x", PyVal.int 5)], PyVal.none, PyVal.int 2)]
     [[("k", PyVal.int 2)], [("x", PyVal.int 5)]] [[("k", PyVal.int 2)]]
     (by decide) (by decide) (by decide)⟩

/-- C2 counterexample: in the newest filter evaluator
(`action_commands.filter_tasks.get_value`), a record value `"a"` that is
not None and whose type (`str`) differs from the comparison value's type
(`int`) does NOT cause the comparison value to be coerced: the evaluator
leaves the comparison value `1` unchanged (its type still differs from the
record value's), because coercion is guarded by
`isinstance(task_value, int)`. -/
theorem get_value_commands_no_str_coercion :
    get_value_commands "k" PyVal.none [("k", PyVal.str "a")] (PyVal.int 1) =
      some (PyVal.str "a", PyVal.int 1) ∧
    PyVal.str "a" ≠ PyVal.none ∧
    pyType (PyVal.str "a") ≠ pyType (PyVal.int 1) ∧
    pyType (PyVal.int 1) ≠ pyType (PyVal.str "a") := by
  decide

/-- The `action_commands` coercion step: on a non-None record value of a
differing type, the comparison value is converted only for int-typed
record values. -/
theorem coerce_value_commands_spec (tv v w : PyVal)
    (hnn : tv ≠ PyVal.none) (hty : pyType tv ≠ pyType v)
    (hco : coerce_value_commands tv v = some w) :
    (isInstInt tv = true → pyType w = pyType tv) ∧
    (isInstInt tv = false → w = v) := by
  unfold coerce_value_commands at hco
  split at hco
  case isTrue hcond =>
    obtain ⟨-, -, hint⟩ := hcond
    constructor
    · intro _
      cases tv with
      | bool b =>
          simp only [Option.some.injEq] at hco
          rw [← hco]; rfl
      | int n =>
          cases hiv : py_int_of v with
          | none => rw [hiv] at hco; simp at hco
          | some m =>
              rw [hiv] at hco
              simp only [Option.map_some', Option.some.injEq] at hco
              rw [← hco]; rfl
      | none => exact absurd rfl hnn
      | str s => simp [isInstInt] at hint
      | dt d => simp [isInstInt] at hint
      | due d => simp [isInstInt] at hint
      | list xs => simp [isInstInt] at hint
    · intro hf
      rw [hf] at hint
      cases hint
  case isFalse hcond =>
    simp only [Option.some.injEq] at hco
    constructor
    · intro hint
      exact absurd ⟨hnn, hty, hint⟩ hcond
    · intro _
      exact hco.symm

/-- The `action_cli` coercion step: on a non-None record value of a
differing type, the comparison value is always converted to the record
value's type (when the conversion does not raise). -/
theorem coerce_value_cli_spec (tv v w : PyVal)
    (hnn : tv ≠ PyVal.none) (hty : pyType tv ≠ pyType v)
    (hcli : coerce_value_cli tv v = some w) :
    pyType w = pyType tv := by
  unfold coerce_value_cli at hcli
  split at hcli
  case isTrue hcond =>
    cases tv with
    | none => exact absurd rfl hnn
    | bool b =>
        simp only [Option.some.injEq] at hcli
        rw [← hcli]; rfl
    | int n =>
        cases hiv : py_int_of v with
        | none => rw [hiv] at hcli; simp at hcli
        | some m =>
            rw [hiv] at hcli
            simp only [Option.map_some', Option.some.injEq] at hcli
            rw [← hcli]; rfl
    | str s =>
        simp only [Option.some.injEq] at hcli
        rw [← hcli]; rfl
    | dt d => simp at hcli
    | due d => simp at hcli
    | list xs =>
        cases v with
        | str s =>
            simp only [Option.some.injEq] at hcli
            rw [← hcli]; rfl
        | list ys =>
            simp only [Option.some.injEq] at hcli
            rw [← hcli]; rfl
        | none => simp at hcli
        | bool b => simp at hcli
        | int n => simp at hcli
        | dt d => simp at hcli
        | due d => simp at hcli
  case isFalse hcond => exact absurd ⟨hnn, hty⟩ hcond

/-- C2 (amended): in the newest filter evaluator
(`action_commands.filter_tasks.get_value`), for every record whose
resolved attribute value is not None and whose type differs from the
comparison value's type, the comparison value is coerced to the record
value's type only when the record value is int-typed (an `int` or a
`bool`); otherwise it is left unchanged.  The record value itself is
always returned exactly as resolved — never coerced to the comparison
value's type.  The older evaluator
(`action_cli.filter_tasks.get_value`, `coerce_value_cli`) coerces the
comparison value whenever the types differ, as the spec describes. -/
theorem get_value_commands_coercion
    (taskkey : String) (t : Rec) (dflt v tv v' : PyVal)
    (h : get_value_commands taskkey dflt t v = some (tv, v'))
    (hnn : tv ≠ PyVal.none) (hty : pyType tv ≠ pyType v) :
    resolve_taskkey taskkey t dflt = some tv ∧
    (isInstInt tv = true → pyType v' = pyType tv) ∧
    (isInstInt tv = false → v' = v) ∧
    (∀ w, coerce_value_cli tv v = some w → pyType w = pyType tv) := by
  simp only [get_value_commands, Option.bind_eq_bind] at h
  cases hres : resolve_taskkey taskkey t dflt with
  | none => rw [hres] at h; simp at h
  | some tv0 =>
      rw [hres] at h
      simp only [Option.some_bind] at h
      cases hco : coerce_value_commands tv0 v with
      | none => rw [hco] at h; simp at h
      | some w0 =>
          rw [hco] at h
          simp only [Option.some_bind, Option.some.injEq, Prod.mk.injEq] at h
          obtain ⟨rfl, rfl⟩ := h
          have hspec := coerce_value_commands_spec tv v v' hnn hty hco
          exact ⟨rfl, hspec.1, hspec.2, fun w hw => coerce_value_cli_spec tv v w hnn hty hw⟩

/-- Concrete instantiation of `get_value_commands_coercion`: an int-valued
record attribute `2` against the string comparison value `"5"`, which the
evaluator coerces to the int `5`. -/
theorem get_value_commands_coercion_witness :
    (get_value_commands "k" PyVal.none [("k", PyVal.int 2)] (PyVal.str "5") =
      some (PyVal.int 2, PyVal.int 5)) ∧
    PyVal.int 2 ≠ PyVal.none ∧
    pyType (PyVal.int 2) ≠ pyType (PyVal.str "5") ∧
    (resolve_taskkey "k" [("k", PyVal.int 2)] PyVal.none = some (PyVal.int 2) ∧
     (isInstInt (PyVal.int 2) = true → pyType (PyVal.int 5) = pyType (PyVal.int 2)) ∧
     (isInstInt (PyVal.int 2) = false → PyVal.int 5 = PyVal.str "5") ∧
     (∀ w, coerce_value_cli (PyVal.int 2) (PyVal.str "5") = some w →
        pyType w = pyType (PyVal.int 2))) :=
  ⟨by decide, by decide, by decide,
   get_value_commands_coercion "k" [("k", PyVal.int 2)] PyVal.none
     (PyVal.str "5") (PyVal.int 2) (PyVal.int 5)
     (by decide) (by decide) (by decide)⟩

/-! ## Lemmas about the argument-chain parser -/

theorem dash_guard (a : String) (ha : a ≠ "") :
    strStartsWith a "-" = true ↔ a.data.headD ' ' = '-' := by
  cases a with
  | mk l =>
      cases l with
      | nil => exact absurd rfl ha
      | cons c cs =>
          show charsStartsWith (c :: cs) "-".data = true ↔ c = '-'
          have hdash : "-".data = ['-'] := rfl
          rw [hdash]
          simp [charsStartsWith]

theorem dashSegmentsAux_fst (l : List String) :
    (dashSegmentsAux l).1 = l.takeWhile (fun t => !strStartsWith t "-") := by
  induction l with
  | nil => rfl
  | cons a rest ih =>
      by_cases h : strStartsWith a "-" = true
      · simp [dashSegmentsAux, h, List.takeWhile_cons]
      · have h' : strStartsWith a "-" = false := by
          cases hb : strStartsWith a "-"
          · rfl
          · exact absurd hb h
        simp [dashSegmentsAux, h', List.takeWhile_cons, ih]

theorem dashSegments_cons_nondash (a : String) (rest : List String)
    (h : strStartsWith a "-" = false) :
    dashSegments (a :: rest) = dashSegments rest := by
  simp [dashSegments, dashSegmentsAux, h]

theorem dashSegments_cons_dash (a : String) (rest : List String)
    (h : strStartsWith a "-" = true) :
    dashSegments (a :: rest) =
      (a, rest.takeWhile (fun t => !strStartsWith t "-")) :: dashSegments rest := by
  simp [dashSegments, dashSegmentsAux, h, dashSegmentsAux_fst]

theorem dashSegments_dropWhile (l : List String) :
    dashSegments (l.dropWhile (fun t => !strStartsWith t "-")) = dashSegments l := by
  induction l with
  | nil => rfl
  | cons a rest ih =>
      by_cases h : strStartsWith a "-" = true
      · simp [List.dropWhile_cons, h]
      · have h' : strStartsWith a "-" = false := by
          cases hb : strStartsWith a "-"
          · rfl
          · exact absurd hb h
        rw [List.dropWhile_cons]
        simp only [h', Bool.not_false, if_pos]
        rw [ih, dashSegments_cons_nondash a rest h']

theorem parse_argv_go_spec (argv : List String) :
    ∀ (base : List String × KW) (rgroups : List ActionGroup),
    (∀ tok ∈ argv, tok ≠ "") →
    parse_argv_go argv base rgroups = some (specCont argv base rgroups) := by
  induction argv with
  | nil =>
      intro base rgroups h
      cases rgroups with
      | nil => rfl
      | cons g gs =>
          obtain ⟨n, as, kw⟩ := g
          simp [parse_argv_go, specCont, collectInto, dashSegments, dashSegmentsAux]
  | cons a rest ih =>
      intro base rgroups h
      have ha : a ≠ "" := h a (List.mem_cons_self a rest)
      have hrest : ∀ tok ∈ rest, tok ≠ "" := fun t ht => h t (List.mem_cons_of_mem a ht)
      by_cases hd : a.data.headD ' ' = '-'
      · have hsw : strStartsWith a "-" = true := (dash_guard a ha).2 hd
        rw [parse_argv_go.eq_def]
        dsimp only
        rw [if_neg ha, if_pos hd, ih base ((strDrop a 1, [], []) :: rgroups) hrest]
        refine congrArg some ?_
        cases rgroups with
        | nil =>
            simp [specCont, hsw, dashSegments_cons_dash a rest hsw,
              List.takeWhile_cons, collectGroupTokens, collectInto]
        | cons g gs =>
            obtain ⟨n, as, kw⟩ := g
            simp [specCont, hsw, dashSegments_cons_dash a rest hsw,
              List.takeWhile_cons, collectGroupTokens, collectInto]
      · have hsw : strStartsWith a "-" = false := by
          cases hb : strStartsWith a "-"
          · rfl
          · exact absurd ((dash_guard a ha).1 hb) hd
        have htw : (a :: rest).takeWhile (fun t => !strStartsWith t "-") =
            a :: rest.takeWhile (fun t => !strStartsWith t "-") := by
          simp [List.takeWhile_cons, hsw]
        have hseg := dashSegments_cons_nondash a rest hsw
        rw [parse_argv_go.eq_def]
        dsimp only
        rw [if_neg ha, if_neg hd]
        by_cases he : a.data.contains '=' = true
        · have hm : '=' ∈ a.data := by simpa using he
          rw [if_pos he]
          cases rgroups with
          | nil =>
              dsimp only
              rw [ih _ [] hrest]
              refine congrArg some ?_
              simp only [specCont, htw, hseg, collectInto, List.foldl_cons]
              have hstep : collectStep base a =
                  (base.1, kwset base.2 (splitEqOnce a).1 (splitEqOnce a).2) := by
                simp [collectStep, hm]
              rw [hstep]
          | cons g gs =>
              obtain ⟨n, as, kw⟩ := g
              dsimp only
              rw [ih _ ((n, as, kwset kw (splitEqOnce a).1 (splitEqOnce a).2) :: gs) hrest]
              refine congrArg some ?_
              simp only [specCont, htw, hseg, collectInto, List.foldl_cons]
              have hstep : collectStep (as, kw) a =
                  (as, kwset kw (splitEqOnce a).1 (splitEqOnce a).2) := by
                simp [collectStep, hm]
              rw [hstep]
        · have he' : a.data.contains '=' = false := by
            cases hb : a.data.contains '='
            · rfl
            · exact absurd hb he
          have hm' : ¬ ('=' ∈ a.data) := by
            intro hmem
            have hc : a.data.contains '=' = true := List.elem_eq_true_of_mem hmem
            rw [he'] at hc
            cases hc
          rw [if_neg (by rw [he']; simp : ¬ (a.data.contains '=' = true))]
          cases rgroups with
          | nil =>
              dsimp only
              rw [ih _ [] hrest]
              refine congrArg some ?_
              simp only [specCont, htw, hseg, collectInto, List.foldl_cons]
              have hstep : collectStep base a = (base.1 ++ [a], base.2) := by
                simp [collectStep, hm']
              rw [hstep]
          | cons g gs =>
              obtain ⟨n, as, kw⟩ := g
              dsimp only
              rw [ih _ ((n, as ++ [a], kw) :: gs) hrest]
              refine congrArg some ?_
              simp only [specCont, htw, hseg, collectInto, List.foldl_cons]
              have hstep : collectStep (as, kw) a = (as ++ [a], kw) := by
                simp [collectStep, hm']
              rw [hstep]

/-- C4: for every token list without raising tokens, the argument-chain
parser produces exactly the claim's description: a base pair built from
the tokens before the first dash token, then one action group per
dash-prefixed token, named by the token with the leading dash stripped,
whose positionals are the following non-dash tokens without `=` in order
and whose keyword mapping collects the `key=value` splits at the first
`=` (the empty token list yields empty base args/kwargs and no action
groups, since both sides reduce to that on `[]`). -/
theorem parse_argv_matches_spec (argv : List String) (h : "" ∉ argv) :
    parse_argv argv = some (parse_argv_spec argv) := by
  have hgo := parse_argv_go_spec argv ([], []) []
    (fun t ht heq => h (heq ▸ ht))
  rw [parse_argv, hgo]
  rfl

/-- Concrete instantiation of `parse_argv_matches_spec` on a
representative chain with base tokens, keyword arguments and two
actions. -/
theorem parse_argv_matches_spec_witness :
    ("" ∉ ["set1=val1", "verbose", "-filter", "due_date_utc", "contains",
           "2017-12-31", "-add-task", "Task 123", "project=MyProject",
           "due=tomorrow=x"]) ∧
    parse_argv ["set1=val1", "verbose", "-filter", "due_date_utc", "contains",
                "2017-12-31", "-add-task", "Task 123", "project=MyProject",
                "due=tomorrow=x"] =
      some (parse_argv_spec ["set1=val1", "verbose", "-filter", "due_date_utc",
            "contains", "2017-12-31", "-add-task", "Task 123",
            "project=MyProject", "due=tomorrow=x"]) ∧
    parse_argv_spec ["set1=val1", "verbose", "-filter", "due_date_utc",
        "contains", "2017-12-31", "-add-task", "Task 123", "project=MyProject",
        "due=tomorrow=x"] =
      ((["verbose"], [("set1", "val1")]),
       [("filter", ["due_date_utc", "contains", "2017-12-31"], []),
        ("add-task", ["Task 123"],
         [("project", "MyProject"), ("due", "tomorrow=x")])]) :=
  ⟨by decide,
   parse_argv_matches_spec _ (by decide),
   by decide⟩

/-- C10: `parse_argv` unconditionally indexes `arg[0]`, so a token list
containing the empty string always raises `IndexError` (modelled `none`),
whatever the parser state; the empty token is never classified as a
positional, keyword, or action name. -/
theorem parse_argv_empty_token_raises (argv : List String) (h : "" ∈ argv) :
    parse_argv argv = Option.none := by
  suffices hgo : ∀ (base : List String × KW) (rgroups : List ActionGroup),
      parse_argv_go argv base rgroups = Option.none from hgo ([], []) []
  induction argv with
  | nil => cases h
  | cons a rest ih =>
      intro base rgroups
      by_cases ha : a = ""
      · subst ha
        simp [parse_argv_go]
      · have hr : "" ∈ rest := by
          cases h with
          | head => exact absurd rfl ha
          | tail _ hm => exact hm
        have ih' := ih hr
        rw [parse_argv_go.eq_def]
        dsimp only
        rw [if_neg ha]
        by_cases hd : a.data.headD ' ' = '-'
        · rw [if_pos hd, ih']
        · rw [if_neg hd]
          by_cases he : a.data.contains '=' = true
          · simp only [he, if_pos]
            cases rgroups with
            | nil => exact ih' _ _
            | cons g gs => obtain ⟨n, as, kw⟩ := g; exact ih' _ _
          · have he' : a.data.contains '=' = false := by
              cases hb : a.data.contains '='
              · rfl
              · exact absurd hb he
            simp only [he', Bool.false_eq_true, if_neg (by simp : ¬ (false = true))]
            cases rgroups with
            | nil => exact ih' _ _
            | cons g gs => obtain ⟨n, as, kw⟩ := g; exact ih' _ _

/-- Concrete instantiation of `parse_argv_empty_token_raises`: an empty
token amid an otherwise normal chain. -/
theorem parse_argv_empty_token_raises_witness :
    ("" ∈ ["-filter", "", "x"]) ∧
    parse_argv ["-filter", "", "x"] = Option.none :=
  ⟨by decide, parse_argv_empty_token_raises _ (by decide)⟩

/-! ## The binary-operator registry -/

/-- C3: the case-insensitive variant `ige` does NOT equal the
case-sensitive `ge` applied to the lower-cased operands: on `("A", "a")`
`ige` returns `False` (its body computes `to_lower(a) > to_lower(b)`,
coinciding with `igt`) while `ge` on the lower-cased operands — the
behaviour its docstring "Case insensitive greater-than-or-equal-to"
documents — returns `True`. -/
theorem ige_contradicts_ge_of_lowered :
    BinOp.ige (PyVal.str "A") (PyVal.str "a") = some false ∧
    BinOp.ge (BinOp.to_lower (PyVal.str "A")) (BinOp.to_lower (PyVal.str "a")) =
      some true ∧
    BinOp.ige (PyVal.str "A") (PyVal.str "a") =
      BinOp.igt (PyVal.str "A") (PyVal.str "a") := by
  decide

/-! ## The action dispatch executor -/

/-- C5: a parsed action chain containing an action name absent from the
dispatch registry is rejected whole: the executor returns the error
listing exactly the unrecognized action names (in chain order, nonempty),
before any handler runs — the outcome does not depend on the record list
at all, so the record list is never transformed. -/
theorem run_action_chain_unknown_action
    (actions : String → Option Handler) (action_groups : List ActionGroup)
    (task_items : List Rec) (g : ActionGroup)
    (hg : g ∈ action_groups) (hun : actions g.1 = Option.none) :
    run_action_chain actions action_groups task_items =
      .error ((action_groups.filter (fun gg => (actions gg.1).isNone)).map (·.1)) ∧
    (action_groups.filter (fun gg => (actions gg.1).isNone)).map (·.1) ≠ [] ∧
    ∀ other : List Rec, run_action_chain actions action_groups other =
      run_action_chain actions action_groups task_items := by
  have hmem : g ∈ action_groups.filter (fun gg => (actions gg.1).isNone) :=
    List.mem_filter.2 ⟨hg, by simp [hun]⟩
  have hfne : action_groups.filter (fun gg => (actions gg.1).isNone) ≠ [] :=
    List.ne_nil_of_mem hmem
  have hmapne :
      (action_groups.filter (fun gg => (actions gg.1).isNone)).map (·.1) ≠ [] := by
    intro hmn
    exact hfne (List.map_eq_nil_iff.mp hmn)
  have herr : ∀ ts : List Rec, run_action_chain actions action_groups ts =
      .error ((action_groups.filter (fun gg => (actions gg.1).isNone)).map (·.1)) := by
    intro ts
    unfold run_action_chain
    rw [if_neg]
    intro hempty
    exact hmapne (List.isEmpty_iff.mp hempty)
  exact ⟨herr task_items, hmapne, fun other => by rw [herr other, herr task_items]⟩

/-- Concrete instantiation of `run_action_chain_unknown_action`: a
registry knowing only `print`, a chain `-print -frobnicate`, rejected
with the listing `["frobnicate"]`. -/
theorem run_action_chain_unknown_action_witness :
    (("frobnicate", ([] : List String), ([] : KW)) ∈
      ([("print", [], []), ("frobnicate", [], [])] : List ActionGroup)) ∧
    demoActions "frobnicate" = Option.none ∧
    (run_action_chain demoActions [("print", [], []), ("frobnicate", [], [])] [] =
      .error ((([("print", [], []), ("frobnicate", [], [])] : List ActionGroup).filter
          (fun gg => (demoActions gg.1).isNone)).map (·.1)) ∧
     ((([("print", [], []), ("frobnicate", [], [])] : List ActionGroup).filter
          (fun gg => (demoActions gg.1).isNone)).map (·.1)) ≠ [] ∧
     ∀ other : List Rec,
       run_action_chain demoActions [("print", [], []), ("frobnicate", [], [])] other =
       run_action_chain demoActions [("print", [], []), ("frobnicate", [], [])] []) :=
  ⟨List.Mem.tail _ (List.Mem.head _), rfl,
   run_action_chain_unknown_action demoActions
     [("print", [], []), ("frobnicate", [], [])] []
     ("frobnicate", [], []) (List.Mem.tail _ (List.Mem.head _)) rfl⟩

/-! ## Lemmas about the sort handler -/

theorem intCmp_swap (a b : Int) : (intCmp a b).swap = intCmp b a := by
  unfold intCmp
  split_ifs <;> first | rfl | omega

theorem intCmp_eq_iff (a b : Int) : intCmp a b = .eq ↔ a = b := by
  unfold intCmp
  split_ifs <;> constructor <;> intro h <;> first | rfl | omega | cases h

theorem intCmp_lt_trans (a b c : Int) (h1 : intCmp a b = .lt) (h2 : intCmp b c = .lt) :
    intCmp a c = .lt := by
  unfold intCmp at h1 h2 ⊢
  split_ifs at h1 h2 ⊢ <;> first | rfl | omega

theorem intsCmp_cons_eq {a b : Int} (as bs : List Int) (h : intCmp a b = .eq) :
    intsCmp (a :: as) (b :: bs) = intsCmp as bs := by
  simp [intsCmp, h]

theorem intsCmp_cons_lt {a b : Int} (as bs : List Int) (h : intCmp a b = .lt) :
    intsCmp (a :: as) (b :: bs) = .lt := by
  simp [intsCmp, h]

theorem intsCmp_cons_gt {a b : Int} (as bs : List Int) (h : intCmp a b = .gt) :
    intsCmp (a :: as) (b :: bs) = .gt := by
  simp [intsCmp, h]

theorem intCmp_swap_eq {a b : Int} (h : intCmp a b = .eq) : intCmp b a = .eq := by
  rw [← intCmp_swap, h]; rfl

theorem intCmp_swap_lt {a b : Int} (h : intCmp a b = .lt) : intCmp b a = .gt := by
  rw [← intCmp_swap, h]; rfl

theorem intCmp_swap_gt {a b : Int} (h : intCmp a b = .gt) : intCmp b a = .lt := by
  rw [← intCmp_swap, h]; rfl

theorem intsCmp_swap (l1 : List Int) : ∀ l2, (intsCmp l1 l2).swap = intsCmp l2 l1 := by
  induction l1 with
  | nil => intro l2; cases l2 <;> rfl
  | cons a as ih =>
      intro l2
      cases l2 with
      | nil => rfl
      | cons b bs =>
          cases hc : intCmp a b with
          | eq =>
              rw [intsCmp_cons_eq as bs hc, intsCmp_cons_eq bs as (intCmp_swap_eq hc)]
              exact ih bs
          | lt =>
              rw [intsCmp_cons_lt as bs hc, intsCmp_cons_gt bs as (intCmp_swap_lt hc)]
              rfl
          | gt =>
              rw [intsCmp_cons_gt as bs hc, intsCmp_cons_lt bs as (intCmp_swap_gt hc)]
              rfl

theorem intsCmp_eq_iff (l1 : List Int) : ∀ l2, intsCmp l1 l2 = .eq ↔ l1 = l2 := by
  induction l1 with
  | nil =>
      intro l2
      cases l2 with
      | nil => simp [intsCmp]
      | cons b bs => simp [intsCmp]
  | cons a as ih =>
      intro l2
      cases l2 with
      | nil => simp [intsCmp]
      | cons b bs =>
          cases hc : intCmp a b with
          | eq =>
              have hab : a = b := (intCmp_eq_iff a b).1 hc
              subst hab
              rw [intsCmp_cons_eq as bs hc]
              simp [ih bs]
          | lt =>
              have hne : ¬ a = b := fun h => by
                rw [(intCmp_eq_iff a b).2 h] at hc; cases hc
              rw [intsCmp_cons_lt as bs hc]
              simp [hne]
          | gt =>
              have hne : ¬ a = b := fun h => by
                rw [(intCmp_eq_iff a b).2 h] at hc; cases hc
              rw [intsCmp_cons_gt as bs hc]
              simp [hne]

theorem intsCmp_lt_trans (l1 : List Int) :
    ∀ l2 l3, intsCmp l1 l2 = .lt → intsCmp l2 l3 = .lt → intsCmp l1 l3 = .lt := by
  induction l1 with
  | nil =>
      intro l2 l3 h1 h2
      cases l2 with
      | nil => cases h1
      | cons b bs =>
          cases l3 with
          | nil => cases h2
          | cons c cs => rfl
  | cons a as ih =>
      intro l2 l3 h1 h2
      cases l2 with
      | nil => cases h1
      | cons b bs =>
          cases l3 with
          | nil => cases h2
          | cons c cs =>
              cases hab : intCmp a b with
              | lt =>
                  cases hbc : intCmp b c with
                  | lt => exact intsCmp_cons_lt as cs (intCmp_lt_trans a b c hab hbc)
                  | eq =>
                      have : b = c := (intCmp_eq_iff b c).1 hbc
                      subst this
                      exact intsCmp_cons_lt as cs hab
                  | gt => rw [intsCmp_cons_gt bs cs hbc] at h2; cases h2
              | eq =>
                  have : a = b := (intCmp_eq_iff a b).1 hab
                  subst this
                  rw [intsCmp_cons_eq as bs hab] at h1
                  cases hbc : intCmp a c with
                  | lt => exact intsCmp_cons_lt as cs hbc
                  | eq =>
                      rw [intsCmp_cons_eq bs cs hbc] at h2
                      rw [intsCmp_cons_eq as cs hbc]
                      exact ih bs cs h1 h2
                  | gt => rw [intsCmp_cons_gt bs cs hbc] at h2; cases h2
              | gt => rw [intsCmp_cons_gt as bs hab] at h1; cases h1

theorem keyCmp_eq_code (a b : PyVal) (h : keyCmp a b = some .eq) :
    keyCode a = keyCode b ∧ (keyCode a).isSome := by
  unfold keyCmp at h
  cases ha : keyCode a with
  | none => rw [ha] at h; cases h
  | some p =>
      obtain ⟨k1, v1⟩ := p
      cases hb : keyCode b with
      | none => rw [ha, hb] at h; cases h
      | some q =>
          obtain ⟨k2, v2⟩ := q
          rw [ha, hb] at h
          dsimp only at h
          by_cases hk : k1 = k2
          · subst hk
            rw [if_pos rfl] at h
            simp only [Option.some.injEq] at h
            have hv : v1 = v2 := (intsCmp_eq_iff v1 v2).1 h
            subst hv
            exact ⟨rfl, rfl⟩
          · rw [if_neg hk] at h; cases h

theorem keyCmp_swap (a b : PyVal) : (keyCmp a b).map Ordering.swap = keyCmp b a := by
  unfold keyCmp
  cases ha : keyCode a with
  | none =>
      cases hb : keyCode b with
      | none => rfl
      | some q => obtain ⟨k2, v2⟩ := q; rfl
  | some p =>
      obtain ⟨k1, v1⟩ := p
      cases hb : keyCode b with
      | none => rfl
      | some q =>
          obtain ⟨k2, v2⟩ := q
          by_cases hk : k1 = k2
          · subst hk
            simp [intsCmp_swap]
          · have hk' : ¬ k2 = k1 := fun he => hk he.symm
            simp [hk, hk']

theorem keyCmp_lt_trans (a b c : PyVal) (h1 : keyCmp a b = some .lt)
    (h2 : keyCmp b c = some .lt) : keyCmp a c = some .lt := by
  unfold keyCmp at h1 h2 ⊢
  cases ha : keyCode a with
  | none => rw [ha] at h1; cases h1
  | some p =>
      obtain ⟨k1, v1⟩ := p
      cases hb : keyCode b with
      | none => rw [ha, hb] at h1; cases h1
      | some q =>
          obtain ⟨k2, v2⟩ := q
          cases hc : keyCode c with
          | none => rw [hb, hc] at h2; cases h2
          | some r =>
              obtain ⟨k3, v3⟩ := r
              try rw [ha, hb] at h1
              try rw [hb, hc] at h2
              try rw [ha, hc]
              dsimp only at h1 h2 ⊢
              by_cases hk12 : k1 = k2
              · subst hk12
                rw [if_pos rfl] at h1
                by_cases hk23 : k1 = k3
                · subst hk23
                  rw [if_pos rfl] at h2 ⊢
                  simp only [Option.some.injEq] at h1 h2 ⊢
                  exact intsCmp_lt_trans v1 v2 v3 h1 h2
                · rw [if_neg hk23] at h2; cases h2
              · rw [if_neg hk12] at h1; cases h1

theorem keyTupCmp_eq_congr (l1 : List PyVal) :
    ∀ l2 l3, keyTupCmp l1 l2 = some .eq → keyTupCmp l1 l3 = keyTupCmp l2 l3 := by
  induction l1 with
  | nil =>
      intro l2 l3 h
      cases l2 with
      | nil => rfl
      | cons b bs => cases h
  | cons a as ih =>
      intro l2 l3 h
      cases l2 with
      | nil => cases h
      | cons b bs =>
          simp only [keyTupCmp] at h
          cases hab : keyCmp a b with
          | none => rw [hab] at h; cases h
          | some o =>
              rw [hab] at h
              cases o with
              | lt => cases h
              | gt => cases h
              | eq =>
                  have hcode := keyCmp_eq_code a b hab
                  cases l3 with
                  | nil => rfl
                  | cons c cs =>
                      simp only [keyTupCmp]
                      have hac : keyCmp a c = keyCmp b c := by
                        unfold keyCmp
                        rw [hcode.1]
                      rw [hac]
                      cases hbc : keyCmp b c with
                      | none => rfl
                      | some o2 =>
                          cases o2 with
                          | lt => rfl
                          | gt => rfl
                          | eq => exact ih bs cs h

theorem keyTupCmp_swap (l1 : List PyVal) :
    ∀ l2, (keyTupCmp l1 l2).map Ordering.swap = keyTupCmp l2 l1 := by
  induction l1 with
  | nil =>
      intro l2
      cases l2 with
      | nil => rfl
      | cons b bs => rfl
  | cons a as ih =>
      intro l2
      cases l2 with
      | nil => rfl
      | cons b bs =>
          simp only [keyTupCmp]
          cases hab : keyCmp a b with
          | none =>
              have hba : keyCmp b a = Option.none := by
                rw [← keyCmp_swap, hab]; rfl
              rw [hba]
              rfl
          | some o =>
              have hba : keyCmp b a = some o.swap := by
                rw [← keyCmp_swap, hab]; rfl
              rw [hba]
              cases o with
              | lt => rfl
              | gt => rfl
              | eq => exact ih bs

theorem keyTupCmp_lt_trans (l1 : List PyVal) :
    ∀ l2 l3, keyTupCmp l1 l2 = some .lt → keyTupCmp l2 l3 = some .lt →
    keyTupCmp l1 l3 = some .lt := by
  induction l1 with
  | nil =>
      intro l2 l3 h1 h2
      cases l2 with
      | nil => cases h1
      | cons b bs => cases h1
  | cons a as ih =>
      intro l2 l3 h1 h2
      cases l2 with
      | nil => cases h1
      | cons b bs =>
          cases l3 with
          | nil => cases h2
          | cons c cs =>
              simp only [keyTupCmp] at h1 h2 ⊢
              cases hab : keyCmp a b with
              | none => rw [hab] at h1; cases h1
              | some o1 =>
                  rw [hab] at h1
                  cases hbc : keyCmp b c with
                  | none => rw [hbc] at h2; cases h2
                  | some o2 =>
                      rw [hbc] at h2
                      cases o1 with
                      | gt => cases h1
                      | lt =>
                          cases o2 with
                          | gt => cases h2
                          | lt =>
                              rw [keyCmp_lt_trans a b c hab hbc]
                          | eq =>
                              have hcode := keyCmp_eq_code b c hbc
                              have hac : keyCmp a c = keyCmp a b := by
                                unfold keyCmp
                                rw [hcode.1]
                              rw [hac, hab]
                      | eq =>
                          cases o2 with
                          | gt => cases h2
                          | lt =>
                              have hcode := keyCmp_eq_code a b hab
                              have hac : keyCmp a c = keyCmp b c := by
                                unfold keyCmp
                                rw [hcode.1]
                              rw [hac, hbc]
                          | eq =>
                              have hcode := keyCmp_eq_code a b hab
                              have hac : keyCmp a c = keyCmp b c := by
                                unfold keyCmp
                                rw [hcode.1]
                              rw [hac, hbc]
                              exact ih bs cs h1 h2

theorem taggedLe_iff (x y : Rec × List PyVal) :
    taggedLe x y = true ↔
      (keyTupCmp x.2 y.2 = some .lt ∨ keyTupCmp x.2 y.2 = some .eq) := by
  unfold taggedLe
  cases h : keyTupCmp x.2 y.2 with
  | none => simp
  | some o => cases o <;> simp

theorem taggedLe_total (x y : Rec × List PyVal)
    (h : (keyTupCmp x.2 y.2).isSome = true) :
    taggedLe x y = true ∨ taggedLe y x = true := by
  cases hc : keyTupCmp x.2 y.2 with
  | none => rw [hc] at h; cases h
  | some o =>
      cases o with
      | lt => exact Or.inl ((taggedLe_iff x y).2 (Or.inl hc))
      | eq => exact Or.inl ((taggedLe_iff x y).2 (Or.inr hc))
      | gt =>
          refine Or.inr ((taggedLe_iff y x).2 (Or.inl ?_))
          rw [← keyTupCmp_swap, hc]
          rfl

theorem taggedLe_trans (x y z : Rec × List PyVal)
    (hxy : taggedLe x y = true) (hyz : taggedLe y z = true) :
    taggedLe x z = true := by
  rcases (taggedLe_iff x y).1 hxy with h1 | h1 <;>
    rcases (taggedLe_iff y z).1 hyz with h2 | h2
  · exact (taggedLe_iff x z).2 (Or.inl (keyTupCmp_lt_trans _ _ _ h1 h2))
  · refine (taggedLe_iff x z).2 (Or.inl ?_)
    have hswap : keyTupCmp z.2 y.2 = some .eq := by
      rw [← keyTupCmp_swap, h2]; rfl
    have := keyTupCmp_eq_congr y.2 z.2 x.2 h2
    -- keyTupCmp y x = keyTupCmp z x; we need x-z direction
    have hxz : keyTupCmp x.2 z.2 = keyTupCmp x.2 y.2 := by
      have h1' := keyTupCmp_eq_congr z.2 y.2 x.2 hswap
      -- h1' : keyTupCmp z x = keyTupCmp y x
      have hz : (keyTupCmp z.2 x.2).map Ordering.swap = keyTupCmp x.2 z.2 :=
        keyTupCmp_swap z.2 x.2
      have hy : (keyTupCmp y.2 x.2).map Ordering.swap = keyTupCmp x.2 y.2 :=
        keyTupCmp_swap y.2 x.2
      rw [← hz, ← hy, h1']
    rw [hxz]
    exact h1
  · refine (taggedLe_iff x z).2 (Or.inl ?_)
    rw [keyTupCmp_eq_congr x.2 y.2 z.2 h1]
    exact h2
  · refine (taggedLe_iff x z).2 (Or.inr ?_)
    rw [keyTupCmp_eq_congr x.2 y.2 z.2 h1]
    exact h2

theorem taggedLe_antisym_cmp (x y : Rec × List PyVal)
    (hxy : taggedLe x y = true) (hyx : taggedLe y x = true) :
    keyTupCmp x.2 y.2 = some .eq := by
  rcases (taggedLe_iff x y).1 hxy with h1 | h1
  · rcases (taggedLe_iff y x).1 hyx with h2 | h2
    · have : keyTupCmp x.2 y.2 = some .gt := by
        rw [← keyTupCmp_swap, h2]; rfl
      rw [h1] at this
      cases this
    · have : keyTupCmp x.2 y.2 = some .eq := by
        rw [← keyTupCmp_swap, h2]; rfl
      exact this
  · exact h1

/-! ## Lemmas about the stable insertion sort -/

theorem pyOrdInsert_perm (le : α → α → Bool) (x : α) (l : List α) :
    List.Perm (pyOrdInsert le x l) (x :: l) := by
  induction l with
  | nil => exact List.Perm.refl _
  | cons y ys ih =>
      unfold pyOrdInsert
      by_cases h : le x y = true
      · rw [if_pos h]
      · rw [if_neg h]
        exact (ih.cons y).trans (List.Perm.swap x y ys)

theorem pyInsSort_perm (le : α → α → Bool) (l : List α) :
    List.Perm (pyInsSort le l) l := by
  induction l with
  | nil => exact List.Perm.refl _
  | cons x xs ih =>
      unfold pyInsSort
      exact (pyOrdInsert_perm le x (pyInsSort le xs)).trans (ih.cons x)

theorem pyOrdInsert_mem (le : α → α → Bool) (x : α) (l : List α) (a : α) :
    a ∈ pyOrdInsert le x l ↔ a = x ∨ a ∈ l := by
  rw [(pyOrdInsert_perm le x l).mem_iff]
  simp

theorem pyInsSort_mem (le : α → α → Bool) (l : List α) (a : α) :
    a ∈ pyInsSort le l ↔ a ∈ l :=
  (pyInsSort_perm le l).mem_iff

theorem pyOrdInsert_pairwise (le : α → α → Bool)
    (htrans : ∀ a b c : α, le a b = true → le b c = true → le a c = true)
    (x : α) (l : List α)
    (htot : ∀ y ∈ l, le x y = true ∨ le y x = true)
    (hl : l.Pairwise (fun a b => le a b = true)) :
    (pyOrdInsert le x l).Pairwise (fun a b => le a b = true) := by
  induction l with
  | nil => simp [pyOrdInsert]
  | cons y ys ih =>
      unfold pyOrdInsert
      rcases List.pairwise_cons.1 hl with ⟨hy, hys⟩
      by_cases h : le x y = true
      · rw [if_pos h]
        refine List.pairwise_cons.2 ⟨?_, hl⟩
        intro b hb
        rcases List.mem_cons.1 hb with rfl | hb
        · exact h
        · exact htrans x y b h (hy b hb)
      · rw [if_neg h]
        have hyx : le y x = true := by
          rcases htot y (List.mem_cons_self y ys) with hc | hc
          · exact absurd hc h
          · exact hc
        refine List.pairwise_cons.2 ⟨?_, ?_⟩
        · intro b hb
          rcases (pyOrdInsert_mem le x ys b).1 hb with hb | hb
          · rw [hb]; exact hyx
          · exact hy b hb
        · exact ih (fun z hz => htot z (List.mem_cons_of_mem y hz)) hys

theorem pyInsSort_pairwise (le : α → α → Bool)
    (htrans : ∀ a b c : α, le a b = true → le b c = true → le a c = true)
    (l : List α)
    (htot : ∀ a ∈ l, ∀ b ∈ l, le a b = true ∨ le b a = true) :
    (pyInsSort le l).Pairwise (fun a b => le a b = true) := by
  induction l with
  | nil => simp [pyInsSort]
  | cons x xs ih =>
      unfold pyInsSort
      refine pyOrdInsert_pairwise le htrans x (pyInsSort le xs) ?_ ?_
      · intro y hy
        have hy' : y ∈ xs := (pyInsSort_mem le xs y).1 hy
        exact htot x (List.mem_cons_self x xs) y (List.mem_cons_of_mem x hy')
      · exact ih (fun a ha b hb =>
          htot a (List.mem_cons_of_mem x ha) b (List.mem_cons_of_mem x hb))

theorem pyInsSort_sorted_id (le : α → α → Bool) (l : List α)
    (hl : l.Pairwise (fun a b => le a b = true)) :
    pyInsSort le l = l := by
  induction l with
  | nil => rfl
  | cons x xs ih =>
      rcases List.pairwise_cons.1 hl with ⟨hx, hxs⟩
      unfold pyInsSort
      rw [ih hxs]
      cases xs with
      | nil => rfl
      | cons y ys =>
          unfold pyOrdInsert
          rw [if_pos (hx y (List.mem_cons_self y ys))]

theorem sorted_perm_unique (le : α → α → Bool) :
    ∀ (l1 l2 : List α), List.Perm l1 l2 →
    l1.Pairwise (fun a b => le a b = true) →
    l2.Pairwise (fun a b => le a b = true) →
    (∀ a ∈ l1, ∀ b ∈ l1, le a b = true → le b a = true → a = b) →
    l1 = l2
  | [], l2, hp, _, _, _ => (hp.nil_eq).symm ▸ rfl
  | a :: t1, l2, hp, h1, h2, hanti => by
      cases l2 with
      | nil => exact absurd hp.symm (by simp)
      | cons b t2 =>
          rcases List.pairwise_cons.1 h1 with ⟨ha, ht1⟩
          rcases List.pairwise_cons.1 h2 with ⟨hb, ht2⟩
          have hab : a = b := by
            by_cases heq : a = b
            · exact heq
            · have hain : a ∈ b :: t2 := hp.subset (List.mem_cons_self a t1)
              have hbin : b ∈ a :: t1 := hp.symm.subset (List.mem_cons_self b t2)
              have hain' : a ∈ t2 := by
                rcases List.mem_cons.1 hain with h | h
                · exact absurd h heq
                · exact h
              have hbin' : b ∈ t1 := by
                rcases List.mem_cons.1 hbin with h | h
                · exact absurd h.symm heq
                · exact h
              have h1ab : le a b = true := ha b hbin'
              have h2ba : le b a = true := hb a hain'
              exact hanti a (List.mem_cons_self a t1) b (List.mem_cons_of_mem a hbin')
                h1ab h2ba
          subst hab
          have hp' : List.Perm t1 t2 := (List.perm_cons a).1 hp
          have : t1 = t2 :=
            sorted_perm_unique le t1 t2 hp' ht1 ht2
              (fun x hx y hy => hanti x (List.mem_cons_of_mem a hx)
                y (List.mem_cons_of_mem a hy))
          rw [this]

/-! ## Lemmas about optMapM and the sort handler -/

theorem optMapM_mem (f : α → Option β) :
    ∀ (l : List α) (l2 : List β), optMapM f l = some l2 →
    ∀ y ∈ l2, ∃ x ∈ l, f x = some y
  | [], l2, h => by
      unfold optMapM at h
      cases h
      intro y hy
      cases hy
  | x :: xs, l2, h => by
      unfold optMapM at h
      simp only [Option.bind_eq_bind] at h
      cases hfx : f x with
      | none => rw [hfx] at h; simp only [Option.none_bind] at h; cases h
      | some y0 =>
          rw [hfx] at h
          simp only [Option.some_bind] at h
          cases hrest : optMapM f xs with
          | none => rw [hrest] at h; simp only [Option.none_bind] at h; cases h
          | some ys =>
              rw [hrest] at h
              simp only [Option.some_bind] at h
              cases h
              intro y hy
              rcases List.mem_cons.1 hy with rfl | hy
              · exact ⟨x, List.mem_cons_self x xs, hfx⟩
              · rcases optMapM_mem f xs ys hrest y hy with ⟨z, hz, hfz⟩
                exact ⟨z, List.mem_cons_of_mem x hz, hfz⟩

theorem optMapM_tag_of_inv (keys : String) :
    ∀ (A : List (Rec × List PyVal)),
    (∀ p ∈ A, task_sort_key keys p.1 = some p.2) →
    optMapM (fun t => (task_sort_key keys t).map (fun kv => (t, kv)))
      (A.map (fun p => p.1)) = some A
  | [], _ => rfl
  | p :: ps, h => by
      unfold optMapM
      simp only [List.map_cons]
      rw [h p (List.mem_cons_self p ps)]
      simp only [Option.map_some']
      rw [optMapM_tag_of_inv keys ps (fun q hq => h q (List.mem_cons_of_mem p hq))]
      simp only [Option.bind_eq_bind, Option.some_bind]
      rfl

/-- C6 counterexample: on two tasks tied on `priority`, the stable
descending sort preserves their original order, so it is NOT the reverse
of the (equally order-preserving) ascending sort. -/
theorem sort_tasks_descending_ne_reverse_ascending :
    sort_tasks "priority" "descending" [tieTaskA, tieTaskB] ≠
      (sort_tasks "priority" "ascending" [tieTaskA, tieTaskB]).map List.reverse := by
  decide

/-- C6 (amended): whenever both orders succeed, re-sorting the ascending
output ascending again returns it unchanged and re-sorting the descending
output descending again returns it unchanged — unconditionally, ties
included (stability); and when additionally no two distinct input records
are tied on the key string, the descending output is exactly the reverse
of the ascending output (an equality that can fail on tied inputs, as the
separate counterexample shows). -/
theorem sort_tasks_descending_reverse_and_stable
    (keys : String) (tasks asc desc : List Rec)
    (hasc : sort_tasks keys "ascending" tasks = some asc)
    (hdesc : sort_tasks keys "descending" tasks = some desc) :
    sort_tasks keys "ascending" asc = some asc ∧
    sort_tasks keys "descending" desc = some desc ∧
    ((∀ t1 ∈ tasks, ∀ t2 ∈ tasks,
        sortKeysTied keys t1 t2 = true → t1 = t2) →
      desc = asc.reverse) := by
  unfold sort_tasks at hasc hdesc
  cases hopt : optMapM (fun t => (task_sort_key keys t).map (fun kv => (t, kv))) tasks with
  | none =>
      rw [hopt] at hasc
      simp only [Option.bind_eq_bind, Option.none_bind] at hasc
      cases hasc
  | some tagged =>
      rw [hopt] at hasc hdesc
      simp only [Option.bind_eq_bind, Option.some_bind] at hasc hdesc
      by_cases hgate :
          tagged.all (fun x => tagged.all (fun y => (keyTupCmp x.2 y.2).isSome)) = true
      case neg =>
          rw [if_neg hgate] at hasc
          cases hasc
      case pos =>
      rw [if_pos hgate] at hasc hdesc
      have hne : ("ascending" : String) ≠ "descending" := by decide
      try rw [if_neg hne] at hasc
      try simp only [if_true, if_pos, ite_true] at hdesc
      try rw [if_pos (True.intro)] at hdesc
      have hascEq : (pyInsSort taggedLe tagged).map (fun p => p.1) = asc := by
        have h := hasc
        simp only [Option.pure_def, Option.some_inj] at h
        exact h
      have hdescEq :
          ((pyInsSort taggedLe tagged.reverse).reverse).map (fun p => p.1) = desc := by
        have h := hdesc
        simp only [Option.pure_def, Option.some_inj] at h
        exact h
      -- member facts
      have hcomp : ∀ x ∈ tagged, ∀ y ∈ tagged, (keyTupCmp x.2 y.2).isSome = true := by
        intro x hx y hy
        exact List.all_eq_true.1 (List.all_eq_true.1 hgate x hx) y hy
      have hinv : ∀ p ∈ tagged, p.1 ∈ tasks ∧ task_sort_key keys p.1 = some p.2 := by
        intro p hp
        rcases optMapM_mem _ tasks tagged hopt p hp with ⟨t, ht, hft⟩
        rcases Option.map_eq_some'.1 hft with ⟨kv, hkv, hpair⟩
        rw [← hpair]
        exact ⟨ht, hkv⟩
      have htot : ∀ x ∈ tagged, ∀ y ∈ tagged,
          taggedLe x y = true ∨ taggedLe y x = true :=
        fun x hx y hy => taggedLe_total x y (hcomp x hx y hy)
      -- both sorts are permutations of tagged
      have hpermA : List.Perm (pyInsSort taggedLe tagged) tagged :=
        pyInsSort_perm taggedLe tagged
      have hpermD : List.Perm (pyInsSort taggedLe tagged.reverse) tagged :=
        (pyInsSort_perm taggedLe tagged.reverse).trans (List.reverse_perm tagged)
      -- both sorts are pairwise-sorted
      have hpairA :
          (pyInsSort taggedLe tagged).Pairwise (fun a b => taggedLe a b = true) :=
        pyInsSort_pairwise taggedLe taggedLe_trans tagged htot
      have hpairD :
          (pyInsSort taggedLe tagged.reverse).Pairwise
            (fun a b => taggedLe a b = true) := by
        refine pyInsSort_pairwise taggedLe taggedLe_trans tagged.reverse ?_
        intro a ha b hb
        exact htot a (List.mem_reverse.1 ha) b (List.mem_reverse.1 hb)
      refine ⟨?_, ?_, ?_⟩
      · -- re-sorting the ascending output, no tie hypothesis needed
        have hinvA : ∀ p ∈ pyInsSort taggedLe tagged,
            task_sort_key keys p.1 = some p.2 :=
          fun p hp => (hinv p (hpermA.subset hp)).2
        unfold sort_tasks
        rw [← hascEq,
          optMapM_tag_of_inv keys (pyInsSort taggedLe tagged) hinvA]
        simp only [Option.bind_eq_bind, Option.some_bind]
        have hgateA : (pyInsSort taggedLe tagged).all
            (fun x => (pyInsSort taggedLe tagged).all
              (fun y => (keyTupCmp x.2 y.2).isSome)) = true := by
          refine List.all_eq_true.2 ?_
          intro x hx
          refine List.all_eq_true.2 ?_
          intro y hy
          exact hcomp x (hpermA.subset hx) y (hpermA.subset hy)
        rw [if_pos hgateA]
        have hne2 : ("ascending" : String) ≠ "descending" := by decide
        rw [if_neg hne2]
        rw [pyInsSort_sorted_id taggedLe _ hpairA]
        rfl
      · -- re-sorting the descending output, no tie hypothesis needed
        have hinvD : ∀ p ∈ (pyInsSort taggedLe tagged.reverse).reverse,
            task_sort_key keys p.1 = some p.2 :=
          fun p hp => (hinv p (hpermD.subset (List.mem_reverse.1 hp))).2
        unfold sort_tasks
        rw [← hdescEq,
          optMapM_tag_of_inv keys ((pyInsSort taggedLe tagged.reverse).reverse)
            hinvD]
        simp only [Option.bind_eq_bind, Option.some_bind]
        have hgateD : ((pyInsSort taggedLe tagged.reverse).reverse).all
            (fun x => ((pyInsSort taggedLe tagged.reverse).reverse).all
              (fun y => (keyTupCmp x.2 y.2).isSome)) = true := by
          refine List.all_eq_true.2 ?_
          intro x hx
          refine List.all_eq_true.2 ?_
          intro y hy
          exact hcomp x (hpermD.subset (List.mem_reverse.1 hx))
            y (hpermD.subset (List.mem_reverse.1 hy))
        rw [if_pos hgateD]
        try rw [if_pos (show ("descending" : String) = "descending" from rfl)]
        try simp only [if_true]
        rw [List.reverse_reverse]
        rw [pyInsSort_sorted_id taggedLe _ hpairD]
        rfl
      · -- descending = reverse of ascending, given no distinct tied records
        intro hnotie
        have hanti : ∀ x ∈ pyInsSort taggedLe tagged,
            ∀ y ∈ pyInsSort taggedLe tagged,
            taggedLe x y = true → taggedLe y x = true → x = y := by
          intro x hx y hy h1 h2
          have hx2 := hinv x (hpermA.subset hx)
          have hy2 := hinv y (hpermA.subset hy)
          have hcmp := taggedLe_antisym_cmp x y h1 h2
          have h12 : x.1 = y.1 := by
            apply hnotie x.1 hx2.1 y.1 hy2.1
            unfold sortKeysTied
            rw [hx2.2, hy2.2]
            dsimp only
            rw [hcmp]
          have h22 : x.2 = y.2 := by
            have hx2' := hx2.2
            rw [h12, hy2.2] at hx2'
            exact (Option.some_inj.1 hx2').symm
          rcases x with ⟨x1, xk⟩
          rcases y with ⟨y1, yk⟩
          dsimp only at h12 h22
          rw [h12, h22]
        have hAD : pyInsSort taggedLe tagged = pyInsSort taggedLe tagged.reverse :=
          sorted_perm_unique taggedLe _ _ (hpermA.trans hpermD.symm) hpairA hpairD
            hanti
        rw [← hdescEq, ← hascEq, ← hAD, List.map_reverse]

/-- Witness for the amended C6 theorem, at a two-record list with
distinct priorities: both re-sorts return the sorted lists unchanged, and
the tie-free inputs make descending the reverse of ascending. -/
theorem sort_tasks_descending_reverse_and_stable_w :
    sort_tasks "priority" "ascending" [loneTaskD, loneTaskC]
        = some [loneTaskD, loneTaskC] ∧
      sort_tasks "priority" "descending" [loneTaskC, loneTaskD]
        = some [loneTaskC, loneTaskD] ∧
      [loneTaskC, loneTaskD] = ([loneTaskD, loneTaskC] : List Rec).reverse := by
  obtain ⟨h1, h2, h3⟩ :=
    sort_tasks_descending_reverse_and_stable "priority"
      [loneTaskC, loneTaskD] [loneTaskD, loneTaskC] [loneTaskC, loneTaskD]
      (by decide) (by decide)
  exact ⟨h1, h2, h3 (by decide)⟩

/-! ## Lemmas about the safe-field stage of the deriver -/

theorem addSafeFields_spec (safe_date : PyDateTime) (out out' : Rec)
    (h : addSafeFields safe_date out = some out') :
    ∃ dd, dget out' "due_date_safe_dt" = some (.dt dd) ∧
      dget out' "due_date_safe_iso" = some (.str (fmtISO dd)) ∧
      dget out' "due_date_dt" = dget out "due_date_dt" ∧
      (dget out "due_date_dt" = some (.dt dd) ∨
        (dget out "due_date_dt" = Option.none ∧ dd = safe_date)) := by
  unfold addSafeFields at h
  cases hdd : dget out "due_date_dt" with
  | none =>
      rw [hdd] at h
      try dsimp only at h
      simp only [Option.bind_eq_bind, Option.some_bind, Option.pure_def,
        Option.some_inj] at h
      subst h
      refine ⟨safe_date, ?_, ?_, ?_, Or.inr ⟨rfl, rfl⟩⟩
      · rw [dget_dset, if_neg (by decide : ("due_date_safe" : String) ≠ "due_date_safe_dt"),
          dget_dset, if_neg (by decide : ("due_date_safe_iso" : String) ≠ "due_date_safe_dt"),
          dget_dset, if_pos rfl]
      · rw [dget_dset, if_neg (by decide : ("due_date_safe" : String) ≠ "due_date_safe_iso"),
          dget_dset, if_pos rfl]
      · rw [dget_dset, if_neg (by decide : ("due_date_safe" : String) ≠ "due_date_dt"),
          dget_dset, if_neg (by decide : ("due_date_safe_iso" : String) ≠ "due_date_dt"),
          dget_dset, if_neg (by decide : ("due_date_safe_dt" : String) ≠ "due_date_dt")]
        exact hdd
  | some v =>
      rw [hdd] at h
      try dsimp only at h
      cases v with
      | dt dd =>
          try dsimp only at h
          simp only [Option.bind_eq_bind, Option.some_bind, Option.pure_def,
            Option.some_inj] at h
          subst h
          refine ⟨dd, ?_, ?_, ?_, Or.inl rfl⟩
          · rw [dget_dset, if_neg (by decide : ("due_date_safe" : String) ≠ "due_date_safe_dt"),
              dget_dset, if_neg (by decide : ("due_date_safe_iso" : String) ≠ "due_date_safe_dt"),
              dget_dset, if_pos rfl]
          · rw [dget_dset, if_neg (by decide : ("due_date_safe" : String) ≠ "due_date_safe_iso"),
              dget_dset, if_pos rfl]
          · rw [dget_dset, if_neg (by decide : ("due_date_safe" : String) ≠ "due_date_dt"),
              dget_dset, if_neg (by decide : ("due_date_safe_iso" : String) ≠ "due_date_dt"),
              dget_dset, if_neg (by decide : ("due_date_safe_dt" : String) ≠ "due_date_dt")]
            exact hdd
      | none => simp at h
      | bool b => simp at h
      | int n => simp at h
      | str s => simp at h
      | due d => simp at h
      | list l => simp at h

theorem dateKeyStep_dget_other (env : DateEnv) (input_dict : Rec)
    (safe_date : PyDateTime) (out : Rec) (key : String) (out' : Rec) (q : String)
    (h : dateKeyStep env input_dict safe_date out key = some out')
    (h1 : key ++ "_dt" ≠ q) (h2 : key ++ "_iso" ≠ q)
    (h3 : key ++ "_safe_dt" ≠ q) (h4 : key ++ "_safe_iso" ≠ q) :
    dget out' q = dget out q := by
  unfold dateKeyStep at h
  by_cases ht : pyTruthy (dgetD input_dict key PyVal.none) = true
  · rw [if_pos ht] at h
    cases hds : dgetD input_dict key PyVal.none with
    | str s =>
        rw [hds] at h
        try dsimp only at h
        simp only [Option.bind_eq_bind] at h
        rw [Option.bind_eq_some] at h
        obtain ⟨dtp, hdtp, h⟩ := h
        try dsimp only at h
        simp only [Option.pure_def, Option.some_inj] at h
        subst h
        rw [dget_dset, if_neg h4, dget_dset, if_neg h3, dget_dset, if_neg h2,
          dget_dset, if_neg h1]
    | none => rw [hds] at h; dsimp only at h; cases h
    | bool b => rw [hds] at h; dsimp only at h; cases h
    | int n => rw [hds] at h; dsimp only at h; cases h
    | dt d => rw [hds] at h; dsimp only at h; cases h
    | due d => rw [hds] at h; dsimp only at h; cases h
    | list l => rw [hds] at h; dsimp only at h; cases h
  · rw [if_neg ht] at h
    try dsimp only at h
    simp only [Option.pure_def, Option.some_inj] at h
    subst h
    rw [dget_dset, if_neg h4, dget_dset, if_neg h3]

/-- C7: whenever the deriver body `add_task_date_fields` succeeds (with
its default `date_keys` / `safe_date` arguments, as the deriver invokes
it), the output dict always carries `due_date_safe_dt` and
`due_date_safe_iso`; they hold the parsed due-date datetime whenever the
output has one, and the fixed end-of-2099 sentinel `NO_DUEDATE_DATETIME`
when it has none. -/
theorem add_task_date_fields_safe_total
    (env : DateEnv) (input_dict output_dict out : Rec)
    (h : add_task_date_fields env input_dict output_dict = some out) :
    ∃ dd, dget out "due_date_safe_dt" = some (.dt dd) ∧
      dget out "due_date_safe_iso" = some (.str (fmtISO dd)) ∧
      (dget out "due_date_dt" = some (.dt dd) ∨
        (dget out "due_date_dt" = Option.none ∧ dd = NO_DUEDATE_DATETIME)) := by
  unfold add_task_date_fields at h
  simp only [Option.bind_eq_bind] at h
  rw [Option.bind_eq_some] at h
  obtain ⟨out1, hb1, h⟩ := h
  try dsimp only at h
  rw [Option.bind_eq_some] at h
  obtain ⟨out2, hb2, h⟩ := h
  try dsimp only at h
  rw [Option.bind_eq_some] at h
  obtain ⟨out3, hb3, h⟩ := h
  try dsimp only at h
  rw [Option.bind_eq_some] at h
  obtain ⟨out4, hb4, h⟩ := h
  try dsimp only at h
  rw [Option.bind_eq_some] at h
  obtain ⟨pn, hpn, h⟩ := h
  try dsimp only at h
  simp only [Option.pure_def, Option.some_inj] at h
  subst h
  -- unpack the three date-key steps
  simp only [List.foldlM_cons, List.foldlM_nil, Option.bind_eq_bind] at hb4
  rw [Option.bind_eq_some] at hb4
  obtain ⟨o1, hk1, hb4⟩ := hb4
  try dsimp only at hb4
  rw [Option.bind_eq_some] at hb4
  obtain ⟨o2, hk2, hb4⟩ := hb4
  try dsimp only at hb4
  rw [Option.bind_eq_some] at hb4
  obtain ⟨o3, hk3, hb4⟩ := hb4
  try dsimp only at hb4
  simp only [Option.pure_def, Option.some_inj] at hb4
  subst hb4
  obtain ⟨dd, hsdt, hsiso, hpres, hcase⟩ := addSafeFields_spec _ out2 out3 hb3
  have hstep : ∀ q : String,
      ("date_added" : String) ++ "_dt" ≠ q → ("date_added" : String) ++ "_iso" ≠ q →
      ("date_added" : String) ++ "_safe_dt" ≠ q → ("date_added" : String) ++ "_safe_iso" ≠ q →
      ("date_completed" : String) ++ "_dt" ≠ q → ("date_completed" : String) ++ "_iso" ≠ q →
      ("date_completed" : String) ++ "_safe_dt" ≠ q → ("date_completed" : String) ++ "_safe_iso" ≠ q →
      ("completed_date" : String) ++ "_dt" ≠ q → ("completed_date" : String) ++ "_iso" ≠ q →
      ("completed_date" : String) ++ "_safe_dt" ≠ q → ("completed_date" : String) ++ "_safe_iso" ≠ q →
      dget o3 q = dget out3 q := by
    intro q a1 a2 a3 a4 b1 b2 b3 b4 c1 c2 c3 c4
    rw [dateKeyStep_dget_other env input_dict _ o2 "completed_date" o3 q hk3 c1 c2 c3 c4,
      dateKeyStep_dget_other env input_dict _ o1 "date_completed" o2 q hk2 b1 b2 b3 b4,
      dateKeyStep_dget_other env input_dict _ out3 "date_added" o1 q hk1 a1 a2 a3 a4]
  refine ⟨dd, ?_, ?_, ?_⟩
  · rw [dget_dset, if_neg (by decide : ("priority_str" : String) ≠ "due_date_safe_dt"),
      dget_dset, if_neg (by decide : ("checked_str" : String) ≠ "due_date_safe_dt"),
      hstep "due_date_safe_dt" (by decide) (by decide) (by decide) (by decide)
        (by decide) (by decide) (by decide) (by decide)
        (by decide) (by decide) (by decide) (by decide)]
    exact hsdt
  · rw [dget_dset, if_neg (by decide : ("priority_str" : String) ≠ "due_date_safe_iso"),
      dget_dset, if_neg (by decide : ("checked_str" : String) ≠ "due_date_safe_iso"),
      hstep "due_date_safe_iso" (by decide) (by decide) (by decide) (by decide)
        (by decide) (by decide) (by decide) (by decide)
        (by decide) (by decide) (by decide) (by decide)]
    exact hsiso
  · rw [dget_dset, if_neg (by decide : ("priority_str" : String) ≠ "due_date_dt"),
      dget_dset, if_neg (by decide : ("checked_str" : String) ≠ "due_date_dt"),
      hstep "due_date_dt" (by decide) (by decide) (by decide) (by decide)
        (by decide) (by decide) (by decide) (by decide)
        (by decide) (by decide) (by decide) (by decide),
      hpres]
    exact hcase

/-- Witness for C7: the empty input and output dicts, under `demoEnv`. -/
theorem add_task_date_fields_safe_total_w :
    ∃ dd, dget demoDerived "due_date_safe_dt" = some (.dt dd) ∧
      dget demoDerived "due_date_safe_iso" = some (.str (fmtISO dd)) ∧
      (dget demoDerived "due_date_dt" = some (.dt dd) ∨
        (dget demoDerived "due_date_dt" = Option.none ∧ dd = NO_DUEDATE_DATETIME)) :=
  add_task_date_fields_safe_total demoEnv [] [] demoDerived (by decide)

/-! ## Lemmas for deriver idempotence -/

theorem dset_id : ∀ (d : Rec) (k : String) (v : PyVal),
    dget d k = some v → dset d k v = d
  | [], k, v, h => by cases h
  | (ek, ev) :: rest, k, v, h => by
      unfold dget at h
      unfold dset
      by_cases he : ek = k
      · rw [if_pos he] at h
        rw [if_pos he]
        cases h
        rw [he]
      · rw [if_neg he] at h
        rw [if_neg he, dset_id rest k v h]

theorem strAppend_right_ne (k a b : String) (h : a ≠ b) : k ++ a ≠ k ++ b := by
  intro he
  apply h
  have hd : (k ++ a).data = (k ++ b).data := congrArg String.data he
  cases a with
  | mk da =>
      cases b with
      | mk db =>
          cases k with
          | mk dk =>
              simp only [String.data] at hd
              have : da = db := by
                have h2 : dk ++ da = dk ++ db := hd
                exact List.append_cancel_left h2
              rw [this]

theorem pyAstimezoneLocal_aware (env : DateEnv)
    (haware : ∀ d, (env.toLocalZone d).tzAware = true) (d : PyDateTime) :
    (pyAstimezoneLocal env d).tzAware = true := by
  unfold pyAstimezoneLocal
  by_cases h : d.tzAware = true
  · rw [if_pos h]
    exact haware d
  · rw [if_neg h]

theorem repairDueDateTz_dget_other (env : DateEnv) (x y : Rec) (q : String)
    (h : repairDueDateTz env x = some y) (hq : ("due_date_dt" : String) ≠ q) :
    dget y q = dget x q := by
  unfold repairDueDateTz at h
  by_cases ht : pyTruthy (dgetD x "due_date_dt" PyVal.none) = true
  · rw [if_pos ht] at h
    cases hv : dgetD x "due_date_dt" PyVal.none with
    | dt dd =>
        rw [hv] at h
        dsimp only at h
        by_cases hn : (!dd.tzAware) = true
        · rw [if_pos hn] at h
          simp only [Option.pure_def, Option.some_inj] at h
          subst h
          rw [dget_dset, if_neg hq]
        · rw [if_neg hn] at h
          simp only [Option.pure_def, Option.some_inj] at h
          subst h
          rfl
    | none => rw [hv] at h; dsimp only at h; cases h
    | bool b => rw [hv] at h; dsimp only at h; cases h
    | int n => rw [hv] at h; dsimp only at h; cases h
    | str s => rw [hv] at h; dsimp only at h; cases h
    | due d => rw [hv] at h; dsimp only at h; cases h
    | list l => rw [hv] at h; dsimp only at h; cases h
  · rw [if_neg ht] at h
    simp only [Option.pure_def, Option.some_inj] at h
    subst h
    rfl

theorem addSafeFields_dget_other (safe_date : PyDateTime) (x y : Rec) (q : String)
    (h : addSafeFields safe_date x = some y)
    (h1 : ("due_date_safe_dt" : String) ≠ q)
    (h2 : ("due_date_safe_iso" : String) ≠ q)
    (h3 : ("due_date_safe" : String) ≠ q) :
    dget y q = dget x q := by
  unfold addSafeFields at h
  cases hdd : dget x "due_date_dt" with
  | none =>
      rw [hdd] at h
      dsimp only at h
      simp only [Option.bind_eq_bind, Option.some_bind, Option.pure_def,
        Option.some_inj] at h
      subst h
      rw [dget_dset, if_neg h3, dget_dset, if_neg h2, dget_dset, if_neg h1]
  | some v =>
      rw [hdd] at h
      dsimp only at h
      cases v with
      | dt dd =>
          dsimp only at h
          simp only [Option.bind_eq_bind, Option.some_bind, Option.pure_def,
            Option.some_inj] at h
          subst h
          rw [dget_dset, if_neg h3, dget_dset, if_neg h2, dget_dset, if_neg h1]
      | none => simp at h
      | bool b => simp at h
      | int n => simp at h
      | str s => simp at h
      | due d => simp at h
      | list l => simp at h

theorem dgetD_congr (d d' : Rec) (k : String) (v : PyVal)
    (h : dget d k = dget d' k) : dgetD d k v = dgetD d' k v := by
  unfold dgetD
  rw [h]

theorem repairDueDateTz_post_id (env : DateEnv) (x y out1 : Rec)
    (hr : repairDueDateTz env x = some y)
    (hpres : dget out1 "due_date_dt" = dget y "due_date_dt") :
    repairDueDateTz env out1 = some out1 := by
  unfold repairDueDateTz at hr ⊢
  by_cases ht : pyTruthy (dgetD x "due_date_dt" PyVal.none) = true
  · rw [if_pos ht] at hr
    cases hv : dgetD x "due_date_dt" PyVal.none with
    | dt dd =>
        have hgx : dget x "due_date_dt" = some (.dt dd) := by
          cases hg : dget x "due_date_dt" with
          | none => unfold dgetD at hv; rw [hg] at hv; cases hv
          | some w =>
              unfold dgetD at hv
              rw [hg] at hv
              simp only [Option.getD_some] at hv
              rw [hv]
        rw [hv] at hr
        dsimp only at hr
        by_cases hn : (!dd.tzAware) = true
        · rw [if_pos hn] at hr
          simp only [Option.pure_def, Option.some_inj] at hr
          have hddf : dd.tzAware = false := by
            cases hdb : dd.tzAware
            · rfl
            · rw [hdb] at hn; cases hn
          have hAaware : (pyAstimezoneLocal env dd).tzAware = true := by
            unfold pyAstimezoneLocal
            rw [if_neg (by intro hc; rw [hddf] at hc; cases hc)]
          have hgy : dget y "due_date_dt"
              = some (.dt (pyAstimezoneLocal env dd)) := by
            rw [← hr, dget_dset, if_pos rfl]
          have hout1 : dgetD out1 "due_date_dt" PyVal.none
              = .dt (pyAstimezoneLocal env dd) := by
            unfold dgetD
            rw [hpres, hgy]
            rfl
          rw [if_pos (by rw [hout1]; rfl :
            pyTruthy (dgetD out1 "due_date_dt" PyVal.none) = true)]
          rw [hout1]
          dsimp only
          rw [if_neg (by rw [hAaware]; intro hc; cases hc)]
          rfl
        · rw [if_neg hn] at hr
          simp only [Option.pure_def, Option.some_inj] at hr
          subst hr
          have hout1 : dgetD out1 "due_date_dt" PyVal.none = .dt dd := by
            unfold dgetD
            rw [hpres, hgx]
            rfl
          rw [if_pos (by rw [hout1]; rfl :
            pyTruthy (dgetD out1 "due_date_dt" PyVal.none) = true)]
          rw [hout1]
          dsimp only
          rw [if_neg hn]
          rfl
    | none => rw [hv] at hr; dsimp only at hr; cases hr
    | bool b => rw [hv] at hr; dsimp only at hr; cases hr
    | int n => rw [hv] at hr; dsimp only at hr; cases hr
    | str s => rw [hv] at hr; dsimp only at hr; cases hr
    | due d => rw [hv] at hr; dsimp only at hr; cases hr
    | list l => rw [hv] at hr; dsimp only at hr; cases hr
  · rw [if_neg ht] at hr
    simp only [Option.pure_def, Option.some_inj] at hr
    subst hr
    rw [dgetD_congr out1 x "due_date_dt" PyVal.none hpres]
    rw [if_neg ht]
    rfl

theorem addSafeFields_overwrite_id (safe_date : PyDateTime) (x y out1 : Rec)
    (h : addSafeFields safe_date x = some y)
    (hddt : dget out1 "due_date_dt" = dget x "due_date_dt")
    (hdd : dget out1 "due_date" = dget x "due_date")
    (hs1 : dget out1 "due_date_safe_dt" = dget y "due_date_safe_dt")
    (hs2 : dget out1 "due_date_safe_iso" = dget y "due_date_safe_iso")
    (hs3 : dget out1 "due_date_safe" = dget y "due_date_safe") :
    addSafeFields safe_date out1 = some out1 := by
  unfold addSafeFields at h ⊢
  cases hx : dget x "due_date_dt" with
  | none =>
      rw [hx] at h
      dsimp only at h
      simp only [Option.bind_eq_bind, Option.some_bind, Option.pure_def,
        Option.some_inj] at h
      rw [hx] at hddt
      rw [hddt]
      dsimp only
      simp only [Option.bind_eq_bind, Option.some_bind, Option.pure_def,
        Option.some_inj]
      have f1 : dget out1 "due_date_safe_dt" = some (.dt safe_date) := by
        rw [hs1, ← h, dget_dset,
          if_neg (by decide : ("due_date_safe" : String) ≠ "due_date_safe_dt"),
          dget_dset,
          if_neg (by decide : ("due_date_safe_iso" : String) ≠ "due_date_safe_dt"),
          dget_dset, if_pos rfl]
      have f2 : dget out1 "due_date_safe_iso"
          = some (.str (fmtISO safe_date)) := by
        rw [hs2, ← h, dget_dset,
          if_neg (by decide : ("due_date_safe" : String) ≠ "due_date_safe_iso"),
          dget_dset, if_pos rfl]
      rw [dset_id out1 "due_date_safe_dt" (.dt safe_date) f1]
      rw [dset_id out1 "due_date_safe_iso" (.str (fmtISO safe_date)) f2]
      have f3 : dget out1 "due_date_safe"
          = some (match dget out1 "due_date" with
                  | some v => v
                  | Option.none => .str "(No due-date)") := by
        rw [hs3, ← h, dget_dset, if_pos rfl, dget_dset,
          if_neg (by decide : ("due_date_safe_iso" : String) ≠ "due_date"),
          dget_dset,
          if_neg (by decide : ("due_date_safe_dt" : String) ≠ "due_date"), hdd]
      rw [dset_id out1 "due_date_safe" _ f3]
  | some v =>
      rw [hx] at h
      dsimp only at h
      cases v with
      | dt dd =>
          dsimp only at h
          simp only [Option.bind_eq_bind, Option.some_bind, Option.pure_def,
            Option.some_inj] at h
          rw [hx] at hddt
          rw [hddt]
          dsimp only
          simp only [Option.bind_eq_bind, Option.some_bind, Option.pure_def,
            Option.some_inj]
          have f1 : dget out1 "due_date_safe_dt" = some (.dt dd) := by
            rw [hs1, ← h, dget_dset,
              if_neg (by decide : ("due_date_safe" : String) ≠ "due_date_safe_dt"),
              dget_dset,
              if_neg (by decide : ("due_date_safe_iso" : String) ≠ "due_date_safe_dt"),
              dget_dset, if_pos rfl]
          have f2 : dget out1 "due_date_safe_iso"
              = some (.str (fmtISO dd)) := by
            rw [hs2, ← h, dget_dset,
              if_neg (by decide : ("due_date_safe" : String) ≠ "due_date_safe_iso"),
              dget_dset, if_pos rfl]
          rw [dset_id out1 "due_date_safe_dt" (.dt dd) f1]
          rw [dset_id out1 "due_date_safe_iso" (.str (fmtISO dd)) f2]
          have f3 : dget out1 "due_date_safe"
              = some (match dget out1 "due_date" with
                      | some v => v
                      | Option.none => .str "(No due-date)") := by
            rw [hs3, ← h, dget_dset, if_pos rfl, dget_dset,
              if_neg (by decide : ("due_date_safe_iso" : String) ≠ "due_date"),
              dget_dset,
              if_neg (by decide : ("due_date_safe_dt" : String) ≠ "due_date"), hdd]
          rw [dset_id out1 "due_date_safe" _ f3]
      | none => simp at h
      | bool b => simp at h
      | int n => simp at h
      | str s => simp at h
      | due d => simp at h
      | list l => simp at h

theorem dateKeyStep_overwrite_id (env : DateEnv) (input_dict : Rec)
    (safe_date : PyDateTime) (key : String) (x y out1 : Rec)
    (h : dateKeyStep env input_dict safe_date x key = some y)
    (h1 : dget out1 (key ++ "_dt") = dget y (key ++ "_dt"))
    (h2 : dget out1 (key ++ "_iso") = dget y (key ++ "_iso"))
    (h3 : dget out1 (key ++ "_safe_dt") = dget y (key ++ "_safe_dt"))
    (h4 : dget out1 (key ++ "_safe_iso") = dget y (key ++ "_safe_iso")) :
    dateKeyStep env input_dict safe_date out1 key = some out1 := by
  have ne41 : key ++ "_safe_iso" ≠ key ++ "_dt" :=
    strAppend_right_ne key _ _ (by decide)
  have ne42 : key ++ "_safe_iso" ≠ key ++ "_iso" :=
    strAppend_right_ne key _ _ (by decide)
  have ne43 : key ++ "_safe_iso" ≠ key ++ "_safe_dt" :=
    strAppend_right_ne key _ _ (by decide)
  have ne31 : key ++ "_safe_dt" ≠ key ++ "_dt" :=
    strAppend_right_ne key _ _ (by decide)
  have ne32 : key ++ "_safe_dt" ≠ key ++ "_iso" :=
    strAppend_right_ne key _ _ (by decide)
  have ne21 : key ++ "_iso" ≠ key ++ "_dt" :=
    strAppend_right_ne key _ _ (by decide)
  unfold dateKeyStep at h ⊢
  by_cases ht : pyTruthy (dgetD input_dict key PyVal.none) = true
  · rw [if_pos ht] at h ⊢
    cases hv : dgetD input_dict key PyVal.none with
    | str s =>
        try rw [hv] at h
        try rw [hv]
        try dsimp only at h
        try dsimp only
        try simp only [Option.bind_eq_bind] at h
        try simp only [Option.bind_eq_bind]
        rw [Option.bind_eq_some] at h
        obtain ⟨dtp, hdtp, h⟩ := h
        try dsimp only at h
        simp only [Option.pure_def, Option.some_inj] at h
        rw [hdtp]
        simp only [Option.some_bind]
        have f1 : dget out1 (key ++ "_dt")
            = some (.dt (pyAstimezoneLocal env dtp)) := by
          rw [h1, ← h, dget_dset, if_neg ne41, dget_dset, if_neg ne31,
            dget_dset, if_neg ne21, dget_dset, if_pos rfl]
        have f2 : dget out1 (key ++ "_iso")
            = some (.str (fmtISO (pyAstimezoneLocal env dtp))) := by
          rw [h2, ← h, dget_dset, if_neg ne42, dget_dset, if_neg ne32,
            dget_dset, if_pos rfl]
        have f3 : dget out1 (key ++ "_safe_dt")
            = some (.dt (pyAstimezoneLocal env dtp)) := by
          rw [h3, ← h, dget_dset, if_neg ne43, dget_dset, if_pos rfl]
        have f4 : dget out1 (key ++ "_safe_iso")
            = some (.str (fmtISO (pyAstimezoneLocal env dtp))) := by
          rw [h4, ← h, dget_dset, if_pos rfl]
        rw [dset_id out1 _ _ f1, dset_id out1 _ _ f2, dset_id out1 _ _ f3,
          dset_id out1 _ _ f4]
        rfl
    | none => rw [hv] at h; exact Option.noConfusion h
    | bool b => rw [hv] at h; exact Option.noConfusion h
    | int n => rw [hv] at h; exact Option.noConfusion h
    | dt d => rw [hv] at h; exact Option.noConfusion h
    | due d => rw [hv] at h; exact Option.noConfusion h
    | list l => rw [hv] at h; exact Option.noConfusion h
  · rw [if_neg ht] at h ⊢
    dsimp only at h ⊢
    simp only [Option.pure_def, Option.some_inj] at h ⊢
    have f3 : dget out1 (key ++ "_safe_dt")
        = some (.dt (pyAstimezoneLocal env safe_date)) := by
      rw [h3, ← h, dget_dset, if_neg ne43, dget_dset, if_pos rfl]
    have f4 : dget out1 (key ++ "_safe_iso")
        = some (.str (fmtISO (pyAstimezoneLocal env safe_date))) := by
      rw [h4, ← h, dget_dset, if_pos rfl]
    rw [dset_id out1 _ _ f3, dset_id out1 _ _ f4]

theorem resolveDueDt_aware (env : DateEnv)
    (haware : ∀ d, (env.toLocalZone d).tzAware = true)
    (allday_time : Option (Nat × Nat × Nat)) (ia : Bool)
    (tz : Option String) (d0 : PyDateTime) :
    (resolveDueDt env allday_time ia tz d0).tzAware = true := by
  unfold resolveDueDt
  dsimp only
  by_cases hb : (alldayAdjust env allday_time ia d0).tzAware = true
  · rw [if_neg (by rw [hb]; intro hc; cases hc)]
    exact hb
  · have hf : (alldayAdjust env allday_time ia d0).tzAware = false := by
      cases hx : (alldayAdjust env allday_time ia d0).tzAware
      · rfl
      · exact absurd hx hb
    rw [if_pos (by rw [hf]; rfl)]
    exact pyAstimezoneLocal_aware env haware _

theorem repair_id_of_aware (env : DateEnv) (x y : Rec)
    (hr : repairDueDateTz env x = some y) (dd : PyDateTime)
    (hx : dget x "due_date_dt" = some (.dt dd)) (ha : dd.tzAware = true) :
    y = x := by
  unfold repairDueDateTz at hr
  have hg : dgetD x "due_date_dt" PyVal.none = .dt dd := by
    unfold dgetD
    rw [hx]
    rfl
  rw [hg] at hr
  rw [if_pos (show pyTruthy (PyVal.dt dd) = true from rfl)] at hr
  dsimp only at hr
  rw [if_neg (by rw [ha]; intro hc; cases hc)] at hr
  simp only [Option.pure_def, Option.some_inj] at hr
  exact hr.symm

/-- Re-running `add_task_date_fields` on its own output (with the same
input dict) rewrites every field with the identical value, leaving the
dict unchanged. -/
theorem add_task_date_fields_overwrite_id (env : DateEnv)
    (input_dict od out1 : Rec)
    (haware : ∀ d, (env.toLocalZone d).tzAware = true)
    (h : add_task_date_fields env input_dict od = some out1) :
    add_task_date_fields env input_dict out1 = some out1 := by
  unfold add_task_date_fields at h ⊢
  simp only [Option.bind_eq_bind] at h ⊢
  rw [Option.bind_eq_some] at h
  obtain ⟨p1, hp, h⟩ := h
  try dsimp only at h
  rw [Option.bind_eq_some] at h
  obtain ⟨r1, hr, h⟩ := h
  try dsimp only at h
  rw [Option.bind_eq_some] at h
  obtain ⟨s1, hs, h⟩ := h
  try dsimp only at h
  rw [Option.bind_eq_some] at h
  obtain ⟨f1, hf, h⟩ := h
  try dsimp only at h
  rw [Option.bind_eq_some] at h
  obtain ⟨pn, hpn, h⟩ := h
  try dsimp only at h
  simp only [Option.pure_def, Option.some_inj] at h
  simp only [List.foldlM_cons, List.foldlM_nil, Option.bind_eq_bind] at hf
  rw [Option.bind_eq_some] at hf
  obtain ⟨fa, hka, hf⟩ := hf
  try dsimp only at hf
  rw [Option.bind_eq_some] at hf
  obtain ⟨fb, hkb, hf⟩ := hf
  try dsimp only at hf
  rw [Option.bind_eq_some] at hf
  obtain ⟨fc, hkc, hf⟩ := hf
  try dsimp only at hf
  simp only [Option.pure_def, Option.some_inj] at hf
  subst hf
  have fDDT : dget out1 "due_date_dt" = dget r1 "due_date_dt" := by
    rw [← h, dget_dset, if_neg (by decide : ("priority_str" : String) ≠ "due_date_dt"), dget_dset, if_neg (by decide : ("checked_str" : String) ≠ "due_date_dt"),
        dateKeyStep_dget_other env input_dict NO_DUEDATE_DATETIME fb "completed_date" fc "due_date_dt" hkc (by decide) (by decide) (by decide) (by decide),
        dateKeyStep_dget_other env input_dict NO_DUEDATE_DATETIME fa "date_completed" fb "due_date_dt" hkb (by decide) (by decide) (by decide) (by decide),
        dateKeyStep_dget_other env input_dict NO_DUEDATE_DATETIME s1 "date_added" fa "due_date_dt" hka (by decide) (by decide) (by decide) (by decide),
        addSafeFields_dget_other NO_DUEDATE_DATETIME r1 s1 "due_date_dt" hs (by decide) (by decide) (by decide)]
  have fDD : dget out1 "due_date" = dget r1 "due_date" := by
    rw [← h, dget_dset, if_neg (by decide : ("priority_str" : String) ≠ "due_date"), dget_dset, if_neg (by decide : ("checked_str" : String) ≠ "due_date"),
        dateKeyStep_dget_other env input_dict NO_DUEDATE_DATETIME fb "completed_date" fc "due_date" hkc (by decide) (by decide) (by decide) (by decide),
        dateKeyStep_dget_other env input_dict NO_DUEDATE_DATETIME fa "date_completed" fb "due_date" hkb (by decide) (by decide) (by decide) (by decide),
        dateKeyStep_dget_other env input_dict NO_DUEDATE_DATETIME s1 "date_added" fa "due_date" hka (by decide) (by decide) (by decide) (by decide),
        addSafeFields_dget_other NO_DUEDATE_DATETIME r1 s1 "due_date" hs (by decide) (by decide) (by decide)]
  have fS1 : dget out1 "due_date_safe_dt" = dget s1 "due_date_safe_dt" := by
    rw [← h, dget_dset, if_neg (by decide : ("priority_str" : String) ≠ "due_date_safe_dt"), dget_dset, if_neg (by decide : ("checked_str" : String) ≠ "due_date_safe_dt"),
        dateKeyStep_dget_other env input_dict NO_DUEDATE_DATETIME fb "completed_date" fc "due_date_safe_dt" hkc (by decide) (by decide) (by decide) (by decide),
        dateKeyStep_dget_other env input_dict NO_DUEDATE_DATETIME fa "date_completed" fb "due_date_safe_dt" hkb (by decide) (by decide) (by decide) (by decide),
        dateKeyStep_dget_other env input_dict NO_DUEDATE_DATETIME s1 "date_added" fa "due_date_safe_dt" hka (by decide) (by decide) (by decide) (by decide)]
  have fS2 : dget out1 "due_date_safe_iso" = dget s1 "due_date_safe_iso" := by
    rw [← h, dget_dset, if_neg (by decide : ("priority_str" : String) ≠ "due_date_safe_iso"), dget_dset, if_neg (by decide : ("checked_str" : String) ≠ "due_date_safe_iso"),
        dateKeyStep_dget_other env input_dict NO_DUEDATE_DATETIME fb "completed_date" fc "due_date_safe_iso" hkc (by decide) (by decide) (by decide) (by decide),
        dateKeyStep_dget_other env input_dict NO_DUEDATE_DATETIME fa "date_completed" fb "due_date_safe_iso" hkb (by decide) (by decide) (by decide) (by decide),
        dateKeyStep_dget_other env input_dict NO_DUEDATE_DATETIME s1 "date_added" fa "due_date_safe_iso" hka (by decide) (by decide) (by decide) (by decide)]
  have fS3 : dget out1 "due_date_safe" = dget s1 "due_date_safe" := by
    rw [← h, dget_dset, if_neg (by decide : ("priority_str" : String) ≠ "due_date_safe"), dget_dset, if_neg (by decide : ("checked_str" : String) ≠ "due_date_safe"),
        dateKeyStep_dget_other env input_dict NO_DUEDATE_DATETIME fb "completed_date" fc "due_date_safe" hkc (by decide) (by decide) (by decide) (by decide),
        dateKeyStep_dget_other env input_dict NO_DUEDATE_DATETIME fa "date_completed" fb "due_date_safe" hkb (by decide) (by decide) (by decide) (by decide),
        dateKeyStep_dget_other env input_dict NO_DUEDATE_DATETIME s1 "date_added" fa "due_date_safe" hka (by decide) (by decide) (by decide) (by decide)]
  have hrepair2 : repairDueDateTz env out1 = some out1 :=
    repairDueDateTz_post_id env p1 r1 out1 hr fDDT
  have hsafe2 : addSafeFields NO_DUEDATE_DATETIME out1 = some out1 :=
    addSafeFields_overwrite_id NO_DUEDATE_DATETIME r1 s1 out1 hs fDDT fDD fS1 fS2 fS3
  have hstep2a : dateKeyStep env input_dict NO_DUEDATE_DATETIME out1 "date_added"
      = some out1 := by
    refine dateKeyStep_overwrite_id env input_dict NO_DUEDATE_DATETIME "date_added"
      s1 fa out1 hka ?_ ?_ ?_ ?_
    · rw [← h, dget_dset, if_neg (by decide : ("priority_str" : String) ≠ ("date_added" ++ "_dt")), dget_dset, if_neg (by decide : ("checked_str" : String) ≠ ("date_added" ++ "_dt")),
          dateKeyStep_dget_other env input_dict NO_DUEDATE_DATETIME fb "completed_date" fc ("date_added" ++ "_dt") hkc (by decide) (by decide) (by decide) (by decide),
          dateKeyStep_dget_other env input_dict NO_DUEDATE_DATETIME fa "date_completed" fb ("date_added" ++ "_dt") hkb (by decide) (by decide) (by decide) (by decide)]
    · rw [← h, dget_dset, if_neg (by decide : ("priority_str" : String) ≠ ("date_added" ++ "_iso")), dget_dset, if_neg (by decide : ("checked_str" : String) ≠ ("date_added" ++ "_iso")),
          dateKeyStep_dget_other env input_dict NO_DUEDATE_DATETIME fb "completed_date" fc ("date_added" ++ "_iso") hkc (by decide) (by decide) (by decide) (by decide),
          dateKeyStep_dget_other env input_dict NO_DUEDATE_DATETIME fa "date_completed" fb ("date_added" ++ "_iso") hkb (by decide) (by decide) (by decide) (by decide)]
    · rw [← h, dget_dset, if_neg (by decide : ("priority_str" : String) ≠ ("date_added" ++ "_safe_dt")), dget_dset, if_neg (by decide : ("checked_str" : String) ≠ ("date_added" ++ "_safe_dt")),
          dateKeyStep_dget_other env input_dict NO_DUEDATE_DATETIME fb "completed_date" fc ("date_added" ++ "_safe_dt") hkc (by decide) (by decide) (by decide) (by decide),
          dateKeyStep_dget_other env input_dict NO_DUEDATE_DATETIME fa "date_completed" fb ("date_added" ++ "_safe_dt") hkb (by decide) (by decide) (by decide) (by decide)]
    · rw [← h, dget_dset, if_neg (by decide : ("priority_str" : String) ≠ ("date_added" ++ "_safe_iso")), dget_dset, if_neg (by decide : ("checked_str" : String) ≠ ("date_added" ++ "_safe_iso")),
          dateKeyStep_dget_other env input_dict NO_DUEDATE_DATETIME fb "completed_date" fc ("date_added" ++ "_safe_iso") hkc (by decide) (by decide) (by decide) (by decide),
          dateKeyStep_dget_other env input_dict NO_DUEDATE_DATETIME fa "date_completed" fb ("date_added" ++ "_safe_iso") hkb (by decide) (by decide) (by decide) (by decide)]
  have hstep2b : dateKeyStep env input_dict NO_DUEDATE_DATETIME out1 "date_completed"
      = some out1 := by
    refine dateKeyStep_overwrite_id env input_dict NO_DUEDATE_DATETIME "date_completed"
      fa fb out1 hkb ?_ ?_ ?_ ?_
    · rw [← h, dget_dset, if_neg (by decide : ("priority_str" : String) ≠ ("date_completed" ++ "_dt")), dget_dset, if_neg (by decide : ("checked_str" : String) ≠ ("date_completed" ++ "_dt")),
          dateKeyStep_dget_other env input_dict NO_DUEDATE_DATETIME fb "completed_date" fc ("date_completed" ++ "_dt") hkc (by decide) (by decide) (by decide) (by decide)]
    · rw [← h, dget_dset, if_neg (by decide : ("priority_str" : String) ≠ ("date_completed" ++ "_iso")), dget_dset, if_neg (by decide : ("checked_str" : String) ≠ ("date_completed" ++ "_iso")),
          dateKeyStep_dget_other env input_dict NO_DUEDATE_DATETIME fb "completed_date" fc ("date_completed" ++ "_iso") hkc (by decide) (by decide) (by decide) (by decide)]
    · rw [← h, dget_dset, if_neg (by decide : ("priority_str" : String) ≠ ("date_completed" ++ "_safe_dt")), dget_dset, if_neg (by decide : ("checked_str" : String) ≠ ("date_completed" ++ "_safe_dt")),
          dateKeyStep_dget_other env input_dict NO_DUEDATE_DATETIME fb "completed_date" fc ("date_completed" ++ "_safe_dt") hkc (by decide) (by decide) (by decide) (by decide)]
    · rw [← h, dget_dset, if_neg (by decide : ("priority_str" : String) ≠ ("date_completed" ++ "_safe_iso")), dget_dset, if_neg (by decide : ("checked_str" : String) ≠ ("date_completed" ++ "_safe_iso")),
          dateKeyStep_dget_other env input_dict NO_DUEDATE_DATETIME fb "completed_date" fc ("date_completed" ++ "_safe_iso") hkc (by decide) (by decide) (by decide) (by decide)]
  have hstep2c : dateKeyStep env input_dict NO_DUEDATE_DATETIME out1 "completed_date"
      = some out1 := by
    refine dateKeyStep_overwrite_id env input_dict NO_DUEDATE_DATETIME "completed_date"
      fb fc out1 hkc ?_ ?_ ?_ ?_
    · rw [← h, dget_dset, if_neg (by decide : ("priority_str" : String) ≠ ("completed_date" ++ "_dt")), dget_dset, if_neg (by decide : ("checked_str" : String) ≠ ("completed_date" ++ "_dt"))]
    · rw [← h, dget_dset, if_neg (by decide : ("priority_str" : String) ≠ ("completed_date" ++ "_iso")), dget_dset, if_neg (by decide : ("checked_str" : String) ≠ ("completed_date" ++ "_iso"))]
    · rw [← h, dget_dset, if_neg (by decide : ("priority_str" : String) ≠ ("completed_date" ++ "_safe_dt")), dget_dset, if_neg (by decide : ("checked_str" : String) ≠ ("completed_date" ++ "_safe_dt"))]
    · rw [← h, dget_dset, if_neg (by decide : ("priority_str" : String) ≠ ("completed_date" ++ "_safe_iso")), dget_dset, if_neg (by decide : ("checked_str" : String) ≠ ("completed_date" ++ "_safe_iso"))]
  have hstage1 : parseDueStage env input_dict (some END_OF_DAY_TIME) out1
      = some out1 := by
    unfold parseDueStage at hp
    by_cases hdueT : pyTruthy (dgetD input_dict "due" PyVal.none) = true
    · cases hdueV : dgetD input_dict "due" PyVal.none with
      | due d =>
          try rw [hdueV] at hdueT
          try rw [hdueV] at hp
          rw [if_pos hdueT] at hp
          try dsimp only at hp
          simp only [Option.bind_eq_bind] at hp
          rw [Option.bind_eq_some] at hp
          obtain ⟨dtp, hparse, hp⟩ := hp
          try dsimp only at hp
          simp only [Option.pure_def, Option.some_inj] at hp
          have hr1p1 : r1 = p1 :=
            repair_id_of_aware env p1 r1 hr _
              (by rw [← hp, dget_dset,
                    if_neg (by decide : ("due_date_pretty_safe" : String) ≠ "due_date_dt"),
                    dget_dset, if_pos rfl])
              (resolveDueDt_aware env haware _ _ _ _)
          unfold parseDueStage
          rw [hdueV]
          rw [if_pos hdueT]
          dsimp only
          rw [hparse]
          simp only [Option.bind_eq_bind, Option.some_bind]
          rw [dset_id out1 "due_date" _ (by
              rw [← h, dget_dset, if_neg (by decide : ("priority_str" : String) ≠ "due_date"), dget_dset, if_neg (by decide : ("checked_str" : String) ≠ "due_date"),
                  dateKeyStep_dget_other env input_dict NO_DUEDATE_DATETIME fb "completed_date" fc "due_date" hkc (by decide) (by decide) (by decide) (by decide),
                  dateKeyStep_dget_other env input_dict NO_DUEDATE_DATETIME fa "date_completed" fb "due_date" hkb (by decide) (by decide) (by decide) (by decide),
                  dateKeyStep_dget_other env input_dict NO_DUEDATE_DATETIME s1 "date_added" fa "due_date" hka (by decide) (by decide) (by decide) (by decide),
                  addSafeFields_dget_other NO_DUEDATE_DATETIME r1 s1 "due_date" hs (by decide) (by decide) (by decide),
                  hr1p1]
              rw [← hp, dget_dset, if_neg (by decide : ("due_date_pretty_safe" : String) ≠ "due_date"),
                  dget_dset, if_neg (by decide : ("due_date_dt" : String) ≠ "due_date"),
                  dget_dset, if_neg (by decide : ("is_allday" : String) ≠ "due_date"),
                  dget_dset, if_neg (by decide : ("is_recurring" : String) ≠ "due_date"),
                  dget_dset, if_neg (by decide : ("due_is_recurring" : String) ≠ "due_date"),
                  dget_dset, if_neg (by decide : ("date_string" : String) ≠ "due_date"),
                  dget_dset, if_neg (by decide : ("due_string_safe" : String) ≠ "due_date"),
                  dget_dset, if_neg (by decide : ("due_string" : String) ≠ "due_date"),
                  dget_dset, if_pos rfl])]
          rw [dset_id out1 "due_string" _ (by
              rw [← h, dget_dset, if_neg (by decide : ("priority_str" : String) ≠ "due_string"), dget_dset, if_neg (by decide : ("checked_str" : String) ≠ "due_string"),
                  dateKeyStep_dget_other env input_dict NO_DUEDATE_DATETIME fb "completed_date" fc "due_string" hkc (by decide) (by decide) (by decide) (by decide),
                  dateKeyStep_dget_other env input_dict NO_DUEDATE_DATETIME fa "date_completed" fb "due_string" hkb (by decide) (by decide) (by decide) (by decide),
                  dateKeyStep_dget_other env input_dict NO_DUEDATE_DATETIME s1 "date_added" fa "due_string" hka (by decide) (by decide) (by decide) (by decide),
                  addSafeFields_dget_other NO_DUEDATE_DATETIME r1 s1 "due_string" hs (by decide) (by decide) (by decide),
                  hr1p1]
              rw [← hp, dget_dset, if_neg (by decide : ("due_date_pretty_safe" : String) ≠ "due_string"),
                  dget_dset, if_neg (by decide : ("due_date_dt" : String) ≠ "due_string"),
                  dget_dset, if_neg (by decide : ("is_allday" : String) ≠ "due_string"),
                  dget_dset, if_neg (by decide : ("is_recurring" : String) ≠ "due_string"),
                  dget_dset, if_neg (by decide : ("due_is_recurring" : String) ≠ "due_string"),
                  dget_dset, if_neg (by decide : ("date_string" : String) ≠ "due_string"),
                  dget_dset, if_neg (by decide : ("due_string_safe" : String) ≠ "due_string"),
                  dget_dset, if_pos rfl])]
          rw [dset_id out1 "due_string_safe" _ (by
              rw [← h, dget_dset, if_neg (by decide : ("priority_str" : String) ≠ "due_string_safe"), dget_dset, if_neg (by decide : ("checked_str" : String) ≠ "due_string_safe"),
                  dateKeyStep_dget_other env input_dict NO_DUEDATE_DATETIME fb "completed_date" fc "due_string_safe" hkc (by decide) (by decide) (by decide) (by decide),
                  dateKeyStep_dget_other env input_dict NO_DUEDATE_DATETIME fa "date_completed" fb "due_string_safe" hkb (by decide) (by decide) (by decide) (by decide),
                  dateKeyStep_dget_other env input_dict NO_DUEDATE_DATETIME s1 "date_added" fa "due_string_safe" hka (by decide) (by decide) (by decide) (by decide),
                  addSafeFields_dget_other NO_DUEDATE_DATETIME r1 s1 "due_string_safe" hs (by decide) (by decide) (by decide),
                  hr1p1]
              rw [← hp, dget_dset, if_neg (by decide : ("due_date_pretty_safe" : String) ≠ "due_string_safe"),
                  dget_dset, if_neg (by decide : ("due_date_dt" : String) ≠ "due_string_safe"),
                  dget_dset, if_neg (by decide : ("is_allday" : String) ≠ "due_string_safe"),
                  dget_dset, if_neg (by decide : ("is_recurring" : String) ≠ "due_string_safe"),
                  dget_dset, if_neg (by decide : ("due_is_recurring" : String) ≠ "due_string_safe"),
                  dget_dset, if_neg (by decide : ("date_string" : String) ≠ "due_string_safe"),
                  dget_dset, if_pos rfl])]
          rw [dset_id out1 "date_string" _ (by
              rw [← h, dget_dset, if_neg (by decide : ("priority_str" : String) ≠ "date_string"), dget_dset, if_neg (by decide : ("checked_str" : String) ≠ "date_string"),
                  dateKeyStep_dget_other env input_dict NO_DUEDATE_DATETIME fb "completed_date" fc "date_string" hkc (by decide) (by decide) (by decide) (by decide),
                  dateKeyStep_dget_other env input_dict NO_DUEDATE_DATETIME fa "date_completed" fb "date_string" hkb (by decide) (by decide) (by decide) (by decide),
                  dateKeyStep_dget_other env input_dict NO_DUEDATE_DATETIME s1 "date_added" fa "date_string" hka (by decide) (by decide) (by decide) (by decide),
                  addSafeFields_dget_other NO_DUEDATE_DATETIME r1 s1 "date_string" hs (by decide) (by decide) (by decide),
                  hr1p1]
              rw [← hp, dget_dset, if_neg (by decide : ("due_date_pretty_safe" : String) ≠ "date_string"),
                  dget_dset, if_neg (by decide : ("due_date_dt" : String) ≠ "date_string"),
                  dget_dset, if_neg (by decide : ("is_allday" : String) ≠ "date_string"),
                  dget_dset, if_neg (by decide : ("is_recurring" : String) ≠ "date_string"),
                  dget_dset, if_neg (by decide : ("due_is_recurring" : String) ≠ "date_string"),
                  dget_dset, if_pos rfl])]
          rw [dset_id out1 "due_is_recurring" _ (by
              rw [← h, dget_dset, if_neg (by decide : ("priority_str" : String) ≠ "due_is_recurring"), dget_dset, if_neg (by decide : ("checked_str" : String) ≠ "due_is_recurring"),
                  dateKeyStep_dget_other env input_dict NO_DUEDATE_DATETIME fb "completed_date" fc "due_is_recurring" hkc (by decide) (by decide) (by decide) (by decide),
                  dateKeyStep_dget_other env input_dict NO_DUEDATE_DATETIME fa "date_completed" fb "due_is_recurring" hkb (by decide) (by decide) (by decide) (by decide),
                  dateKeyStep_dget_other env input_dict NO_DUEDATE_DATETIME s1 "date_added" fa "due_is_recurring" hka (by decide) (by decide) (by decide) (by decide),
                  addSafeFields_dget_other NO_DUEDATE_DATETIME r1 s1 "due_is_recurring" hs (by decide) (by decide) (by decide),
                  hr1p1]
              rw [← hp, dget_dset, if_neg (by decide : ("due_date_pretty_safe" : String) ≠ "due_is_recurring"),
                  dget_dset, if_neg (by decide : ("due_date_dt" : String) ≠ "due_is_recurring"),
                  dget_dset, if_neg (by decide : ("is_allday" : String) ≠ "due_is_recurring"),
                  dget_dset, if_neg (by decide : ("is_recurring" : String) ≠ "due_is_recurring"),
                  dget_dset, if_pos rfl])]
          rw [dset_id out1 "is_recurring" _ (by
              rw [← h, dget_dset, if_neg (by decide : ("priority_str" : String) ≠ "is_recurring"), dget_dset, if_neg (by decide : ("checked_str" : String) ≠ "is_recurring"),
                  dateKeyStep_dget_other env input_dict NO_DUEDATE_DATETIME fb "completed_date" fc "is_recurring" hkc (by decide) (by decide) (by decide) (by decide),
                  dateKeyStep_dget_other env input_dict NO_DUEDATE_DATETIME fa "date_completed" fb "is_recurring" hkb (by decide) (by decide) (by decide) (by decide),
                  dateKeyStep_dget_other env input_dict NO_DUEDATE_DATETIME s1 "date_added" fa "is_recurring" hka (by decide) (by decide) (by decide) (by decide),
                  addSafeFields_dget_other NO_DUEDATE_DATETIME r1 s1 "is_recurring" hs (by decide) (by decide) (by decide),
                  hr1p1]
              rw [← hp, dget_dset, if_neg (by decide : ("due_date_pretty_safe" : String) ≠ "is_recurring"),
                  dget_dset, if_neg (by decide : ("due_date_dt" : String) ≠ "is_recurring"),
                  dget_dset, if_neg (by decide : ("is_allday" : String) ≠ "is_recurring"),
                  dget_dset, if_pos rfl])]
          rw [dset_id out1 "is_allday" _ (by
              rw [← h, dget_dset, if_neg (by decide : ("priority_str" : String) ≠ "is_allday"), dget_dset, if_neg (by decide : ("checked_str" : String) ≠ "is_allday"),
                  dateKeyStep_dget_other env input_dict NO_DUEDATE_DATETIME fb "completed_date" fc "is_allday" hkc (by decide) (by decide) (by decide) (by decide),
                  dateKeyStep_dget_other env input_dict NO_DUEDATE_DATETIME fa "date_completed" fb "is_allday" hkb (by decide) (by decide) (by decide) (by decide),
                  dateKeyStep_dget_other env input_dict NO_DUEDATE_DATETIME s1 "date_added" fa "is_allday" hka (by decide) (by decide) (by decide) (by decide),
                  addSafeFields_dget_other NO_DUEDATE_DATETIME r1 s1 "is_allday" hs (by decide) (by decide) (by decide),
                  hr1p1]
              rw [← hp, dget_dset, if_neg (by decide : ("due_date_pretty_safe" : String) ≠ "is_allday"),
                  dget_dset, if_neg (by decide : ("due_date_dt" : String) ≠ "is_allday"),
                  dget_dset, if_pos rfl])]
          rw [dset_id out1 "due_date_dt" _ (by
              rw [← h, dget_dset, if_neg (by decide : ("priority_str" : String) ≠ "due_date_dt"), dget_dset, if_neg (by decide : ("checked_str" : String) ≠ "due_date_dt"),
                  dateKeyStep_dget_other env input_dict NO_DUEDATE_DATETIME fb "completed_date" fc "due_date_dt" hkc (by decide) (by decide) (by decide) (by decide),
                  dateKeyStep_dget_other env input_dict NO_DUEDATE_DATETIME fa "date_completed" fb "due_date_dt" hkb (by decide) (by decide) (by decide) (by decide),
                  dateKeyStep_dget_other env input_dict NO_DUEDATE_DATETIME s1 "date_added" fa "due_date_dt" hka (by decide) (by decide) (by decide) (by decide),
                  addSafeFields_dget_other NO_DUEDATE_DATETIME r1 s1 "due_date_dt" hs (by decide) (by decide) (by decide),
                  hr1p1]
              rw [← hp, dget_dset, if_neg (by decide : ("due_date_pretty_safe" : String) ≠ "due_date_dt"),
                  dget_dset, if_pos rfl])]
          rw [dset_id out1 "due_date_pretty_safe" _ (by
              rw [← h, dget_dset, if_neg (by decide : ("priority_str" : String) ≠ "due_date_pretty_safe"), dget_dset, if_neg (by decide : ("checked_str" : String) ≠ "due_date_pretty_safe"),
                  dateKeyStep_dget_other env input_dict NO_DUEDATE_DATETIME fb "completed_date" fc "due_date_pretty_safe" hkc (by decide) (by decide) (by decide) (by decide),
                  dateKeyStep_dget_other env input_dict NO_DUEDATE_DATETIME fa "date_completed" fb "due_date_pretty_safe" hkb (by decide) (by decide) (by decide) (by decide),
                  dateKeyStep_dget_other env input_dict NO_DUEDATE_DATETIME s1 "date_added" fa "due_date_pretty_safe" hka (by decide) (by decide) (by decide) (by decide),
                  addSafeFields_dget_other NO_DUEDATE_DATETIME r1 s1 "due_date_pretty_safe" hs (by decide) (by decide) (by decide),
                  hr1p1]
              rw [← hp, dget_dset, if_pos rfl])]
          rfl
      | none =>
          try rw [hdueV] at hdueT
          try rw [hdueV] at hp
          rw [if_pos hdueT] at hp
          try dsimp only at hp
          exact Option.noConfusion hp
      | bool b =>
          try rw [hdueV] at hdueT
          try rw [hdueV] at hp
          rw [if_pos hdueT] at hp
          try dsimp only at hp
          exact Option.noConfusion hp
      | int n =>
          try rw [hdueV] at hdueT
          try rw [hdueV] at hp
          rw [if_pos hdueT] at hp
          try dsimp only at hp
          exact Option.noConfusion hp
      | str s =>
          try rw [hdueV] at hdueT
          try rw [hdueV] at hp
          rw [if_pos hdueT] at hp
          try dsimp only at hp
          exact Option.noConfusion hp
      | dt d =>
          try rw [hdueV] at hdueT
          try rw [hdueV] at hp
          rw [if_pos hdueT] at hp
          try dsimp only at hp
          exact Option.noConfusion hp
      | list l =>
          try rw [hdueV] at hdueT
          try rw [hdueV] at hp
          rw [if_pos hdueT] at hp
          try dsimp only at hp
          exact Option.noConfusion hp
    · rw [if_neg hdueT] at hp
      by_cases hutcT : pyTruthy (dgetD input_dict "due_date_utc" PyVal.none) = true
      · cases hutcV : dgetD input_dict "due_date_utc" PyVal.none with
        | str utc =>
            try rw [hutcV] at hutcT
            try rw [hutcV] at hp
            rw [if_pos hutcT] at hp
            try dsimp only at hp
            simp only [Option.bind_eq_bind] at hp
            rw [Option.bind_eq_some] at hp
            obtain ⟨ds, hds, hp⟩ := hp
            try dsimp only at hp
            rw [Option.bind_eq_some] at hp
            obtain ⟨dtp, hparse, hp⟩ := hp
            try dsimp only at hp
            simp only [Option.pure_def, Option.some_inj] at hp
            have hr1p1 : r1 = p1 :=
              repair_id_of_aware env p1 r1 hr _
                (by rw [← hp, dget_dset,
                      if_neg (by decide : ("due_date_pretty_safe" : String) ≠ "due_date_dt"),
                      dget_dset, if_pos rfl])
                (pyAstimezoneLocal_aware env haware _)
            unfold parseDueStage
            rw [if_neg hdueT]
            rw [hutcV]
            rw [if_pos hutcT]
            dsimp only
            rw [hds]
            simp only [Option.bind_eq_bind, Option.some_bind]
            rw [hparse]
            simp only [Option.some_bind]
            rw [dset_id out1 "due_date" _ (by
                rw [← h, dget_dset, if_neg (by decide : ("priority_str" : String) ≠ "due_date"), dget_dset, if_neg (by decide : ("checked_str" : String) ≠ "due_date"),
                    dateKeyStep_dget_other env input_dict NO_DUEDATE_DATETIME fb "completed_date" fc "due_date" hkc (by decide) (by decide) (by decide) (by decide),
                    dateKeyStep_dget_other env input_dict NO_DUEDATE_DATETIME fa "date_completed" fb "due_date" hkb (by decide) (by decide) (by decide) (by decide),
                    dateKeyStep_dget_other env input_dict NO_DUEDATE_DATETIME s1 "date_added" fa "due_date" hka (by decide) (by decide) (by decide) (by decide),
                    addSafeFields_dget_other NO_DUEDATE_DATETIME r1 s1 "due_date" hs (by decide) (by decide) (by decide),
                    hr1p1]
                rw [← hp, dget_dset, if_neg (by decide : ("due_date_pretty_safe" : String) ≠ "due_date"),
                    dget_dset, if_neg (by decide : ("due_date_dt" : String) ≠ "due_date"),
                    dget_dset, if_neg (by decide : ("is_allday" : String) ≠ "due_date"),
                    dget_dset, if_neg (by decide : ("due_string_safe" : String) ≠ "due_date"),
                    dget_dset, if_neg (by decide : ("due_string" : String) ≠ "due_date"),
                    dget_dset, if_pos rfl])]
            rw [dset_id out1 "due_string" _ (by
                rw [← h, dget_dset, if_neg (by decide : ("priority_str" : String) ≠ "due_string"), dget_dset, if_neg (by decide : ("checked_str" : String) ≠ "due_string"),
                    dateKeyStep_dget_other env input_dict NO_DUEDATE_DATETIME fb "completed_date" fc "due_string" hkc (by decide) (by decide) (by decide) (by decide),
                    dateKeyStep_dget_other env input_dict NO_DUEDATE_DATETIME fa "date_completed" fb "due_string" hkb (by decide) (by decide) (by decide) (by decide),
                    dateKeyStep_dget_other env input_dict NO_DUEDATE_DATETIME s1 "date_added" fa "due_string" hka (by decide) (by decide) (by decide) (by decide),
                    addSafeFields_dget_other NO_DUEDATE_DATETIME r1 s1 "due_string" hs (by decide) (by decide) (by decide),
                    hr1p1]
                rw [← hp, dget_dset, if_neg (by decide : ("due_date_pretty_safe" : String) ≠ "due_string"),
                    dget_dset, if_neg (by decide : ("due_date_dt" : String) ≠ "due_string"),
                    dget_dset, if_neg (by decide : ("is_allday" : String) ≠ "due_string"),
                    dget_dset, if_neg (by decide : ("due_string_safe" : String) ≠ "due_string"),
                    dget_dset, if_pos rfl])]
            rw [dset_id out1 "due_string_safe" _ (by
                rw [← h, dget_dset, if_neg (by decide : ("priority_str" : String) ≠ "due_string_safe"), dget_dset, if_neg (by decide : ("checked_str" : String) ≠ "due_string_safe"),
                    dateKeyStep_dget_other env input_dict NO_DUEDATE_DATETIME fb "completed_date" fc "due_string_safe" hkc (by decide) (by decide) (by decide) (by decide),
                    dateKeyStep_dget_other env input_dict NO_DUEDATE_DATETIME fa "date_completed" fb "due_string_safe" hkb (by decide) (by decide) (by decide) (by decide),
                    dateKeyStep_dget_other env input_dict NO_DUEDATE_DATETIME s1 "date_added" fa "due_string_safe" hka (by decide) (by decide) (by decide) (by decide),
                    addSafeFields_dget_other NO_DUEDATE_DATETIME r1 s1 "due_string_safe" hs (by decide) (by decide) (by decide),
                    hr1p1]
                rw [← hp, dget_dset, if_neg (by decide : ("due_date_pretty_safe" : String) ≠ "due_string_safe"),
                    dget_dset, if_neg (by decide : ("due_date_dt" : String) ≠ "due_string_safe"),
                    dget_dset, if_neg (by decide : ("is_allday" : String) ≠ "due_string_safe"),
                    dget_dset, if_pos rfl])]
            rw [dset_id out1 "is_allday" _ (by
                rw [← h, dget_dset, if_neg (by decide : ("priority_str" : String) ≠ "is_allday"), dget_dset, if_neg (by decide : ("checked_str" : String) ≠ "is_allday"),
                    dateKeyStep_dget_other env input_dict NO_DUEDATE_DATETIME fb "completed_date" fc "is_allday" hkc (by decide) (by decide) (by decide) (by decide),
                    dateKeyStep_dget_other env input_dict NO_DUEDATE_DATETIME fa "date_completed" fb "is_allday" hkb (by decide) (by decide) (by decide) (by decide),
                    dateKeyStep_dget_other env input_dict NO_DUEDATE_DATETIME s1 "date_added" fa "is_allday" hka (by decide) (by decide) (by decide) (by decide),
                    addSafeFields_dget_other NO_DUEDATE_DATETIME r1 s1 "is_allday" hs (by decide) (by decide) (by decide),
                    hr1p1]
                rw [← hp, dget_dset, if_neg (by decide : ("due_date_pretty_safe" : String) ≠ "is_allday"),
                    dget_dset, if_neg (by decide : ("due_date_dt" : String) ≠ "is_allday"),
                    dget_dset, if_pos rfl])]
            rw [dset_id out1 "due_date_dt" _ (by
                rw [← h, dget_dset, if_neg (by decide : ("priority_str" : String) ≠ "due_date_dt"), dget_dset, if_neg (by decide : ("checked_str" : String) ≠ "due_date_dt"),
                    dateKeyStep_dget_other env input_dict NO_DUEDATE_DATETIME fb "completed_date" fc "due_date_dt" hkc (by decide) (by decide) (by decide) (by decide),
                    dateKeyStep_dget_other env input_dict NO_DUEDATE_DATETIME fa "date_completed" fb "due_date_dt" hkb (by decide) (by decide) (by decide) (by decide),
                    dateKeyStep_dget_other env input_dict NO_DUEDATE_DATETIME s1 "date_added" fa "due_date_dt" hka (by decide) (by decide) (by decide) (by decide),
                    addSafeFields_dget_other NO_DUEDATE_DATETIME r1 s1 "due_date_dt" hs (by decide) (by decide) (by decide),
                    hr1p1]
                rw [← hp, dget_dset, if_neg (by decide : ("due_date_pretty_safe" : String) ≠ "due_date_dt"),
                    dget_dset, if_pos rfl])]
            rw [dset_id out1 "due_date_pretty_safe" _ (by
                rw [← h, dget_dset, if_neg (by decide : ("priority_str" : String) ≠ "due_date_pretty_safe"), dget_dset, if_neg (by decide : ("checked_str" : String) ≠ "due_date_pretty_safe"),
                    dateKeyStep_dget_other env input_dict NO_DUEDATE_DATETIME fb "completed_date" fc "due_date_pretty_safe" hkc (by decide) (by decide) (by decide) (by decide),
                    dateKeyStep_dget_other env input_dict NO_DUEDATE_DATETIME fa "date_completed" fb "due_date_pretty_safe" hkb (by decide) (by decide) (by decide) (by decide),
                    dateKeyStep_dget_other env input_dict NO_DUEDATE_DATETIME s1 "date_added" fa "due_date_pretty_safe" hka (by decide) (by decide) (by decide) (by decide),
                    addSafeFields_dget_other NO_DUEDATE_DATETIME r1 s1 "due_date_pretty_safe" hs (by decide) (by decide) (by decide),
                    hr1p1]
                rw [← hp, dget_dset, if_pos rfl])]
            rfl
        | none =>
            try rw [hutcV] at hutcT
            try rw [hutcV] at hp
            rw [if_pos hutcT] at hp
            try dsimp only at hp
            exact Option.noConfusion hp
        | bool b =>
            try rw [hutcV] at hutcT
            try rw [hutcV] at hp
            rw [if_pos hutcT] at hp
            try dsimp only at hp
            exact Option.noConfusion hp
        | int n =>
            try rw [hutcV] at hutcT
            try rw [hutcV] at hp
            rw [if_pos hutcT] at hp
            try dsimp only at hp
            exact Option.noConfusion hp
        | dt d =>
            try rw [hutcV] at hutcT
            try rw [hutcV] at hp
            rw [if_pos hutcT] at hp
            try dsimp only at hp
            exact Option.noConfusion hp
        | due d =>
            try rw [hutcV] at hutcT
            try rw [hutcV] at hp
            rw [if_pos hutcT] at hp
            try dsimp only at hp
            exact Option.noConfusion hp
        | list l =>
            try rw [hutcV] at hutcT
            try rw [hutcV] at hp
            rw [if_pos hutcT] at hp
            try dsimp only at hp
            exact Option.noConfusion hp
      · rw [if_neg hutcT] at hp
        try dsimp only at hp
        simp only [Option.pure_def, Option.some_inj] at hp
        unfold parseDueStage
        rw [if_neg hdueT]
        rw [if_neg hutcT]
        dsimp only
        rw [dset_id out1 "is_allday" _ (by
            rw [← h, dget_dset, if_neg (by decide : ("priority_str" : String) ≠ "is_allday"), dget_dset, if_neg (by decide : ("checked_str" : String) ≠ "is_allday"),
                dateKeyStep_dget_other env input_dict NO_DUEDATE_DATETIME fb "completed_date" fc "is_allday" hkc (by decide) (by decide) (by decide) (by decide),
                dateKeyStep_dget_other env input_dict NO_DUEDATE_DATETIME fa "date_completed" fb "is_allday" hkb (by decide) (by decide) (by decide) (by decide),
                dateKeyStep_dget_other env input_dict NO_DUEDATE_DATETIME s1 "date_added" fa "is_allday" hka (by decide) (by decide) (by decide) (by decide),
                addSafeFields_dget_other NO_DUEDATE_DATETIME r1 s1 "is_allday" hs (by decide) (by decide) (by decide),
                repairDueDateTz_dget_other env p1 r1 "is_allday" hr (by decide)]
            rw [← hp, dget_dset, if_neg (by decide : ("due_date_pretty_safe" : String) ≠ "is_allday"),
                dget_dset, if_neg (by decide : ("due_string_safe" : String) ≠ "is_allday"),
                dget_dset, if_pos rfl])]
        rw [dset_id out1 "due_string_safe" _ (by
            rw [← h, dget_dset, if_neg (by decide : ("priority_str" : String) ≠ "due_string_safe"), dget_dset, if_neg (by decide : ("checked_str" : String) ≠ "due_string_safe"),
                dateKeyStep_dget_other env input_dict NO_DUEDATE_DATETIME fb "completed_date" fc "due_string_safe" hkc (by decide) (by decide) (by decide) (by decide),
                dateKeyStep_dget_other env input_dict NO_DUEDATE_DATETIME fa "date_completed" fb "due_string_safe" hkb (by decide) (by decide) (by decide) (by decide),
                dateKeyStep_dget_other env input_dict NO_DUEDATE_DATETIME s1 "date_added" fa "due_string_safe" hka (by decide) (by decide) (by decide) (by decide),
                addSafeFields_dget_other NO_DUEDATE_DATETIME r1 s1 "due_string_safe" hs (by decide) (by decide) (by decide),
                repairDueDateTz_dget_other env p1 r1 "due_string_safe" hr (by decide)]
            rw [← hp, dget_dset, if_neg (by decide : ("due_date_pretty_safe" : String) ≠ "due_string_safe"),
                dget_dset, if_pos rfl])]
        rw [dset_id out1 "due_date_pretty_safe" _ (by
            rw [← h, dget_dset, if_neg (by decide : ("priority_str" : String) ≠ "due_date_pretty_safe"), dget_dset, if_neg (by decide : ("checked_str" : String) ≠ "due_date_pretty_safe"),
                dateKeyStep_dget_other env input_dict NO_DUEDATE_DATETIME fb "completed_date" fc "due_date_pretty_safe" hkc (by decide) (by decide) (by decide) (by decide),
                dateKeyStep_dget_other env input_dict NO_DUEDATE_DATETIME fa "date_completed" fb "due_date_pretty_safe" hkb (by decide) (by decide) (by decide) (by decide),
                dateKeyStep_dget_other env input_dict NO_DUEDATE_DATETIME s1 "date_added" fa "due_date_pretty_safe" hka (by decide) (by decide) (by decide) (by decide),
                addSafeFields_dget_other NO_DUEDATE_DATETIME r1 s1 "due_date_pretty_safe" hs (by decide) (by decide) (by decide),
                repairDueDateTz_dget_other env p1 r1 "due_date_pretty_safe" hr (by decide)]
            rw [← hp, dget_dset, if_pos rfl])]
        rfl
  rw [hstage1]
  simp only [Option.some_bind]
  rw [hrepair2]
  simp only [Option.some_bind]
  rw [hsafe2]
  simp only [Option.some_bind]
  simp only [List.foldlM_cons, List.foldlM_nil, Option.bind_eq_bind]
  rw [hstep2a]
  simp only [Option.some_bind]
  rw [hstep2b]
  simp only [Option.some_bind]
  rw [hstep2c]
  simp only [Option.some_bind, Option.pure_def]
  rw [hpn]
  simp only [Option.some_bind]
  rw [dset_id out1 "checked_str" _ (by
    rw [← h, dget_dset, if_neg (by decide : ("priority_str" : String) ≠ "checked_str"),
      dget_dset, if_pos rfl])]
  rw [dset_id out1 "priority_str" _ (by
    rw [← h, dget_dset, if_pos rfl])]

/-- C8 counterexample to the mechanism clause: on an already-derived item
the deriver's `get_input_output_dicts` hands back the existing
`_custom_data` dict to be patched in place — not a fresh sub-mapping
copied from the primary data, as the fresh-mapping model
`get_input_output_dicts_fresh` prescribes. -/
theorem get_input_output_dicts_not_fresh :
    (get_input_output_dicts
        ⟨[("a", PyVal.int 1)], some [("b", PyVal.int 2)]⟩).2.1 ≠
      (get_input_output_dicts_fresh
        ⟨[("a", PyVal.int 1)], some [("b", PyVal.int 2)]⟩).2.1 := by
  decide

/-- C8 (amended): the deriver is idempotent — re-deriving an
already-derived item yields exactly the same item — but not because each
call derives into a fresh sub-mapping (it patches the existing
`_custom_data`); idempotence holds because every derived field is
rewritten with the identical value computed from the unchanged primary
fields.  The hypothesis states that converting a datetime to the local
zone always yields a timezone-aware datetime, as `astimezone` does. -/
theorem derive_item_date_fields_idem (env : DateEnv) (t t1 : ItemState)
    (haware : ∀ d, (env.toLocalZone d).tzAware = true)
    (h : derive_item_date_fields env t = some t1) :
    derive_item_date_fields env t1 = some t1 := by
  obtain ⟨data, cd⟩ := t
  unfold derive_item_date_fields at h
  cases cd with
  | some d0 =>
      unfold get_input_output_dicts at h
      dsimp only at h
      simp only [Option.bind_eq_bind] at h
      rw [Option.bind_eq_some] at h
      obtain ⟨out1, hA, h⟩ := h
      simp only [Option.pure_def, Option.some_inj] at h
      subst h
      unfold derive_item_date_fields get_input_output_dicts
      dsimp only
      simp only [Option.bind_eq_bind]
      rw [add_task_date_fields_overwrite_id env data d0 out1 haware hA]
      simp only [Option.some_bind, Option.pure_def]
  | none =>
      unfold get_input_output_dicts at h
      dsimp only at h
      simp only [Option.bind_eq_bind] at h
      rw [Option.bind_eq_some] at h
      obtain ⟨out1, hA, h⟩ := h
      simp only [Option.pure_def, Option.some_inj] at h
      subst h
      unfold derive_item_date_fields get_input_output_dicts
      dsimp only
      simp only [Option.bind_eq_bind]
      rw [add_task_date_fields_overwrite_id env data data out1 haware hA]
      simp only [Option.some_bind, Option.pure_def]

/-- Witness for the amended C8 theorem: re-deriving the derived empty
item under `demoEnv` returns it unchanged. -/
theorem derive_item_date_fields_idem_w :
    derive_item_date_fields demoEnv ⟨[], some demoDerived⟩
      = some ⟨[], some demoDerived⟩ :=
  derive_item_date_fields_idem demoEnv ⟨[], Option.none⟩ ⟨[], some demoDerived⟩
    (fun _ => rfl) (by decide)

/-! ## Lemmas for the due-filter completed-task pre-filter -/

theorem filter_tasks_loop_mem (op : PyVal → PyVal → Option Bool)
    (taskkey : String) (missing : MissingPolicy) (dflt : PyVal) (negate : Bool) :
    ∀ (tasks : List Rec) (v : PyVal) (out : List Rec),
    filter_tasks_loop op taskkey missing dflt negate tasks v = some out →
    ∀ t ∈ out, t ∈ tasks
  | [], v, out, h => by
      unfold filter_tasks_loop at h
      cases h
      intro t ht
      cases ht
  | t0 :: ts, v, out, h => by
      unfold filter_tasks_loop at h
      simp only [Option.bind_eq_bind] at h
      rw [Option.bind_eq_some] at h
      obtain ⟨⟨keep, v2⟩, he, h⟩ := h
      try dsimp only at h
      rw [Option.bind_eq_some] at h
      obtain ⟨rest, hrest, h⟩ := h
      try dsimp only at h
      simp only [Option.pure_def, Option.some_inj] at h
      subst h
      intro t ht
      by_cases hk : keep = true
      · rw [if_pos hk] at ht
        rcases List.mem_cons.1 ht with rfl | ht
        · exact List.mem_cons_self _ _
        · exact List.mem_cons_of_mem t0
            (filter_tasks_loop_mem op taskkey missing dflt negate ts v2 rest hrest t ht)
      · rw [if_neg hk] at ht
        exact List.mem_cons_of_mem t0
          (filter_tasks_loop_mem op taskkey missing dflt negate ts v2 rest hrest t ht)

theorem filter_tasks_named_mem (taskkey op_name : String) (value : PyVal)
    (missing : String) (dflt negate : PyVal) (tasks out : List Rec)
    (h : filter_tasks_named taskkey op_name value missing dflt negate tasks
      = some out) :
    ∀ t ∈ out, t ∈ tasks := by
  unfold filter_tasks_named at h
  simp only [Option.bind_eq_bind] at h
  split at h
  · split at h
    · simp only [Option.pure_def, Option.some_bind] at h
      rw [Option.bind_eq_some] at h
      obtain ⟨op, hop, h⟩ := h
      try dsimp only at h
      rw [Option.bind_eq_some] at h
      obtain ⟨policy, hpol, h⟩ := h
      try dsimp only at h
      exact filter_tasks_loop_mem op taskkey policy _ _ tasks _ out h
    · simp only [Option.pure_def, Option.some_bind] at h
      rw [Option.bind_eq_some] at h
      obtain ⟨op, hop, h⟩ := h
      try dsimp only at h
      rw [Option.bind_eq_some] at h
      obtain ⟨policy, hpol, h⟩ := h
      try dsimp only at h
      exact filter_tasks_loop_mem op taskkey policy _ _ tasks _ out h
    · simp only [Option.none_bind] at h
      cases h
  · simp only [Option.pure_def, Option.some_bind] at h
    rw [Option.bind_eq_some] at h
    obtain ⟨op, hop, h⟩ := h
    try dsimp only at h
    rw [Option.bind_eq_some] at h
    obtain ⟨policy, hpol, h⟩ := h
    try dsimp only at h
    exact filter_tasks_loop_mem op taskkey policy _ _ tasks _ out h

theorem coerce_checked_inv (tv v v2 : PyVal)
    (hv : v = PyVal.int 0 ∨ v = PyVal.bool false)
    (h : coerce_value_commands tv v = some v2) :
    v2 = PyVal.int 0 ∨ v2 = PyVal.bool false := by
  unfold coerce_value_commands at h
  cases tv with
  | none =>
      rw [if_neg (by intro hc; exact hc.1 rfl)] at h
      cases h
      exact hv
  | bool b =>
      rcases hv with rfl | rfl
      · rw [if_pos ⟨(by intro hc; cases hc), (by intro hc2; cases hc2), rfl⟩] at h
        cases h
        right
        rfl
      · rw [if_neg (by intro hc; exact hc.2.1 rfl)] at h
        cases h
        right
        rfl
  | int n =>
      rcases hv with rfl | rfl
      · rw [if_neg (by intro hc; exact hc.2.1 rfl)] at h
        cases h
        left
        rfl
      · rw [if_pos ⟨(by intro hc; cases hc), (by intro hc2; cases hc2), rfl⟩] at h
        dsimp only at h
        cases h
        left
        rfl
  | str s =>
      rw [if_neg (by intro hc; cases hc.2.2)] at h
      cases h
      exact hv
  | dt d =>
      rw [if_neg (by intro hc; cases hc.2.2)] at h
      cases h
      exact hv
  | due d =>
      rw [if_neg (by intro hc; cases hc.2.2)] at h
      cases h
      exact hv
  | list l =>
      rw [if_neg (by intro hc; cases hc.2.2)] at h
      cases h
      exact hv

theorem checked_eval_step (t0 : Rec) (v : PyVal)
    (hv : v = PyVal.int 0 ∨ v = PyVal.bool false) (keep : Bool) (v2 : PyVal)
    (h : filter_eval_one BinOp.eq "checked" .includePolicy PyVal.none false t0 v
      = some (keep, v2)) :
    (v2 = PyVal.int 0 ∨ v2 = PyVal.bool false) ∧
      (keep = true → dget t0 "checked" ≠ some (.int 1)) := by
  unfold filter_eval_one get_value_commands resolve_taskkey at h
  dsimp only at h
  rw [if_neg (by
    intro hc
    rcases hc.2 with h2 | h2
    · exact absurd h2 (by decide)
    · exact absurd h2 (by decide))] at h
  simp only [Option.bind_eq_bind, Option.some_bind] at h
  cases hco : coerce_value_commands (dgetD t0 "checked" PyVal.none) v with
  | none =>
      rw [hco] at h
      simp only [Option.none_bind] at h
      cases h
  | some v3 =>
      rw [hco] at h
      simp only [Option.pure_def, Option.some_bind] at h
      try dsimp only at h
      have hinv := coerce_checked_inv _ v v3 hv hco
      by_cases hz : dgetD t0 "checked" PyVal.none = PyVal.none
      · rw [if_pos hz] at h
        simp only [Option.pure_def, Option.some_inj, Prod.mk.injEq] at h
        obtain ⟨hk, hv2⟩ := h
        subst hv2
        refine ⟨hinv, ?_⟩
        intro _ hc
        unfold dgetD at hz
        rw [hc] at hz
        exact PyVal.noConfusion hz
      · rw [if_neg hz] at h
        unfold BinOp.eq at h
        simp only [Option.some_bind, Option.pure_def, Option.some_inj,
          Prod.mk.injEq] at h
        obtain ⟨hk, hv2⟩ := h
        subst hv2
        refine ⟨hinv, ?_⟩
        intro hkeep hc
        have htv : dgetD t0 "checked" PyVal.none = PyVal.int 1 := by
          unfold dgetD
          rw [hc]
          rfl
        rw [htv] at hco
        have hv3 : v3 = PyVal.int 0 := by
          rcases hv with rfl | rfl
          · unfold coerce_value_commands at hco
            rw [if_neg (by intro hcc; exact hcc.2.1 rfl)] at hco
            cases hco
            rfl
          · unfold coerce_value_commands at hco
            rw [if_pos ⟨(by intro hcc; cases hcc), (by intro hcc2; cases hcc2), rfl⟩] at hco
            dsimp only at hco
            cases hco
            rfl
        subst hv3
        rw [htv] at hk
        rw [← hk] at hkeep
        exact absurd hkeep (by decide)

theorem checked_prefilter_loop :
    ∀ (tasks : List Rec) (v : PyVal),
    (v = PyVal.int 0 ∨ v = PyVal.bool false) →
    ∀ (out : List Rec),
    filter_tasks_loop BinOp.eq "checked" .includePolicy PyVal.none false tasks v
      = some out →
    ∀ t ∈ out, dget t "checked" ≠ some (.int 1)
  | [], v, hv, out, h => by
      unfold filter_tasks_loop at h
      cases h
      intro t ht
      cases ht
  | t0 :: ts, v, hv, out, h => by
      unfold filter_tasks_loop at h
      simp only [Option.bind_eq_bind] at h
      rw [Option.bind_eq_some] at h
      obtain ⟨⟨keep, v2⟩, he, h⟩ := h
      try dsimp only at h
      rw [Option.bind_eq_some] at h
      obtain ⟨rest, hrest, h⟩ := h
      try dsimp only at h
      simp only [Option.pure_def, Option.some_inj] at h
      subst h
      obtain ⟨hinv, himp⟩ := checked_eval_step t0 v hv keep v2 he
      intro t ht
      by_cases hk : keep = true
      · rw [if_pos hk] at ht
        rcases List.mem_cons.1 ht with rfl | ht
        · exact himp hk
        · exact checked_prefilter_loop ts v2 hinv rest hrest t ht
      · rw [if_neg hk] at ht
        exact checked_prefilter_loop ts v2 hinv rest hrest t ht

theorem checked_prefilter_named (tasks out : List Rec)
    (h : filter_tasks_named "checked" "eq" (.int 0) "include"
      PyVal.none (.bool false) tasks = some out) :
    ∀ t ∈ out, dget t "checked" ≠ some (.int 1) := by
  have heq : filter_tasks_named "checked" "eq" (.int 0) "include"
      PyVal.none (.bool false) tasks
      = filter_tasks_loop BinOp.eq "checked" .includePolicy PyVal.none false
        tasks (.int 0) := rfl
  rw [heq] at h
  exact checked_prefilter_loop tasks (.int 0) (Or.inl rfl) out h

theorem take_two_ne_three (l : List String) :
    ¬(l.take 2 = ["due", "or", "overdue"] ∨ l.take 2 = ["overdue", "or", "due"]) := by
  intro hc
  have hlen : (l.take 2).length = 3 := by
    rcases hc with hc | hc <;> rw [hc] <;> rfl
  rw [List.length_take] at hlen
  omega

theorem due_filter_core_excludes_checked (env : DateEnv) (tasks : List Rec)
    (negate : Bool) (op_name : String)
    (convert : Option (PyDateTime → PyDateTime)) (when : String)
    (out : List Rec)
    (h : due_filter_core env tasks negate op_name convert when = some out) :
    ∀ t ∈ out, dget t "checked" ≠ some (.int 1) := by
  unfold due_filter_core at h
  try dsimp only at h
  by_cases hHD : (env.parseDT when).2.1 = true
  · rw [if_pos hHD] at h
    simp only [Option.bind_eq_bind] at h
    rw [Option.bind_eq_some] at h
    obtain ⟨tasks2, hpre, h⟩ := h
    try dsimp only at h
    intro t ht
    exact checked_prefilter_named tasks tasks2 hpre t
      (filter_tasks_named_mem _ _ _ _ _ _ tasks2 out h t ht)
  · rw [if_neg hHD] at h
    cases h

/-- C9: every `due`/`overdue` invocation of the `-is` filter — negated
(`-is not due ...`) or not — that returns a result has passed the task
list through the unconditional completed-task pre-filter (taskkey
`checked`, operator `eq 0`, missing policy `include` so tasks lacking the
attribute pass, negate fixed at `False` regardless of the invocation's
negate flag), so the output never contains a task whose `checked`
attribute equals 1; the invocation's negate flag reaches only the
subsequent due-date comparison. -/
theorem special_is_filter_due_excludes_checked (env : DateEnv)
    (tasks : List Rec) (neg : Bool) (a0 : String) (restArgs : List String)
    (out : List Rec)
    (ha0 : a0 = "due" ∨ a0 = "overdue")
    (h : special_is_filter env tasks
      ((if neg then ["not"] else []) ++ a0 :: restArgs) = some out) :
    ∀ t ∈ out, dget t "checked" ≠ some (.int 1) := by
  unfold special_is_filter at h
  rcases ha0 with rfl | rfl <;> cases neg <;>
  · simp only [Bool.false_eq_true, if_false, if_true, reduceIte,
      List.cons_append, List.nil_append] at h
    simp only [Option.bind_eq_bind, String.reduceEq, reduceIte, Option.some_bind,
      or_true, true_or, or_false, false_or, if_true, ite_true] at h
    try dsimp only at h
    rw [if_neg (take_two_ne_three _)] at h
    try dsimp only at h
    repeat' split at h
    all_goals try simp only [Option.bind_eq_bind, Option.none_bind,
      Option.some_bind] at h
    all_goals
      first
        | cases h
        | exact due_filter_core_excludes_checked env tasks _ _ _ _ out h

/-- Witness for C9: `-is due before tomorrow` under `demoEnv` keeps the
open past-due task, and that surviving task indeed has `checked ≠ 1`. -/
theorem special_is_filter_due_excludes_checked_w :
    dget demoDueTask "checked" ≠ some (.int 1) :=
  special_is_filter_due_excludes_checked demoEnv [demoDueTask]
    false "due" ["before", "tomorrow"] [demoDueTask] (Or.inl rfl) (by decide)
    demoDueTask (by decide)

end Actionista